import Mathlib

/-!
# SqliteDemo: a shallow embedding of `src/main.c`

The program is a single-file database: a pager over one file, one B-tree
leaf per page, ordered insert with binary search, a leaf split, and a
line-oriented front end.

Modelling conventions.

* A byte is `Fin 256`.  A buffer (`Page`) is a function from byte offset
  to byte; a pointer into a page is a byte offset.  The code never
  touches offsets at or beyond `PAGE_SIZE` as long as cell indices stay
  below `LEAF_NODE_MAX_CELLS`.
* `uint32_t` values are naturals; arithmetic that can wrap is written
  with `% 2 ^ 32`.  A 32-bit load or store uses the little-endian byte
  order of the host the program targets.
* `exit(EXIT_FAILURE)` is `Except.error` with the reason.
* `malloc` returns uninitialised memory: the pager carries the contents
  the allocator will hand out next (`uninit`), which are arbitrary.
* `is_node_root` and `create_new_root` are called by the split but are
  defined nowhere in the source; they are parameters (`Hooks`).
-/

namespace SqliteDemo

/-! ## Layout constants (main.c 13-87) -/

def COLUMN_USERNAME_SIZE : Nat := 32
def COLUMN_EMAIL_SIZE : Nat := 255
def TABLE_MAX_PAGES : Nat := 100

def NODE_TYPE_SIZE : Nat := 1
def NODE_TYPE_OFFSET : Nat := 0
def IS_ROOT_SIZE : Nat := 1
def IS_ROOT_OFFSET : Nat := NODE_TYPE_SIZE
def PARENT_POINTER_SIZE : Nat := 4
def PARENT_POINTER_OFFSET : Nat := IS_ROOT_OFFSET + IS_ROOT_SIZE
/-- Declared `uint8_t` in the source, hence the reduction modulo 256. -/
def COMMON_NODE_HEADER_SIZE : Nat :=
  (NODE_TYPE_SIZE + IS_ROOT_SIZE + PARENT_POINTER_SIZE) % 256

def LEAF_NODE_NUM_CELLS_SIZE : Nat := 4
def LEAF_NODE_NUM_CELLS_OFFSET : Nat := COMMON_NODE_HEADER_SIZE
def LEAF_NODE_HEADER_SIZE : Nat := COMMON_NODE_HEADER_SIZE + LEAF_NODE_NUM_CELLS_SIZE

def ID_SIZE : Nat := 4
def USERNAME_SIZE : Nat := COLUMN_USERNAME_SIZE + 1
def EMAIL_SIZE : Nat := COLUMN_EMAIL_SIZE + 1
def ID_OFFSET : Nat := 0
def USERNAME_OFFSET : Nat := ID_OFFSET + ID_SIZE
def EMAIL_OFFSET : Nat := USERNAME_OFFSET + USERNAME_SIZE
def ROW_SIZE : Nat := ID_SIZE + USERNAME_SIZE + EMAIL_SIZE
def PAGE_SIZE : Nat := 4096

def LEAF_NODE_KEY_SIZE : Nat := 4
def LEAF_NODE_KEY_OFFSET : Nat := 0
def LEAF_NODE_VALUE_SIZE : Nat := ROW_SIZE
def LEAF_NODE_VALUE_OFFSET : Nat := LEAF_NODE_KEY_OFFSET + LEAF_NODE_KEY_SIZE
def LEAF_NODE_CELL_SIZE : Nat := LEAF_NODE_KEY_SIZE + LEAF_NODE_VALUE_SIZE
def LEAF_NODE_SPACE_FOR_CELLS : Nat := PAGE_SIZE - LEAF_NODE_HEADER_SIZE
def LEAF_NODE_MAX_CELLS : Nat := LEAF_NODE_SPACE_FOR_CELLS / LEAF_NODE_CELL_SIZE

def LEAF_NODE_RIGHT_SPLIT_COUNT : Nat := (LEAF_NODE_MAX_CELLS + 1) / 2
def LEAF_NODE_LEFT_SPLIT_COUNT : Nat := (LEAF_NODE_MAX_CELLS + 1) - LEAF_NODE_RIGHT_SPLIT_COUNT

/-! ## Bytes and buffers -/

abbrev Byte := Fin 256

/-- A buffer, addressed by byte offset. -/
abbrev Page := Nat → Byte

/-- Load of a `uint32_t` at a byte offset. -/
def read_u32 (m : Page) (off : Nat) : Nat :=
  (m off).val + 256 * (m (off + 1)).val + 65536 * (m (off + 2)).val
    + 16777216 * (m (off + 3)).val

/-- Byte `k` (0 is the least significant) of a 32-bit value. -/
def u32_byte (v k : Nat) : Byte := Fin.ofNat (v / 256 ^ k % 256)

/-- Store of a `uint32_t` at a byte offset. -/
def write_u32 (m : Page) (off v : Nat) : Page :=
  fun a => if off ≤ a ∧ a < off + 4 then u32_byte v (a - off) else m a

/-- The call `memcpy(dst + d, src + s, n)` between two buffers; the result
is the destination buffer afterwards. -/
def memcpy (dst : Page) (d : Nat) (src : Page) (s n : Nat) : Page :=
  fun a => if d ≤ a ∧ a < d + n then src (s + (a - d)) else dst a

/-- The call `memcpy(dst + d, arr, n)` from a `char` array held by value. -/
def memcpy_array (dst : Page) (d : Nat) (arr : List Byte) (n : Nat) : Page :=
  fun a => if d ≤ a ∧ a < d + n then arr.getD (a - d) 0 else dst a

/-- The bytes `[off, off + n)` of a buffer. -/
def read_array (m : Page) (off n : Nat) : List Byte :=
  (List.range n).map (fun i => m (off + i))

/-! ## Row and its codec (main.c 28-32, 243-247, 296-300) -/

/-- The struct `Row`: a 32-bit id and two fixed-width `char` arrays. -/
structure Row where
  id : Nat
  username : List Byte
  email : List Byte
  id_lt : id < 2 ^ 32
  username_len : username.length = USERNAME_SIZE
  email_len : email.length = EMAIL_SIZE
deriving DecidableEq

/-- Writes the three fields of `source` at `destination` inside `mem`. -/
def serialize_row (source : Row) (mem : Page) (destination : Nat) : Page :=
  let m1 := write_u32 mem (destination + ID_OFFSET) source.id
  let m2 := memcpy_array m1 (destination + USERNAME_OFFSET) source.username USERNAME_SIZE
  memcpy_array m2 (destination + EMAIL_OFFSET) source.email EMAIL_SIZE

/-- Reads the three fields of a row stored at `source` inside `mem`. -/
def deserialize_row (mem : Page) (source : Nat) : Row where
  id := read_u32 mem (source + ID_OFFSET)
  username := read_array mem (source + USERNAME_OFFSET) USERNAME_SIZE
  email := read_array mem (source + EMAIL_OFFSET) EMAIL_SIZE
  id_lt := by unfold read_u32; omega
  username_len := by simp [read_array]
  email_len := by simp [read_array]

/-! ## Node accessors (main.c 213-238, 642-650)

A pointer into a node is a byte offset from the start of the page. -/

def NODE_INTERNAL : Nat := 0
def NODE_LEAF : Nat := 1

/-- Offset of the cell count: `leaf_node_num_cells(node) - node`. -/
def leaf_node_num_cells : Nat := LEAF_NODE_NUM_CELLS_OFFSET

/-- Offset of a cell: `leaf_node_cell(node, cell_num) - node`.  The product
is a `uint32_t` product. -/
def leaf_node_cell (cell_num : Nat) : Nat :=
  LEAF_NODE_HEADER_SIZE + (cell_num * LEAF_NODE_CELL_SIZE) % 2 ^ 32

/-- Offset of the key of a cell. -/
def leaf_node_key (cell_num : Nat) : Nat := leaf_node_cell cell_num

/-- Offset of the value of a cell. -/
def leaf_node_value (cell_num : Nat) : Nat := leaf_node_cell cell_num + LEAF_NODE_KEY_SIZE

/-- The byte at `NODE_TYPE_OFFSET`, read as a `NodeType`. -/
def get_node_type (node : Page) : Nat := (node NODE_TYPE_OFFSET).val

/-- Stores the type tag in the byte at `NODE_TYPE_OFFSET`. -/
def set_node_type (node : Page) (type : Nat) : Page :=
  fun a => if a = NODE_TYPE_OFFSET then Fin.ofNat type else node a

/-- Sets the type tag to leaf and the cell count to 0; nothing else. -/
def initialize_leaf_node (node : Page) : Page :=
  write_u32 (set_node_type node NODE_LEAF) leaf_node_num_cells 0

/-! ## Pager (main.c 95-100, 255-291, 313-330, 533-535, 751-773) -/

/-- Ways the process ends through `exit(EXIT_FAILURE)`.  `no_result` is not
an exit: it marks a loop of the model that used up its iteration bound. -/
inductive Fatal
  | page_out_of_bounds
  | flush_null_page
  | internal_node_search
  | update_parent
  | open_failed
  | corrupt_file
  | no_result
deriving DecidableEq, Repr

/-- The database file as a byte sequence: its length and its bytes. -/
structure File where
  length : Nat
  bytes : Nat → Byte

/-- The call `read(fd, buf, count)` at file position `off`: copies the bytes
the file has there and leaves the rest of the buffer as it was. -/
def file_read (f : File) (off : Nat) (buf : Page) (count : Nat) : Page :=
  fun a => if a < count ∧ off + a < f.length then f.bytes (off + a) else buf a

/-- The call `write(fd, buf, count)` at file position `off`; a gap between
the old end of file and `off` reads as zero. -/
def file_write (f : File) (off : Nat) (buf : Page) (count : Nat) : File where
  length := max f.length (off + count)
  bytes := fun a =>
    if off ≤ a ∧ a < off + count then buf (a - off)
    else if a < f.length then f.bytes a else 0

/-- The struct `Pager`.  `file_descriptor` stands for the open file, with
its current content.  `uninit` is the content of the buffers `malloc`
returns, next first. -/
structure Pager where
  file_descriptor : File
  file_length : Nat
  num_pages : Nat
  pages : Nat → Option Page
  uninit : Nat → Page

/-- The buffer behind `pager->pages[page_num]`. -/
def Pager.node (pager : Pager) (page_num : Nat) : Page :=
  (pager.pages page_num).getD (fun _ => 0)

/-- Replaces the content of the buffer behind `pager->pages[page_num]`. -/
def Pager.set_node (pager : Pager) (page_num : Nat) (node : Page) : Pager :=
  { pager with pages := Function.update pager.pages page_num (some node) }

/-- The pager after `get_page(pager, page_num)`; the pointer returned is the
buffer of slot `page_num`. -/
def get_page (pager : Pager) (page_num : Nat) : Except Fatal Pager :=
  if page_num ≥ TABLE_MAX_PAGES then .error .page_out_of_bounds
  else
    match pager.pages page_num with
    | some _ => .ok pager
    | none =>
      let page := pager.uninit 0
      let num_pages := pager.file_length / PAGE_SIZE
      let num_pages := if pager.file_length % PAGE_SIZE ≠ 0 then num_pages + 1 else num_pages
      let page :=
        if page_num ≤ num_pages then
          file_read pager.file_descriptor (page_num * PAGE_SIZE) page PAGE_SIZE
        else page
      .ok { pager with
            num_pages := if page_num ≥ pager.num_pages then page_num + 1 else pager.num_pages
            pages := Function.update pager.pages page_num (some page)
            uninit := fun k => pager.uninit (k + 1) }

def get_unused_page_num (pager : Pager) : Nat := pager.num_pages

/-- Writes slot `page_num` to the file at `page_num * PAGE_SIZE`. -/
def pager_flush (pager : Pager) (page_num : Nat) : Except Fatal Pager :=
  match pager.pages page_num with
  | none => .error .flush_null_page
  | some page =>
    .ok { pager with
          file_descriptor :=
            file_write pager.file_descriptor ((page_num * PAGE_SIZE) % 2 ^ 32) page PAGE_SIZE }

/-- Opens the file (`none`: it does not exist).  `uninit` is what the
allocator will return during the session. -/
def pager_open (file : Option File) (uninit : Nat → Page) : Except Fatal Pager :=
  match file with
  | none => .error .open_failed
  | some f =>
    if f.length % PAGE_SIZE ≠ 0 then .error .corrupt_file
    else
      .ok { file_descriptor := f
            file_length := f.length % 2 ^ 32
            num_pages := (f.length / PAGE_SIZE) % 2 ^ 32
            pages := fun _ => none
            uninit := uninit }

/-! ## Table and cursor (main.c 178-209, 385-395, 508-527) -/

structure Table where
  pager : Pager
  root_page_num : Nat

/-- The struct `Cursor`, without its back pointer to the table: the table
is passed next to the cursor. -/
structure Cursor where
  page_num : Nat
  cell_num : Nat
  end_of_table : Bool
deriving DecidableEq, Repr

def db_open (file : Option File) (uninit : Nat → Page) : Except Fatal Table :=
  match pager_open file uninit with
  | .error e => .error e
  | .ok pager =>
    if pager.num_pages = 0 then
      match get_page pager 0 with
      | .error e => .error e
      | .ok pager1 =>
        .ok { pager := pager1.set_node 0 (initialize_leaf_node (pager1.node 0))
              root_page_num := 0 }
    else .ok { pager := pager, root_page_num := 0 }

/-- The first loop of `db_close`, for `i` from `i` up: flush and release
every occupied slot below `num_pages`.  `k` counts the iterations left. -/
def db_close_loop : Nat → Nat → Pager → Except Fatal Pager
  | 0, _, pager => .ok pager
  | k + 1, i, pager =>
    match pager.pages i with
    | none => db_close_loop k (i + 1) pager
    | some _ =>
      match pager_flush pager i with
      | .error e => .error e
      | .ok pager1 =>
        db_close_loop k (i + 1) { pager1 with pages := Function.update pager1.pages i none }

/-- Flushes the pages and closes the file; the result is the file left on
disk. -/
def db_close (table : Table) : Except Fatal File :=
  match db_close_loop table.pager.num_pages 0 table.pager with
  | .error e => .error e
  | .ok pager => .ok pager.file_descriptor

def table_start (table : Table) : Except Fatal (Cursor × Table) :=
  match get_page table.pager table.root_page_num with
  | .error e => .error e
  | .ok pager =>
    let root_node := pager.node table.root_page_num
    let num_cells := read_u32 root_node leaf_node_num_cells
    .ok ({ page_num := table.root_page_num, cell_num := 0,
           end_of_table := decide (num_cells = 0) },
         { table with pager := pager })

/-- The offset, inside the page of the cursor, of the value it points at. -/
def cursor_value (table : Table) (cursor : Cursor) : Except Fatal (Nat × Table) :=
  match get_page table.pager cursor.page_num with
  | .error e => .error e
  | .ok pager => .ok (leaf_node_value cursor.cell_num, { table with pager := pager })

def cursor_advance (table : Table) (cursor : Cursor) : Except Fatal (Cursor × Table) :=
  match get_page table.pager cursor.page_num with
  | .error e => .error e
  | .ok pager =>
    let node := pager.node cursor.page_num
    let cell_num := (cursor.cell_num + 1) % 2 ^ 32
    .ok ({ cursor with
           cell_num := cell_num
           end_of_table :=
             if cell_num = read_u32 node leaf_node_num_cells then true
             else cursor.end_of_table },
         { table with pager := pager })

/-- Stand-ins for the two functions the split calls and the source does not
define. -/
structure Hooks where
  is_node_root : Page → Bool
  create_new_root : Table → Nat → Except Fatal Table

/-! ## Leaf operations (main.c 544-640) -/

/-- The `while` loop of `leaf_node_find`: the cell number the cursor gets.
The first argument bounds the number of iterations. -/
def leaf_node_find_loop (node : Page) (key : Nat) : Nat → Nat → Nat → Option Nat
  | 0, _, _ => none
  | fuel + 1, min_index, one_past_max_index =>
    if one_past_max_index ≠ min_index then
      let index := ((min_index + one_past_max_index) % 2 ^ 32) / 2
      let key_at_index := read_u32 node (leaf_node_key index)
      if key_at_index = key then some index
      else if key < key_at_index then leaf_node_find_loop node key fuel min_index index
      else leaf_node_find_loop node key fuel ((index + 1) % 2 ^ 32) one_past_max_index
    else some min_index

/-- Binary search in the leaf at `page_num`.  The loop gets `num_cells + 1`
iterations, which is all it needs while `num_cells < 2 ^ 31`.  The source
leaves `end_of_table` of the new cursor unset and never reads it. -/
def leaf_node_find (table : Table) (page_num key : Nat) : Except Fatal (Cursor × Table) :=
  match get_page table.pager page_num with
  | .error e => .error e
  | .ok pager =>
    let node := pager.node page_num
    let num_cells := read_u32 node leaf_node_num_cells
    match leaf_node_find_loop node key (num_cells + 1) 0 num_cells with
    | none => .error .no_result
    | some cell_num =>
      .ok ({ page_num := page_num, cell_num := cell_num, end_of_table := false },
           { table with pager := pager })

def table_find (table : Table) (key : Nat) : Except Fatal (Cursor × Table) :=
  let root_page_num := table.root_page_num
  match get_page table.pager root_page_num with
  | .error e => .error e
  | .ok pager =>
    let root_node := pager.node root_page_num
    if get_node_type root_node = NODE_LEAF then
      leaf_node_find { table with pager := pager } root_page_num key
    else .error .internal_node_search

/-- The `for` loop of `leaf_node_split_and_insert`, for `i` from the first
argument minus one down to 0.  The buffers of the old and the new node are
the slots `old_page_num` and `new_page_num` of the pager. -/
def leaf_node_split_loop (old_page_num new_page_num cell_num : Nat) (value : Row) :
    Nat → Pager → Pager
  | 0, pager => pager
  | i + 1, pager =>
    let destination_node :=
      if i ≥ LEAF_NODE_LEFT_SPLIT_COUNT then new_page_num else old_page_num
    let index_within_node := i % LEAF_NODE_LEFT_SPLIT_COUNT
    let destination := leaf_node_cell index_within_node
    let old_node := pager.node old_page_num
    let buffer := pager.node destination_node
    let buffer :=
      if i = cell_num then serialize_row value buffer destination
      else if i > cell_num then
        memcpy buffer destination old_node (leaf_node_cell (i - 1)) LEAF_NODE_CELL_SIZE
      else memcpy buffer destination old_node (leaf_node_cell i) LEAF_NODE_CELL_SIZE
    leaf_node_split_loop old_page_num new_page_num cell_num value i
      (pager.set_node destination_node buffer)

/-- Lines 552-582 of `leaf_node_split_and_insert`, on the pager that holds
both nodes: the new node is initialised, the cells are spread, the two cell
counts are set. -/
def leaf_node_split_pager (pager1 : Pager) (old_page_num new_page_num cell_num : Nat)
    (value : Row) : Pager :=
  let pager2 := pager1.set_node new_page_num (initialize_leaf_node (pager1.node new_page_num))
  let pager3 := leaf_node_split_loop old_page_num new_page_num cell_num value
    (LEAF_NODE_MAX_CELLS + 1) pager2
  let pager4 := pager3.set_node old_page_num
    (write_u32 (pager3.node old_page_num) leaf_node_num_cells LEAF_NODE_LEFT_SPLIT_COUNT)
  pager4.set_node new_page_num
    (write_u32 (pager4.node new_page_num) leaf_node_num_cells LEAF_NODE_RIGHT_SPLIT_COUNT)

/-- Lines 549-582 of `leaf_node_split_and_insert`: everything before the
test `is_node_root`.  Gives the table and the page number of the new node.
The source never uses `key` here. -/
def leaf_node_split_cells (table : Table) (cursor : Cursor) (key : Nat) (value : Row) :
    Except Fatal (Table × Nat) :=
  let _ := key
  match get_page table.pager cursor.page_num with
  | .error e => .error e
  | .ok pager0 =>
    let new_page_num := get_unused_page_num pager0
    match get_page pager0 new_page_num with
    | .error e => .error e
    | .ok pager1 =>
      .ok ({ table with
             pager := leaf_node_split_pager pager1 cursor.page_num new_page_num
               cursor.cell_num value },
           new_page_num)

def leaf_node_split_and_insert (hooks : Hooks) (table : Table) (cursor : Cursor) (key : Nat)
    (value : Row) : Except Fatal Table :=
  match leaf_node_split_cells table cursor key value with
  | .error e => .error e
  | .ok (table1, new_page_num) =>
    if hooks.is_node_root (table1.pager.node cursor.page_num) then
      hooks.create_new_root table1 new_page_num
    else .error .update_parent

/-- The `for` loop of `leaf_node_insert`, for `i` from the given value down
to `cell_num + 1`: cell `i` takes the bytes of cell `i - 1`. -/
def leaf_node_insert_shift (cell_num : Nat) : Nat → Page → Page
  | 0, node => node
  | i + 1, node =>
    if i + 1 > cell_num then
      leaf_node_insert_shift cell_num i
        (memcpy node (leaf_node_cell (i + 1)) node (leaf_node_cell i) LEAF_NODE_CELL_SIZE)
    else node

/-- The part of `leaf_node_insert` for a node that has room (lines 602-610),
on the buffer of the node. -/
def leaf_node_insert_cell (node : Page) (cell_num key : Nat) (value : Row) : Page :=
  let num_cells := read_u32 node leaf_node_num_cells
  let node1 := if cell_num < num_cells then leaf_node_insert_shift cell_num num_cells node else node
  let node2 := write_u32 node1 leaf_node_num_cells
    ((read_u32 node1 leaf_node_num_cells + 1) % 2 ^ 32)
  let node3 := write_u32 node2 (leaf_node_key cell_num) key
  serialize_row value node3 (leaf_node_value cell_num)

def leaf_node_insert (hooks : Hooks) (table : Table) (cursor : Cursor) (key : Nat)
    (value : Row) : Except Fatal Table :=
  match get_page table.pager cursor.page_num with
  | .error e => .error e
  | .ok pager =>
    let node := pager.node cursor.page_num
    let num_cells := read_u32 node leaf_node_num_cells
    if num_cells ≥ LEAF_NODE_MAX_CELLS then
      leaf_node_split_and_insert hooks { table with pager := pager } cursor key value
    else
      .ok { table with
            pager := pager.set_node cursor.page_num
              (leaf_node_insert_cell node cursor.cell_num key value) }

/-! ## Statements (main.c 144-189, 669-726) -/

inductive StatementType
  | STATEMENT_INSERT
  | STATEMENT_SELECT
deriving DecidableEq, Repr

structure Statement where
  type : StatementType
  row_to_insert : Row

inductive ExecuteResult
  | EXECUTE_SUCCESS
  | EXECUTE_TABLE_FULL
  | EXECUTE_UNRECOGNIZED_STATEMENT
  | EXECUTE_DUPLICATE_KEY
deriving DecidableEq, Repr

def execute_insert (hooks : Hooks) (statement : Statement) (table : Table) :
    Except Fatal (ExecuteResult × Table) :=
  match get_page table.pager table.root_page_num with
  | .error e => .error e
  | .ok pager =>
    let num_cells := read_u32 (pager.node table.root_page_num) leaf_node_num_cells
    let row_to_insert := statement.row_to_insert
    let key_to_insert := row_to_insert.id
    match table_find { table with pager := pager } key_to_insert with
    | .error e => .error e
    | .ok (cursor, table1) =>
      -- `node` still points at the buffer of the root page
      let node := table1.pager.node table.root_page_num
      if cursor.cell_num < num_cells ∧
          read_u32 node (leaf_node_key cursor.cell_num) = key_to_insert then
        .ok (.EXECUTE_DUPLICATE_KEY, table1)
      else
        match leaf_node_insert hooks table1 cursor row_to_insert.id row_to_insert with
        | .error e => .error e
        | .ok table2 => .ok (.EXECUTE_SUCCESS, table2)

/-- The `while` loop of `execute_select`; the rows are those handed to
`print_row`, in order.  The first argument bounds the number of
iterations. -/
def execute_select_loop : Nat → Table → Cursor → List Row → Except Fatal (List Row × Table)
  | 0, _, _, _ => .error .no_result
  | fuel + 1, table, cursor, printed =>
    if !cursor.end_of_table then
      match cursor_value table cursor with
      | .error e => .error e
      | .ok (value, table1) =>
        let row := deserialize_row (table1.pager.node cursor.page_num) value
        match cursor_advance table1 cursor with
        | .error e => .error e
        | .ok (cursor1, table2) => execute_select_loop fuel table2 cursor1 (printed ++ [row])
    else .ok (printed, table)

/-- The rows printed by a scan.  A cursor takes at most `2 ^ 32` values of
`cell_num`, so the loop needs at most `2 ^ 32` iterations. -/
def execute_select (table : Table) : Except Fatal (ExecuteResult × List Row × Table) :=
  match table_start table with
  | .error e => .error e
  | .ok (cursor, table1) =>
    match execute_select_loop 4294967297 table1 cursor [] with
    | .error e => .error e
    | .ok (printed, table2) => .ok (.EXECUTE_SUCCESS, printed, table2)

/-! ## Front end (main.c 109-170, 412-501, 792-856) -/

/-- The struct `InputBuffer`: the bytes `getline` stored, without the
terminator written by `read_input`. -/
structure InputBuffer where
  buffer : List Byte

/-- The C string a buffer holds: its bytes before the first NUL. -/
def c_string (buffer : List Byte) : List Byte := buffer.takeWhile (fun c => c ≠ 0)

/-- One call of `strtok` with the delimiter `" "` on what is left of the
string: the token (`none` is `NULL`) and what is left after it. -/
def strtok (rest : List Byte) : Option (List Byte) × List Byte :=
  match rest.dropWhile (fun c => c = 32) with
  | [] => (none, [])
  | c :: cs =>
    (some ((c :: cs).takeWhile (fun x => x ≠ 32)),
     ((c :: cs).dropWhile (fun x => x ≠ 32)).drop 1)

def is_space (c : Byte) : Bool := c = 32 || (9 ≤ c.val && c.val ≤ 13)

def is_digit (c : Byte) : Bool := 48 ≤ c.val && c.val ≤ 57

/-- The digits at the head of a string, read in base ten. -/
def atoi_digits : List Byte → Nat → Nat
  | [], acc => acc
  | c :: cs, acc => if is_digit c then atoi_digits cs (acc * 10 + (c.val - 48)) else acc

/-- The function `atoi`: white space, an optional sign, digits.  The value
is the one C defines when it fits an `int`. -/
def atoi (s : List Byte) : Int :=
  match s.dropWhile is_space with
  | [] => 0
  | c :: cs =>
    if c = 45 then - (atoi_digits cs 0 : Int)
    else if c = 43 then (atoi_digits cs 0 : Int)
    else (atoi_digits (c :: cs) 0 : Int)

/-- The call `strcpy(dst, src)` into a fixed-size array: the string, its
terminator, and the old bytes of the array after them. -/
def strcpy (dst src : List Byte) : List Byte :=
  (src ++ 0 :: dst.drop (src.length + 1)).take dst.length

inductive PrepareResult
  | PREPARE_SUCCESS
  | PREPARE_UNRECOGNIZED_STATEMENT
  | PREPARE_SYNTAX_ERROR
  | PREPARE_STRING_TOO_LONG
  | PREPARE_NEGATIVE_ID
deriving DecidableEq, Repr

/-- The statement passed in is the caller's variable, with whatever it held
before the call. -/
def prepare_insert (input_buffer : InputBuffer) (statement : Statement) :
    PrepareResult × Statement :=
  let keyword := strtok (c_string input_buffer.buffer)
  let id_str := strtok keyword.2
  let username := strtok id_str.2
  let email := strtok username.2
  match id_str.1, username.1, email.1 with
  | some id_str, some username, some email =>
    let id := atoi id_str
    if username.length > COLUMN_USERNAME_SIZE then
      (.PREPARE_STRING_TOO_LONG, { statement with type := .STATEMENT_INSERT })
    else if email.length > COLUMN_EMAIL_SIZE then
      (.PREPARE_STRING_TOO_LONG, { statement with type := .STATEMENT_INSERT })
    else
      (.PREPARE_SUCCESS,
       { type := .STATEMENT_INSERT
         row_to_insert :=
           { id := (id % 2 ^ 32).toNat
             username := strcpy statement.row_to_insert.username username
             email := strcpy statement.row_to_insert.email email
             id_lt := by
               have h := Int.emod_lt_of_pos id (show (0 : Int) < 2 ^ 32 by norm_num)
               have h0 := Int.emod_nonneg id (show (2 : Int) ^ 32 ≠ 0 by norm_num)
               omega
             username_len := by
               have h := statement.row_to_insert.username_len
               simp only [strcpy, List.length_take, List.length_append, List.length_cons,
                 List.length_drop]
               omega
             email_len := by
               have h := statement.row_to_insert.email_len
               simp only [strcpy, List.length_take, List.length_append, List.length_cons,
                 List.length_drop]
               omega } })
  | _, _, _ => (.PREPARE_STRING_TOO_LONG, { statement with type := .STATEMENT_INSERT })

/-- The bytes of `insert`. -/
def keyword_insert : List Byte := [105, 110, 115, 101, 114, 116]

/-- The bytes of `select`. -/
def keyword_select : List Byte := [115, 101, 108, 101, 99, 116]

/-- Both `strncmp` calls compare six bytes. -/
def prepare_statement (input_buffer : InputBuffer) (statement : Statement) :
    PrepareResult × Statement :=
  if (c_string input_buffer.buffer).take 6 = keyword_insert then
    prepare_insert input_buffer statement
  else if (c_string input_buffer.buffer).take 6 = keyword_select then
    (.PREPARE_SUCCESS, { statement with type := StatementType.STATEMENT_SELECT })
  else (.PREPARE_UNRECOGNIZED_STATEMENT, statement)

def execute_statement (hooks : Hooks) (statement : Statement) (table : Table) :
    Except Fatal (ExecuteResult × List Row × Table) :=
  match statement.type with
  | .STATEMENT_INSERT =>
    match execute_insert hooks statement table with
    | .error e => .error e
    | .ok (result, table1) => .ok (result, [], table1)
  | .STATEMENT_SELECT => execute_select table

/-- What one line makes the program print, message by message. -/
inductive Output
  | row (r : Row)
  | executed
  | duplicate_key
  | table_full
  | string_too_long
  | negative_id
  | syntax_error
  | unrecognized_statement
  | unrecognized_meta_command
  | tree (keys : List Nat)
  | constants
deriving DecidableEq

/-- How one turn of the loop of `main` ends: the loop goes on with a table,
or the process exits with status 0 and leaves a file. -/
inductive Turn
  | next (table : Table) (output : List Output)
  | exit (file : File)

inductive MetaCommandResult
  | META_COMMAND_SUCCESS
  | META_COMMAND_UNRECOGNIZED_COMMAND
deriving DecidableEq, Repr

/-- How `do_meta_command` ends: it returns a result, with the table and what
it printed, or it closes the database and exits with status 0. -/
inductive MetaCommandEnd
  | returned (result : MetaCommandResult) (table : Table) (output : List Output)
  | exited (file : File)

/-- The bytes of `.exit`. -/
def command_exit : List Byte := [46, 101, 120, 105, 116]

/-- The bytes of `.btree`. -/
def command_btree : List Byte := [46, 98, 116, 114, 101, 101]

/-- The bytes of `.constants`. -/
def command_constants : List Byte := [46, 99, 111, 110, 115, 116, 97, 110, 116, 115]

/-- The cell count of a node and the key of each of its cells. -/
def print_leaf_node (node : Page) : List Output :=
  [.tree ((List.range (read_u32 node leaf_node_num_cells)).map
    (fun i => read_u32 node (leaf_node_key i)))]

def do_meta_command (input_buffer : InputBuffer) (table : Table) :
    Except Fatal MetaCommandEnd :=
  if c_string input_buffer.buffer = command_exit then
    match db_close table with
    | .error e => .error e
    | .ok file => .ok (.exited file)
  else if c_string input_buffer.buffer = command_btree then
    match get_page table.pager 0 with
    | .error e => .error e
    | .ok pager =>
      .ok (.returned .META_COMMAND_SUCCESS { table with pager := pager }
        (print_leaf_node (pager.node 0)))
  else if c_string input_buffer.buffer = command_constants then
    .ok (.returned .META_COMMAND_SUCCESS table [.constants])
  else .ok (.returned .META_COMMAND_UNRECOGNIZED_COMMAND table [])

/-- One turn of the loop of `main` on a line already read.  `statement` is
the content of the local variable before the line is prepared. -/
def main_turn (hooks : Hooks) (table : Table) (input_buffer : InputBuffer)
    (statement : Statement) : Except Fatal Turn :=
  if input_buffer.buffer.head? = some 46 then
    match do_meta_command input_buffer table with
    | .error e => .error e
    | .ok (.exited file) => .ok (.exit file)
    | .ok (.returned .META_COMMAND_SUCCESS table1 output) => .ok (.next table1 output)
    | .ok (.returned .META_COMMAND_UNRECOGNIZED_COMMAND table1 output) =>
      .ok (.next table1 (output ++ [.unrecognized_meta_command]))
  else
    match prepare_statement input_buffer statement with
    | (.PREPARE_SUCCESS, statement1) =>
      match execute_statement hooks statement1 table with
      | .error e => .error e
      | .ok (.EXECUTE_SUCCESS, printed, table1) =>
        .ok (.next table1 (printed.map Output.row ++ [.executed]))
      | .ok (.EXECUTE_DUPLICATE_KEY, printed, table1) =>
        .ok (.next table1 (printed.map Output.row ++ [.duplicate_key]))
      | .ok (.EXECUTE_TABLE_FULL, printed, table1) =>
        .ok (.next table1 (printed.map Output.row ++ [.table_full]))
      | .ok (.EXECUTE_UNRECOGNIZED_STATEMENT, printed, table1) =>
        .ok (.next table1 (printed.map Output.row))
    | (.PREPARE_STRING_TOO_LONG, _) => .ok (.next table [.string_too_long])
    | (.PREPARE_NEGATIVE_ID, _) => .ok (.next table [.negative_id])
    | (.PREPARE_SYNTAX_ERROR, _) => .ok (.next table [.syntax_error])
    | (.PREPARE_UNRECOGNIZED_STATEMENT, _) => .ok (.next table [.unrecognized_statement])

/-- Runs `execute_insert` for each row in turn; gives the final table and
the result of each call.  Stops at the first fatal exit. -/
def run_inserts (hooks : Hooks) : Table → List Row → Except Fatal (Table × List ExecuteResult)
  | table, [] => .ok (table, [])
  | table, row :: rows =>
    match execute_insert hooks { type := .STATEMENT_INSERT, row_to_insert := row } table with
    | .error e => .error e
    | .ok (result, table1) =>
      match run_inserts hooks table1 rows with
      | .error e => .error e
      | .ok (table2, results) => .ok (table2, result :: results)

/-! ## Reading a leaf cell by cell -/

/-- The key stored in cell `i` of a leaf. -/
def leaf_key_at (node : Page) (i : Nat) : Nat := read_u32 node (leaf_node_key i)

/-- The row decoded from the value of cell `i` of a leaf. -/
def leaf_row_at (node : Page) (i : Nat) : Row := deserialize_row node (leaf_node_value i)

/-- The rows of a leaf, cell 0 first, as many as its cell count says. -/
def leaf_rows (node : Page) : List Row :=
  (List.range (read_u32 node leaf_node_num_cells)).map (leaf_row_at node)

/-- The page is a leaf with at most `LEAF_NODE_MAX_CELLS` cells, whose keys
ascend strictly and are the ids of the rows stored next to them. -/
def leaf_ok (node : Page) : Prop :=
  get_node_type node = NODE_LEAF
  ∧ read_u32 node leaf_node_num_cells ≤ LEAF_NODE_MAX_CELLS
  ∧ (∀ i j, i < j → j < read_u32 node leaf_node_num_cells →
      leaf_key_at node i < leaf_key_at node j)
  ∧ (∀ i, i < read_u32 node leaf_node_num_cells →
      leaf_key_at node i = (leaf_row_at node i).id)

/-- The rows whose call returned `EXECUTE_SUCCESS`, in call order. -/
def inserted_rows (rows : List Row) (results : List ExecuteResult) : List Row :=
  ((rows.zip results).filter
    (fun p => decide (p.2 = ExecuteResult.EXECUTE_SUCCESS))).map Prod.fst

/-- What each call in a run of inserts is to return: `EXECUTE_DUPLICATE_KEY`
when the id is among `seen` or came earlier in the run, `EXECUTE_SUCCESS`
when it is new. -/
def expected_results : List Nat → List Row → List ExecuteResult
  | _, [] => []
  | seen, r :: rows =>
    if r.id ∈ seen then .EXECUTE_DUPLICATE_KEY :: expected_results seen rows
    else .EXECUTE_SUCCESS :: expected_results (r.id :: seen) rows

/-- The rows a database file holds in its root leaf; none when the file is
empty. -/
def stored_rows (file : File) : List Row :=
  if file.length = 0 then [] else leaf_rows file.bytes

/-- The cells of a leaf as pairs of key and decoded row, cell 0 first. -/
def leaf_cells (node : Page) : List (Nat × Row) :=
  (List.range (read_u32 node leaf_node_num_cells)).map
    (fun i => (leaf_key_at node i, leaf_row_at node i))

/-- The `n`-th token `strtok` gives on a string, counting from 0. -/
def strtok_nth : Nat → List Byte → Option (List Byte)
  | 0, s => (strtok s).1
  | n + 1, s => strtok_nth n (strtok s).2

/-! ## Concrete inputs -/

/-- A leaf page with `n` cells: cell `i` has key `2 * i + 1` and a row with
that id and empty strings. -/
def example_leaf (n : Nat) : Page := fun a =>
  if a = 0 then 1
  else if a = 6 then Fin.ofNat n
  else if 10 ≤ a ∧ a < 10 + n * 297 ∧ ((a - 10) % 297 = 0 ∨ (a - 10) % 297 = 4) then
    Fin.ofNat (2 * ((a - 10) / 297) + 1)
  else 0

/-- A table over an empty file whose root page, in the cache, is
`example_leaf n`, with the given `num_pages`. -/
def example_table (n num_pages : Nat) : Table :=
  { pager :=
      { file_descriptor := { length := 0, bytes := fun _ => 0 }
        file_length := 0
        num_pages := num_pages
        pages := fun m => if m = 0 then some (example_leaf n) else none
        uninit := fun _ _ => 0 }
    root_page_num := 0 }

/-- The row `(id, "u", "e")`. -/
def example_row (id : Nat) (h : id < 2 ^ 32) : Row :=
  { id := id
    username := 117 :: List.replicate 32 0
    email := 101 :: List.replicate 255 0
    id_lt := h
    username_len := by rw [List.length_cons, List.length_replicate]; rfl
    email_len := by rw [List.length_cons, List.length_replicate]; rfl }

/-- Hooks that call every node a root and leave the table as it is. -/
def example_hooks : Hooks :=
  { is_node_root := fun _ => true
    create_new_root := fun table _ => .ok table }

/-- Three rows, with ids 3, 1 and 2 in that order. -/
def example_rows : List Row :=
  [example_row 3 (by decide), example_row 1 (by decide), example_row 2 (by decide)]

/-- A statement that inserts `example_row id`. -/
def example_statement (id : Nat) (h : id < 2 ^ 32) : Statement :=
  { type := .STATEMENT_INSERT, row_to_insert := example_row id h }

/-- The line `insert 1 aaa...a bbb...b` with `n` times `a` and 255 times `b`. -/
def example_line (n : Nat) : InputBuffer :=
  { buffer := keyword_insert ++ [32, 49, 32] ++ List.replicate n 97 ++ [32]
      ++ List.replicate 255 98 }

/-- The line `insert -1 u e`. -/
def example_line_negative : InputBuffer :=
  { buffer := keyword_insert ++ [32, 45, 49, 32, 117, 32, 101] }

/-! ## Properties of a pager and of a leaf used in the statements -/

/-- Every occupied slot of the pager lies below `num_pages`.  `pager_open`
starts with no occupied slot, and `get_page`, the only place that fills a
slot, raises `num_pages` above it. -/
def pager_slots_counted (pager : Pager) : Prop :=
  ∀ n node, pager.pages n = some node → n < pager.num_pages

/-- The keys of a leaf, cell 0 first, as many as its cell count says. -/
def leaf_keys (node : Page) : List Nat :=
  (List.range (read_u32 node leaf_node_num_cells)).map (leaf_key_at node)

/-- The `while` loop of `execute_select` once more, keeping for each pass
through the body the cell number of the cursor next to the row read there.
The first argument bounds the number of times the loop test is made. -/
def execute_select_trace :
    Nat → Table → Cursor → List (Nat × Row) → Except Fatal (List (Nat × Row) × Table)
  | 0, _, _, _ => .error .no_result
  | fuel + 1, table, cursor, visited =>
    if !cursor.end_of_table then
      match cursor_value table cursor with
      | .error e => .error e
      | .ok (value, table1) =>
        let row := deserialize_row (table1.pager.node cursor.page_num) value
        match cursor_advance table1 cursor with
        | .error e => .error e
        | .ok (cursor1, table2) =>
          execute_select_trace fuel table2 cursor1 (visited ++ [(cursor.cell_num, row)])
    else .ok (visited, table)

/-- How the loop of `leaf_node_find` ends on a page buffer of `PAGE_SIZE`
bytes: with the cell number for the cursor, from the branch
`key_at_index == key` or from the end of the loop, or at a key whose bytes
do not all lie inside the buffer. -/
inductive SearchEnd
  | cursor (cell_num : Nat) (by_equality : Bool)
  | read_outside_page (index : Nat)
deriving DecidableEq, Repr

/-- The `while` loop of `leaf_node_find` on the buffer `get_page` returns,
which `malloc(PAGE_SIZE)` made: the load `*leaf_node_key(node, index)` is
defined only when its `LEAF_NODE_KEY_SIZE` bytes lie inside the buffer, and
the loop ends there otherwise.  The list keeps the indices at which a key
was read, in order.  The first argument bounds the number of times the loop
test is made. -/
def leaf_node_find_in_page (node : Page) (key : Nat) :
    Nat → Nat → Nat → List Nat → Option (SearchEnd × List Nat)
  | 0, _, _, _ => none
  | fuel + 1, min_index, one_past_max_index, reads =>
    if one_past_max_index ≠ min_index then
      let index := ((min_index + one_past_max_index) % 2 ^ 32) / 2
      if leaf_node_key index + LEAF_NODE_KEY_SIZE ≤ PAGE_SIZE then
        let key_at_index := read_u32 node (leaf_node_key index)
        if key_at_index = key then some (.cursor index true, reads ++ [index])
        else if key < key_at_index then
          leaf_node_find_in_page node key fuel min_index index (reads ++ [index])
        else
          leaf_node_find_in_page node key fuel ((index + 1) % 2 ^ 32) one_past_max_index
            (reads ++ [index])
      else some (.read_outside_page index, reads)
    else some (.cursor min_index false, reads)

/-- A page buffer whose cell count field holds `num_cells` and whose other
bytes are 0, so that every key in it is 0. -/
def example_leaf_zero_keys (num_cells : Nat) : Page :=
  write_u32 (fun _ => 0) leaf_node_num_cells num_cells

/-! ## Numeric values of the constants -/

theorem ROW_SIZE_eq : ROW_SIZE = 293 := rfl
theorem USERNAME_SIZE_eq : USERNAME_SIZE = 33 := rfl
theorem EMAIL_SIZE_eq : EMAIL_SIZE = 256 := rfl
theorem ID_OFFSET_eq : ID_OFFSET = 0 := rfl
theorem USERNAME_OFFSET_eq : USERNAME_OFFSET = 4 := rfl
theorem EMAIL_OFFSET_eq : EMAIL_OFFSET = 37 := rfl
theorem LEAF_NODE_NUM_CELLS_OFFSET_eq : LEAF_NODE_NUM_CELLS_OFFSET = 6 := rfl
theorem LEAF_NODE_HEADER_SIZE_eq : LEAF_NODE_HEADER_SIZE = 10 := rfl
theorem LEAF_NODE_KEY_SIZE_eq : LEAF_NODE_KEY_SIZE = 4 := rfl
theorem LEAF_NODE_CELL_SIZE_eq : LEAF_NODE_CELL_SIZE = 297 := rfl
theorem LEAF_NODE_MAX_CELLS_eq : LEAF_NODE_MAX_CELLS = 13 := rfl
theorem LEAF_NODE_LEFT_SPLIT_COUNT_eq : LEAF_NODE_LEFT_SPLIT_COUNT = 7 := rfl
theorem LEAF_NODE_RIGHT_SPLIT_COUNT_eq : LEAF_NODE_RIGHT_SPLIT_COUNT = 7 := rfl
theorem PAGE_SIZE_eq : PAGE_SIZE = 4096 := rfl
theorem TABLE_MAX_PAGES_eq : TABLE_MAX_PAGES = 100 := rfl
theorem NODE_TYPE_OFFSET_eq : NODE_TYPE_OFFSET = 0 := rfl

/-! ## Codec lemmas -/

theorem read_write_u32 (m : Page) (off v : Nat) (hv : v < 2 ^ 32) :
    read_u32 (write_u32 m off v) off = v := by
  simp only [read_u32, write_u32, u32_byte, Fin.ofNat]
  simp
  omega

theorem read_u32_lt (m : Page) (off : Nat) : read_u32 m off < 2 ^ 32 := by
  unfold read_u32
  omega

theorem Row.ext_fields {r s : Row} (h1 : r.id = s.id) (h2 : r.username = s.username)
    (h3 : r.email = s.email) : r = s := by
  cases r; cases s; simp_all


theorem serialize_row_apply (r : Row) (m : Page) (d a : Nat) :
    serialize_row r m d a =
      if d + 37 ≤ a ∧ a < d + 293 then r.email.getD (a - (d + 37)) 0
      else if d + 4 ≤ a ∧ a < d + 37 then r.username.getD (a - (d + 4)) 0
      else if d ≤ a ∧ a < d + 4 then u32_byte r.id (a - d)
      else m a := by
  simp only [serialize_row, memcpy_array, write_u32, ID_OFFSET_eq, USERNAME_OFFSET_eq,
    EMAIL_OFFSET_eq, USERNAME_SIZE_eq, EMAIL_SIZE_eq, Nat.add_zero]

theorem read_u32_congr (m1 m2 : Page) (o1 o2 : Nat)
    (h : ∀ k, k < 4 → m1 (o1 + k) = m2 (o2 + k)) : read_u32 m1 o1 = read_u32 m2 o2 := by
  have h0 := h 0 (by omega)
  have h1 := h 1 (by omega)
  have h2 := h 2 (by omega)
  have h3 := h 3 (by omega)
  simp only [Nat.add_zero] at h0
  simp only [read_u32, h0, h1, h2, h3]

theorem read_array_congr (m1 m2 : Page) (o1 o2 n : Nat)
    (h : ∀ k, k < n → m1 (o1 + k) = m2 (o2 + k)) : read_array m1 o1 n = read_array m2 o2 n := by
  unfold read_array
  apply List.map_congr_left
  intro k hk
  exact h k (List.mem_range.mp hk)

theorem read_array_eq_of_getD (m : Page) (o : Nat) (l : List Byte)
    (h : ∀ k, k < l.length → m (o + k) = l.getD k 0) : read_array m o l.length = l := by
  apply List.ext_getElem
  · simp [read_array]
  · intro k h1 h2
    simp only [read_array, List.getElem_map, List.getElem_range]
    rw [h k h2, List.getD_eq_getElem _ _ h2]

theorem serialize_row_id (r : Row) (m : Page) (d : Nat) :
    read_u32 (serialize_row r m d) d = r.id := by
  have h : read_u32 (serialize_row r m d) d = read_u32 (write_u32 m d r.id) d := by
    apply read_u32_congr
    intro k hk
    rw [serialize_row_apply, if_neg (by omega), if_neg (by omega)]
    simp only [write_u32]
  rw [h, read_write_u32 _ _ _ r.id_lt]

theorem serialize_row_username (r : Row) (m : Page) (d : Nat) :
    read_array (serialize_row r m d) (d + 4) 33 = r.username := by
  have hl : r.username.length = 33 := r.username_len
  rw [← hl]
  apply read_array_eq_of_getD
  intro k hk
  rw [serialize_row_apply, if_neg (by omega), if_pos (by omega)]
  congr 1
  omega

theorem serialize_row_email (r : Row) (m : Page) (d : Nat) :
    read_array (serialize_row r m d) (d + 37) 256 = r.email := by
  have hl : r.email.length = 256 := r.email_len
  rw [← hl]
  apply read_array_eq_of_getD
  intro k hk
  rw [serialize_row_apply, if_pos (by omega)]
  congr 1
  omega

theorem deserialize_serialize (r : Row) (m : Page) (d : Nat) :
    deserialize_row (serialize_row r m d) d = r := by
  apply Row.ext_fields
  · exact serialize_row_id r m d
  · exact serialize_row_username r m d
  · exact serialize_row_email r m d

theorem deserialize_row_congr (m1 m2 : Page) (o1 o2 : Nat)
    (h : ∀ k, k < 293 → m1 (o1 + k) = m2 (o2 + k)) :
    deserialize_row m1 o1 = deserialize_row m2 o2 := by
  apply Row.ext_fields
  · apply read_u32_congr
    intro k hk
    simp only [ID_OFFSET_eq, Nat.add_zero]
    exact h k (by omega)
  · apply read_array_congr
    intro k hk
    simp only [USERNAME_OFFSET_eq, USERNAME_SIZE_eq] at hk ⊢
    have := h (4 + k) (by omega)
    simpa [Nat.add_assoc] using this
  · apply read_array_congr
    intro k hk
    simp only [EMAIL_OFFSET_eq, EMAIL_SIZE_eq] at hk ⊢
    have := h (37 + k) (by omega)
    simpa [Nat.add_assoc] using this

/-- C5: decoding what `serialize_row` wrote gives the row back, bytes outside
the `ROW_SIZE` bytes at the destination keep their value, and every byte
inside them is set from the row alone, whatever the buffer held. -/
theorem serialize_row_roundtrip_and_frame (r : Row) (mem : Page) (destination : Nat) :
    deserialize_row (serialize_row r mem destination) destination = r
    ∧ (∀ a, a < destination ∨ destination + ROW_SIZE ≤ a →
        serialize_row r mem destination a = mem a)
    ∧ (∀ (mem2 : Page) (a : Nat), destination ≤ a → a < destination + ROW_SIZE →
        serialize_row r mem destination a = serialize_row r mem2 destination a) := by
  refine ⟨deserialize_serialize r mem destination, ?_, ?_⟩
  · intro a ha
    rw [ROW_SIZE_eq] at ha
    rw [serialize_row_apply, if_neg (by omega), if_neg (by omega), if_neg (by omega)]
  · intro mem2 a h1 h2
    rw [ROW_SIZE_eq] at h2
    rw [serialize_row_apply, serialize_row_apply]
    by_cases c1 : destination + 37 ≤ a ∧ a < destination + 293
    · rw [if_pos c1, if_pos c1]
    · rw [if_neg c1, if_neg c1]
      by_cases c2 : destination + 4 ≤ a ∧ a < destination + 37
      · rw [if_pos c2, if_pos c2]
      · rw [if_neg c2, if_neg c2, if_pos (by omega), if_pos (by omega)]


/-! ## Binary search -/

theorem leaf_node_find_loop_spec (node : Page) (key n : Nat) (hn : n < 2 ^ 31)
    (hsorted : ∀ i j, i < j → j < n →
      read_u32 node (leaf_node_key i) < read_u32 node (leaf_node_key j)) :
    ∀ fuel lo hi, lo ≤ hi → hi ≤ n → hi - lo < fuel →
      (∀ i, i < lo → read_u32 node (leaf_node_key i) < key) →
      (∀ i, hi ≤ i → i < n → key < read_u32 node (leaf_node_key i)) →
      ∃ c, leaf_node_find_loop node key fuel lo hi = some c ∧ c ≤ n ∧
        ((c < n ∧ read_u32 node (leaf_node_key c) = key) ∨
         ((∀ i, i < c → read_u32 node (leaf_node_key i) < key) ∧
          (∀ i, c ≤ i → i < n → key < read_u32 node (leaf_node_key i)))) := by
  intro fuel
  induction fuel with
  | zero => intro lo hi _ _ h; omega
  | succ fuel ih =>
    intro lo hi hlo hhi hfuel hbelow habove
    unfold leaf_node_find_loop
    by_cases heq : hi = lo
    · subst heq
      simp only [ne_eq, not_true_eq_false, if_false]
      exact ⟨hi, rfl, hhi, Or.inr ⟨hbelow, habove⟩⟩
    · simp only [ne_eq, heq, not_false_eq_true, if_true]
      have hmod : (lo + hi) % 2 ^ 32 = lo + hi := Nat.mod_eq_of_lt (by omega)
      rw [hmod]
      have hidx1 : lo ≤ (lo + hi) / 2 := by omega
      have hidx2 : (lo + hi) / 2 < hi := by omega
      generalize (lo + hi) / 2 = index at hidx1 hidx2
      by_cases hk : read_u32 node (leaf_node_key index) = key
      · rw [if_pos hk]
        exact ⟨index, rfl, by omega, Or.inl ⟨by omega, hk⟩⟩
      · rw [if_neg hk]
        by_cases hlt : key < read_u32 node (leaf_node_key index)
        · rw [if_pos hlt]
          apply ih lo index hidx1 (by omega) (by omega) hbelow
          intro i hi1 hi2
          rcases Nat.eq_or_lt_of_le hi1 with h | h
          · rw [← h]; exact hlt
          · exact lt_trans hlt (hsorted index i h hi2)
        · rw [if_neg hlt]
          have hmod2 : (index + 1) % 2 ^ 32 = index + 1 := Nat.mod_eq_of_lt (by omega)
          rw [hmod2]
          apply ih (index + 1) hi (by omega) hhi (by omega) _ habove
          intro i hi1
          have hgt : read_u32 node (leaf_node_key index) < key := by omega
          rcases Nat.eq_or_lt_of_le (Nat.le_of_lt_succ hi1) with h | h
          · rw [h]; exact hgt
          · exact lt_trans (hsorted i index h (by omega)) hgt

/-- The search on a sorted leaf: a result exists, it is the position of the
key when the key is there, and the position of the first larger key (or the
cell count) when it is not. -/
theorem leaf_node_find_loop_sorted (node : Page) (key : Nat)
    (hn : read_u32 node leaf_node_num_cells < 2 ^ 31)
    (hsorted : ∀ i j, i < j → j < read_u32 node leaf_node_num_cells →
      read_u32 node (leaf_node_key i) < read_u32 node (leaf_node_key j)) :
    ∃ c, leaf_node_find_loop node key (read_u32 node leaf_node_num_cells + 1) 0
          (read_u32 node leaf_node_num_cells) = some c
      ∧ c ≤ read_u32 node leaf_node_num_cells
      ∧ (∀ i, i < read_u32 node leaf_node_num_cells →
          read_u32 node (leaf_node_key i) = key → c = i)
      ∧ ((∀ i, i < read_u32 node leaf_node_num_cells →
            read_u32 node (leaf_node_key i) ≠ key) →
          (∀ i, i < c → read_u32 node (leaf_node_key i) < key) ∧
          (∀ i, c ≤ i → i < read_u32 node leaf_node_num_cells →
            key < read_u32 node (leaf_node_key i))) := by
  generalize read_u32 node leaf_node_num_cells = n at hn hsorted
  obtain ⟨c, hc, hcn, hres⟩ := leaf_node_find_loop_spec node key n hn hsorted
    (n + 1) 0 n (by omega) (le_refl n) (by omega) (by intro i hi; omega)
    (by intro i h1 h2; omega)
  refine ⟨c, hc, hcn, ?_, ?_⟩
  · intro i hi hki
    rcases hres with ⟨hc1, hc2⟩ | ⟨hb, ha⟩
    · rcases Nat.lt_trichotomy c i with h | h | h
      · have := hsorted c i h hi; omega
      · exact h
      · have := hsorted i c h hc1; omega
    · by_cases h : i < c
      · have := hb i h; omega
      · have := ha i (by omega) hi; omega
  · intro habs
    rcases hres with ⟨hc1, hc2⟩ | h
    · exact absurd hc2 (habs c hc1)
    · exact h

/-- C3: on a leaf whose keys are strictly ascending, `leaf_node_find` gives a
cursor on the page asked for; its `cell_num` is the index of the key when
the key is in the leaf, and otherwise the index of the first cell with a
larger key, which is `num_cells` when there is none.  The cell count is
below `2 ^ 31`, as it is for every leaf that fits a page (at most
`LEAF_NODE_MAX_CELLS` cells): the middle index is computed in 32 bits. -/
theorem leaf_node_find_sorted (table : Table) (page_num key : Nat) (pager : Pager)
    (hget : get_page table.pager page_num = .ok pager)
    (hn : read_u32 (pager.node page_num) leaf_node_num_cells < 2 ^ 31)
    (hsorted : ∀ i j, i < j → j < read_u32 (pager.node page_num) leaf_node_num_cells →
      read_u32 (pager.node page_num) (leaf_node_key i)
        < read_u32 (pager.node page_num) (leaf_node_key j)) :
    ∃ cursor, leaf_node_find table page_num key = .ok (cursor, { table with pager := pager })
      ∧ cursor.page_num = page_num
      ∧ cursor.cell_num ≤ read_u32 (pager.node page_num) leaf_node_num_cells
      ∧ (∀ i, i < read_u32 (pager.node page_num) leaf_node_num_cells →
          read_u32 (pager.node page_num) (leaf_node_key i) = key → cursor.cell_num = i)
      ∧ ((∀ i, i < read_u32 (pager.node page_num) leaf_node_num_cells →
            read_u32 (pager.node page_num) (leaf_node_key i) ≠ key) →
          (∀ i, i < cursor.cell_num →
            read_u32 (pager.node page_num) (leaf_node_key i) < key) ∧
          (∀ i, cursor.cell_num ≤ i →
            i < read_u32 (pager.node page_num) leaf_node_num_cells →
            key < read_u32 (pager.node page_num) (leaf_node_key i))) := by
  obtain ⟨c, hc, hcn, hpres, habs⟩ :=
    leaf_node_find_loop_sorted (pager.node page_num) key hn hsorted
  refine ⟨{ page_num := page_num, cell_num := c, end_of_table := false }, ?_, rfl, hcn,
    hpres, habs⟩
  simp only [leaf_node_find, hget, hc]


/-! ## Ordered insert into a leaf with room -/

theorem leaf_node_cell_eq (j : Nat) (h : j ≤ 100) : leaf_node_cell j = 10 + j * 297 := by
  unfold leaf_node_cell
  rw [LEAF_NODE_HEADER_SIZE_eq, LEAF_NODE_CELL_SIZE_eq, Nat.mod_eq_of_lt (by omega)]

theorem leaf_node_key_eq (j : Nat) (h : j ≤ 100) : leaf_node_key j = 10 + j * 297 :=
  leaf_node_cell_eq j h

theorem leaf_node_value_eq (j : Nat) (h : j ≤ 100) : leaf_node_value j = 10 + j * 297 + 4 := by
  unfold leaf_node_value
  rw [leaf_node_cell_eq j h, LEAF_NODE_KEY_SIZE_eq]

theorem leaf_node_insert_shift_apply (c : Nat) :
    ∀ (i : Nat) (node : Page) (a : Nat), i ≤ 99 →
      leaf_node_insert_shift c i node a =
        if 10 + (c + 1) * 297 ≤ a ∧ a < 10 + (i + 1) * 297 then node (a - 297) else node a := by
  intro i
  induction i with
  | zero =>
    intro node a _
    simp only [leaf_node_insert_shift]
    rw [if_neg (by omega)]
  | succ i ih =>
    intro node a hi
    simp only [leaf_node_insert_shift]
    by_cases hc : i + 1 > c
    · rw [if_pos hc, ih _ _ (by omega), leaf_node_cell_eq (i + 1) (by omega),
        leaf_node_cell_eq i (by omega), LEAF_NODE_CELL_SIZE_eq]
      simp only [memcpy]
      by_cases h1 : 10 + (c + 1) * 297 ≤ a ∧ a < 10 + (i + 1) * 297
      · rw [if_pos h1, if_neg (by omega), if_pos (by omega)]
      · rw [if_neg h1]
        by_cases h2 : 10 + (i + 1) * 297 ≤ a ∧ a < 10 + (i + 1) * 297 + 297
        · rw [if_pos h2, if_pos (by omega)]
          exact congrArg node (by omega)
        · rw [if_neg h2, if_neg (by omega)]
    · rw [if_neg hc, if_neg (by omega)]

theorem serialize_row_inside (r : Row) (m1 m2 : Page) (d a : Nat) (h1 : d ≤ a)
    (h2 : a < d + 293) : serialize_row r m1 d a = serialize_row r m2 d a := by
  rw [serialize_row_apply, serialize_row_apply]
  by_cases c1 : d + 37 ≤ a ∧ a < d + 293
  · rw [if_pos c1, if_pos c1]
  · rw [if_neg c1, if_neg c1]
    by_cases c2 : d + 4 ≤ a ∧ a < d + 37
    · rw [if_pos c2, if_pos c2]
    · rw [if_neg c2, if_neg c2, if_pos (by omega), if_pos (by omega)]

theorem serialize_row_outside (r : Row) (m : Page) (d a : Nat) (h : a < d ∨ d + 293 ≤ a) :
    serialize_row r m d a = m a := by
  rw [serialize_row_apply, if_neg (by omega), if_neg (by omega), if_neg (by omega)]

theorem serialize_row_shift (r : Row) (m1 m2 : Page) (d1 d2 k : Nat) (hk : k < 293) :
    serialize_row r m1 d1 (d1 + k) = serialize_row r m2 d2 (d2 + k) := by
  rw [serialize_row_apply, serialize_row_apply]
  have e1 : d1 + k - (d1 + 37) = k - 37 := by omega
  have e2 : d2 + k - (d2 + 37) = k - 37 := by omega
  have e3 : d1 + k - (d1 + 4) = k - 4 := by omega
  have e4 : d2 + k - (d2 + 4) = k - 4 := by omega
  have e5 : d1 + k - d1 = k := by omega
  have e6 : d2 + k - d2 = k := by omega
  rw [e1, e2, e3, e4, e5, e6]
  split_ifs <;> first | rfl | (exfalso; omega)

/-- Byte by byte, what the insert into a leaf with room leaves in the page. -/
theorem leaf_node_insert_cell_apply (node : Page) (c key : Nat) (value : Row) (a : Nat)
    (hn : read_u32 node leaf_node_num_cells < 13)
    (hc : c ≤ read_u32 node leaf_node_num_cells) :
    leaf_node_insert_cell node c key value a =
      if 10 + c * 297 + 4 ≤ a ∧ a < 10 + c * 297 + 297 then
        serialize_row value node (10 + c * 297 + 4) a
      else if 10 + c * 297 ≤ a ∧ a < 10 + c * 297 + 4 then u32_byte key (a - (10 + c * 297))
      else if 6 ≤ a ∧ a < 10 then u32_byte (read_u32 node leaf_node_num_cells + 1) (a - 6)
      else if 10 + (c + 1) * 297 ≤ a ∧ a < 10 + (read_u32 node leaf_node_num_cells + 1) * 297
        then node (a - 297)
      else node a := by
  have hshift : ∀ b,
      (if c < read_u32 node leaf_node_num_cells then
        leaf_node_insert_shift c (read_u32 node leaf_node_num_cells) node else node) b =
      if 10 + (c + 1) * 297 ≤ b ∧ b < 10 + (read_u32 node leaf_node_num_cells + 1) * 297
        then node (b - 297) else node b := by
    intro b
    by_cases h : c < read_u32 node leaf_node_num_cells
    · rw [if_pos h, leaf_node_insert_shift_apply c _ node b (by omega)]
    · rw [if_neg h, if_neg (by omega)]
  have hcount : read_u32 (if c < read_u32 node leaf_node_num_cells then
        leaf_node_insert_shift c (read_u32 node leaf_node_num_cells) node else node)
        leaf_node_num_cells = read_u32 node leaf_node_num_cells := by
    apply read_u32_congr
    intro k hk
    rw [hshift, if_neg]
    simp only [leaf_node_num_cells, LEAF_NODE_NUM_CELLS_OFFSET_eq]
    omega
  unfold leaf_node_insert_cell
  simp only [hcount]
  rw [leaf_node_value_eq c (by omega), leaf_node_key_eq c (by omega)]
  have hm : (read_u32 node leaf_node_num_cells + 1) % 2 ^ 32
      = read_u32 node leaf_node_num_cells + 1 := Nat.mod_eq_of_lt (by omega)
  rw [hm]
  by_cases h1 : 10 + c * 297 + 4 ≤ a ∧ a < 10 + c * 297 + 297
  · rw [if_pos h1]
    exact serialize_row_inside _ _ _ _ _ (by omega) (by omega)
  · rw [if_neg h1, serialize_row_outside _ _ _ _ (by omega)]
    simp only [write_u32, leaf_node_num_cells, LEAF_NODE_NUM_CELLS_OFFSET_eq] at hshift ⊢
    by_cases h2 : 10 + c * 297 ≤ a ∧ a < 10 + c * 297 + 4
    · rw [if_pos h2, if_pos h2]
    · rw [if_neg h2, if_neg h2]
      by_cases h3 : 6 ≤ a ∧ a < 10
      · rw [if_pos h3, if_pos h3]
      · rw [if_neg h3, if_neg h3, hshift]


theorem Pager.node_set_node_same (pager : Pager) (n : Nat) (node : Page) :
    (pager.set_node n node).node n = node := by
  simp [Pager.node, Pager.set_node]

theorem Pager.node_set_node_other (pager : Pager) (n m : Nat) (node : Page) (h : m ≠ n) :
    (pager.set_node n node).node m = pager.node m := by
  simp [Pager.node, Pager.set_node, Function.update, h]

theorem leaf_node_insert_cell_count (node : Page) (c key : Nat) (value : Row)
    (hn : read_u32 node leaf_node_num_cells < 13)
    (hc : c ≤ read_u32 node leaf_node_num_cells) :
    read_u32 (leaf_node_insert_cell node c key value) leaf_node_num_cells
      = read_u32 node leaf_node_num_cells + 1 := by
  have h : read_u32 (leaf_node_insert_cell node c key value) leaf_node_num_cells
      = read_u32 (write_u32 node 6 (read_u32 node leaf_node_num_cells + 1)) 6 := by
    apply read_u32_congr
    intro k hk
    rw [leaf_node_insert_cell_apply node c key value _ hn hc]
    simp only [leaf_node_num_cells, LEAF_NODE_NUM_CELLS_OFFSET_eq, write_u32]
    rw [if_neg (by omega), if_neg (by omega), if_pos (by omega), if_pos (by omega)]
  rw [h, read_write_u32 _ _ _ (by omega)]

theorem leaf_node_insert_cell_header (node : Page) (c key : Nat) (value : Row) (a : Nat)
    (hn : read_u32 node leaf_node_num_cells < 13)
    (hc : c ≤ read_u32 node leaf_node_num_cells) (ha : a < 6) :
    leaf_node_insert_cell node c key value a = node a := by
  rw [leaf_node_insert_cell_apply node c key value _ hn hc, if_neg (by omega),
    if_neg (by omega), if_neg (by omega), if_neg (by omega)]

theorem leaf_node_insert_cell_before (node : Page) (c key : Nat) (value : Row) (j k : Nat)
    (hn : read_u32 node leaf_node_num_cells < 13)
    (hc : c ≤ read_u32 node leaf_node_num_cells) (hj : j < c) (hk : k < 297) :
    leaf_node_insert_cell node c key value (leaf_node_cell j + k)
      = node (leaf_node_cell j + k) := by
  rw [leaf_node_insert_cell_apply node c key value _ hn hc, leaf_node_cell_eq j (by omega),
    if_neg (by omega), if_neg (by omega), if_neg (by omega), if_neg (by omega)]

theorem leaf_node_insert_cell_after (node : Page) (c key : Nat) (value : Row) (j k : Nat)
    (hn : read_u32 node leaf_node_num_cells < 13)
    (hc : c ≤ read_u32 node leaf_node_num_cells) (hj : c < j)
    (hjn : j ≤ read_u32 node leaf_node_num_cells) (hk : k < 297) :
    leaf_node_insert_cell node c key value (leaf_node_cell j + k)
      = node (leaf_node_cell (j - 1) + k) := by
  rw [leaf_node_insert_cell_apply node c key value _ hn hc, leaf_node_cell_eq j (by omega),
    leaf_node_cell_eq (j - 1) (by omega),
    if_neg (by omega), if_neg (by omega), if_neg (by omega), if_pos (by omega)]
  exact congrArg node (by omega)

theorem leaf_node_insert_cell_key (node : Page) (c key : Nat) (value : Row) (k : Nat)
    (hn : read_u32 node leaf_node_num_cells < 13)
    (hc : c ≤ read_u32 node leaf_node_num_cells) (hk : k < 4) :
    leaf_node_insert_cell node c key value (leaf_node_key c + k) = u32_byte key k := by
  rw [leaf_node_insert_cell_apply node c key value _ hn hc, leaf_node_key_eq c (by omega),
    if_neg (by omega), if_pos (by omega)]
  exact congrArg (u32_byte key) (by omega)

theorem leaf_node_insert_cell_value (node : Page) (c key : Nat) (value : Row) (buf : Page)
    (d k : Nat) (hn : read_u32 node leaf_node_num_cells < 13)
    (hc : c ≤ read_u32 node leaf_node_num_cells) (hk : k < 293) :
    leaf_node_insert_cell node c key value (leaf_node_value c + k)
      = serialize_row value buf d (d + k) := by
  rw [leaf_node_insert_cell_apply node c key value _ hn hc, leaf_node_value_eq c (by omega),
    if_pos (by omega)]
  exact serialize_row_shift _ _ _ _ _ _ hk

/-- C4: in a leaf with room, `leaf_node_insert` at cell `c` keeps the cells
before `c`, stores the key and the encoded row in cell `c`, moves each cell
from `c` on one place to the right, adds one to the cell count, and keeps
the common header. -/
theorem leaf_node_insert_places_cell (hooks : Hooks) (table : Table) (cursor : Cursor)
    (key : Nat) (value : Row) (pager : Pager)
    (hget : get_page table.pager cursor.page_num = .ok pager)
    (hn : read_u32 (pager.node cursor.page_num) leaf_node_num_cells < LEAF_NODE_MAX_CELLS)
    (hc : cursor.cell_num ≤ read_u32 (pager.node cursor.page_num) leaf_node_num_cells) :
    ∃ table1, leaf_node_insert hooks table cursor key value = .ok table1
      ∧ (∀ j k, j < cursor.cell_num → k < LEAF_NODE_CELL_SIZE →
          table1.pager.node cursor.page_num (leaf_node_cell j + k)
            = pager.node cursor.page_num (leaf_node_cell j + k))
      ∧ (∀ k, k < LEAF_NODE_KEY_SIZE →
          table1.pager.node cursor.page_num (leaf_node_key cursor.cell_num + k)
            = u32_byte key k)
      ∧ (∀ (buf : Page) (k : Nat), k < ROW_SIZE →
          table1.pager.node cursor.page_num (leaf_node_value cursor.cell_num + k)
            = serialize_row value buf 0 k)
      ∧ (∀ j k, cursor.cell_num < j →
          j ≤ read_u32 (pager.node cursor.page_num) leaf_node_num_cells →
          k < LEAF_NODE_CELL_SIZE →
          table1.pager.node cursor.page_num (leaf_node_cell j + k)
            = pager.node cursor.page_num (leaf_node_cell (j - 1) + k))
      ∧ read_u32 (table1.pager.node cursor.page_num) leaf_node_num_cells
          = read_u32 (pager.node cursor.page_num) leaf_node_num_cells + 1
      ∧ (∀ a, a < COMMON_NODE_HEADER_SIZE →
          table1.pager.node cursor.page_num a = pager.node cursor.page_num a) := by
  rw [LEAF_NODE_MAX_CELLS_eq] at hn
  refine ⟨{ table with
      pager := (pager.set_node cursor.page_num
        (leaf_node_insert_cell (pager.node cursor.page_num) cursor.cell_num key value)) },
    ?_, ?_, ?_, ?_, ?_, ?_, ?_⟩
  · simp only [leaf_node_insert, hget, LEAF_NODE_MAX_CELLS_eq]
    rw [if_neg (by omega)]
  · intro j k hj hk
    rw [Pager.node_set_node_same]
    exact leaf_node_insert_cell_before _ _ _ _ _ _ hn hc hj hk
  · intro k hk
    rw [Pager.node_set_node_same]
    exact leaf_node_insert_cell_key _ _ _ _ _ hn hc hk
  · intro buf k hk
    rw [Pager.node_set_node_same]
    have h := leaf_node_insert_cell_value (pager.node cursor.page_num) cursor.cell_num key
      value buf 0 k hn hc hk
    rw [Nat.zero_add] at h
    exact h
  · intro j k hj hjn hk
    rw [Pager.node_set_node_same]
    exact leaf_node_insert_cell_after _ _ _ _ _ _ hn hc hj hjn hk
  · rw [Pager.node_set_node_same]
    exact leaf_node_insert_cell_count _ _ _ _ hn hc
  · intro a ha
    rw [Pager.node_set_node_same]
    exact leaf_node_insert_cell_header _ _ _ _ _ hn hc ha


/-! ## The page cache -/

theorem get_page_resident (pager : Pager) (n : Nat) (node : Page)
    (h : pager.pages n = some node) (hn : n < TABLE_MAX_PAGES) :
    get_page pager n = .ok pager := by
  unfold get_page
  rw [if_neg (by omega), h]

theorem get_page_ok_resident (pager pager1 : Pager) (n : Nat)
    (h : get_page pager n = .ok pager1) :
    n < TABLE_MAX_PAGES ∧ ∃ node, pager1.pages n = some node := by
  unfold get_page at h
  by_cases hn : n ≥ TABLE_MAX_PAGES
  · rw [if_pos hn] at h
    cases h
  · rw [if_neg hn] at h
    refine ⟨by omega, ?_⟩
    cases hp : pager.pages n with
    | some node =>
      rw [hp] at h
      simp only [Except.ok.injEq] at h
      exact ⟨node, by rw [← h]; exact hp⟩
    | none =>
      rw [hp] at h
      simp only [Except.ok.injEq] at h
      rw [← h]
      simp

theorem get_page_idem (pager pager1 : Pager) (n : Nat) (h : get_page pager n = .ok pager1) :
    get_page pager1 n = .ok pager1 := by
  obtain ⟨hn, node, hnode⟩ := get_page_ok_resident pager pager1 n h
  exact get_page_resident pager1 n node hnode hn

/-! ## Cells after an insert into a leaf with room -/

theorem leaf_key_at_congr (m1 m2 : Page) (i j : Nat)
    (h : ∀ k, k < 297 → m1 (leaf_node_cell i + k) = m2 (leaf_node_cell j + k)) :
    leaf_key_at m1 i = leaf_key_at m2 j := by
  unfold leaf_key_at leaf_node_key
  exact read_u32_congr _ _ _ _ (fun k hk => h k (by omega))

theorem leaf_row_at_congr (m1 m2 : Page) (i j : Nat)
    (h : ∀ k, k < 297 → m1 (leaf_node_cell i + k) = m2 (leaf_node_cell j + k)) :
    leaf_row_at m1 i = leaf_row_at m2 j := by
  unfold leaf_row_at leaf_node_value
  apply deserialize_row_congr
  intro k hk
  rw [LEAF_NODE_KEY_SIZE_eq, Nat.add_assoc, Nat.add_assoc]
  exact h (4 + k) (by omega)

theorem leaf_node_insert_cell_key_at (node : Page) (c key : Nat) (value : Row)
    (hn : read_u32 node leaf_node_num_cells < 13)
    (hc : c ≤ read_u32 node leaf_node_num_cells) (hkey : key < 2 ^ 32) :
    leaf_key_at (leaf_node_insert_cell node c key value) c = key := by
  have h : leaf_key_at (leaf_node_insert_cell node c key value) c
      = read_u32 (write_u32 node 0 key) 0 := by
    unfold leaf_key_at
    apply read_u32_congr
    intro k hk
    rw [leaf_node_insert_cell_key node c key value k hn hc hk]
    simp only [write_u32]
    rw [if_pos (by omega)]
    exact congrArg (u32_byte key) (by omega)
  rw [h, read_write_u32 _ _ _ hkey]

theorem leaf_node_insert_cell_row_at (node : Page) (c key : Nat) (value : Row)
    (hn : read_u32 node leaf_node_num_cells < 13)
    (hc : c ≤ read_u32 node leaf_node_num_cells) :
    leaf_row_at (leaf_node_insert_cell node c key value) c = value := by
  have h : leaf_row_at (leaf_node_insert_cell node c key value) c
      = deserialize_row (serialize_row value node 0) 0 := by
    unfold leaf_row_at
    apply deserialize_row_congr
    intro k hk
    exact leaf_node_insert_cell_value node c key value node 0 k hn hc hk
  rw [h, deserialize_serialize]

theorem leaf_node_insert_cell_type (node : Page) (c key : Nat) (value : Row)
    (hn : read_u32 node leaf_node_num_cells < 13)
    (hc : c ≤ read_u32 node leaf_node_num_cells) :
    get_node_type (leaf_node_insert_cell node c key value) = get_node_type node := by
  unfold get_node_type
  rw [NODE_TYPE_OFFSET_eq, leaf_node_insert_cell_header node c key value 0 hn hc (by omega)]

/-- The cells of a leaf after an insert at `c`, seen as keys and rows. -/
theorem leaf_node_insert_cell_cells (node : Page) (c key : Nat) (value : Row)
    (hn : read_u32 node leaf_node_num_cells < 13)
    (hc : c ≤ read_u32 node leaf_node_num_cells) (hkey : key < 2 ^ 32) :
    (∀ j, j < c →
      leaf_key_at (leaf_node_insert_cell node c key value) j = leaf_key_at node j
      ∧ leaf_row_at (leaf_node_insert_cell node c key value) j = leaf_row_at node j)
    ∧ leaf_key_at (leaf_node_insert_cell node c key value) c = key
    ∧ leaf_row_at (leaf_node_insert_cell node c key value) c = value
    ∧ (∀ j, c < j → j ≤ read_u32 node leaf_node_num_cells →
      leaf_key_at (leaf_node_insert_cell node c key value) j = leaf_key_at node (j - 1)
      ∧ leaf_row_at (leaf_node_insert_cell node c key value) j = leaf_row_at node (j - 1)) := by
  refine ⟨?_, leaf_node_insert_cell_key_at node c key value hn hc hkey,
    leaf_node_insert_cell_row_at node c key value hn hc, ?_⟩
  · intro j hj
    exact ⟨leaf_key_at_congr _ _ _ _
        (fun k hk => leaf_node_insert_cell_before node c key value j k hn hc hj hk),
      leaf_row_at_congr _ _ _ _
        (fun k hk => leaf_node_insert_cell_before node c key value j k hn hc hj hk)⟩
  · intro j hj hjn
    exact ⟨leaf_key_at_congr _ _ _ _
        (fun k hk => leaf_node_insert_cell_after node c key value j k hn hc hj hjn hk),
      leaf_row_at_congr _ _ _ _
        (fun k hk => leaf_node_insert_cell_after node c key value j k hn hc hj hjn hk)⟩


/-! ## Insert at the level of the table -/

theorem table_find_leaf (table : Table) (key : Nat) (pager : Pager)
    (hget : get_page table.pager table.root_page_num = .ok pager)
    (htype : get_node_type (pager.node table.root_page_num) = NODE_LEAF)
    (hn : read_u32 (pager.node table.root_page_num) leaf_node_num_cells ≤ LEAF_NODE_MAX_CELLS)
    (hsorted : ∀ i j, i < j →
      j < read_u32 (pager.node table.root_page_num) leaf_node_num_cells →
      leaf_key_at (pager.node table.root_page_num) i
        < leaf_key_at (pager.node table.root_page_num) j) :
    ∃ c, table_find table key
        = .ok ({ page_num := table.root_page_num, cell_num := c, end_of_table := false },
               { table with pager := pager })
      ∧ c ≤ read_u32 (pager.node table.root_page_num) leaf_node_num_cells
      ∧ (∀ i, i < read_u32 (pager.node table.root_page_num) leaf_node_num_cells →
          leaf_key_at (pager.node table.root_page_num) i = key → c = i)
      ∧ ((∀ i, i < read_u32 (pager.node table.root_page_num) leaf_node_num_cells →
            leaf_key_at (pager.node table.root_page_num) i ≠ key) →
          (∀ i, i < c → leaf_key_at (pager.node table.root_page_num) i < key) ∧
          (∀ i, c ≤ i → i < read_u32 (pager.node table.root_page_num) leaf_node_num_cells →
            key < leaf_key_at (pager.node table.root_page_num) i)) := by
  obtain ⟨c, hc, hcn, hpres, habs⟩ :=
    leaf_node_find_loop_sorted (pager.node table.root_page_num) key
      (by rw [LEAF_NODE_MAX_CELLS_eq] at hn; omega) hsorted
  refine ⟨c, ?_, hcn, hpres, habs⟩
  simp only [table_find, hget, htype, if_true, leaf_node_find,
    get_page_idem _ _ _ hget, hc]

theorem execute_insert_duplicate (hooks : Hooks) (statement : Statement) (table : Table)
    (pager : Pager)
    (hget : get_page table.pager table.root_page_num = .ok pager)
    (htype : get_node_type (pager.node table.root_page_num) = NODE_LEAF)
    (hn : read_u32 (pager.node table.root_page_num) leaf_node_num_cells ≤ LEAF_NODE_MAX_CELLS)
    (hsorted : ∀ i j, i < j →
      j < read_u32 (pager.node table.root_page_num) leaf_node_num_cells →
      leaf_key_at (pager.node table.root_page_num) i
        < leaf_key_at (pager.node table.root_page_num) j)
    (hdup : ∃ i, i < read_u32 (pager.node table.root_page_num) leaf_node_num_cells
      ∧ leaf_key_at (pager.node table.root_page_num) i = statement.row_to_insert.id) :
    execute_insert hooks statement table
      = .ok (.EXECUTE_DUPLICATE_KEY, { table with pager := pager }) := by
  obtain ⟨i, hi, hki⟩ := hdup
  obtain ⟨c, hfind, _, hpres, _⟩ :=
    table_find_leaf { table with pager := pager } statement.row_to_insert.id pager
      (get_page_idem _ _ _ hget) htype hn hsorted
  have hci : c = i := hpres i hi hki
  subst hci
  unfold execute_insert
  simp only [hget, hfind]
  rw [if_pos ⟨hi, hki⟩]

theorem execute_insert_fresh_key (hooks : Hooks) (statement : Statement) (table : Table)
    (pager : Pager)
    (hget : get_page table.pager table.root_page_num = .ok pager)
    (htype : get_node_type (pager.node table.root_page_num) = NODE_LEAF)
    (hsorted : ∀ i j, i < j →
      j < read_u32 (pager.node table.root_page_num) leaf_node_num_cells →
      leaf_key_at (pager.node table.root_page_num) i
        < leaf_key_at (pager.node table.root_page_num) j)
    (hroom : read_u32 (pager.node table.root_page_num) leaf_node_num_cells < 13)
    (habsent : ∀ i, i < read_u32 (pager.node table.root_page_num) leaf_node_num_cells →
      leaf_key_at (pager.node table.root_page_num) i ≠ statement.row_to_insert.id) :
    ∃ c, execute_insert hooks statement table
        = .ok (.EXECUTE_SUCCESS,
               { table with
                 pager := (pager.set_node table.root_page_num
                   (leaf_node_insert_cell (pager.node table.root_page_num) c
                     statement.row_to_insert.id statement.row_to_insert)) })
      ∧ c ≤ read_u32 (pager.node table.root_page_num) leaf_node_num_cells
      ∧ (∀ i, i < c →
          leaf_key_at (pager.node table.root_page_num) i < statement.row_to_insert.id)
      ∧ (∀ i, c ≤ i → i < read_u32 (pager.node table.root_page_num) leaf_node_num_cells →
          statement.row_to_insert.id < leaf_key_at (pager.node table.root_page_num) i) := by
  have hn : read_u32 (pager.node table.root_page_num) leaf_node_num_cells
      ≤ LEAF_NODE_MAX_CELLS := by rw [LEAF_NODE_MAX_CELLS_eq]; omega
  obtain ⟨c, hfind, hcn, _, habs⟩ :=
    table_find_leaf { table with pager := pager } statement.row_to_insert.id pager
      (get_page_idem _ _ _ hget) htype hn hsorted
  obtain ⟨hbelow, habove⟩ := habs habsent
  refine ⟨c, ?_, hcn, hbelow, habove⟩
  have hnodup : ¬ (c < read_u32 (pager.node table.root_page_num) leaf_node_num_cells ∧
      read_u32 (pager.node table.root_page_num) (leaf_node_key c)
        = statement.row_to_insert.id) := by
    intro h
    exact habsent c h.1 h.2
  unfold execute_insert
  simp only [hget, hfind]
  rw [if_neg hnodup]
  simp only [leaf_node_insert, get_page_idem _ _ _ hget, LEAF_NODE_MAX_CELLS_eq]
  rw [if_neg (by omega)]


/-! ## The scan -/

theorem Pager.node_of_pages (pager : Pager) (n : Nat) (node : Page)
    (h : pager.pages n = some node) : pager.node n = node := by
  simp [Pager.node, h]

theorem execute_select_loop_end (fuel : Nat) (table : Table) (cursor : Cursor)
    (printed : List Row) (h : cursor.end_of_table = true) :
    execute_select_loop (fuel + 1) table cursor printed = .ok (printed, table) := by
  simp [execute_select_loop, h]

theorem execute_select_loop_rows (table : Table) (page_num : Nat)
    (hget : get_page table.pager page_num = .ok table.pager) :
    ∀ (k c fuel : Nat) (printed : List Row), 1 ≤ k →
      c + k = read_u32 (table.pager.node page_num) leaf_node_num_cells → k < fuel →
      execute_select_loop fuel table
          { page_num := page_num, cell_num := c, end_of_table := false } printed
        = .ok (printed ++ (List.range' c k).map (leaf_row_at (table.pager.node page_num)),
               table) := by
  intro k
  induction k with
  | zero => intro c fuel printed h; omega
  | succ k ih =>
    intro c fuel printed _ hck hfuel
    obtain ⟨fuel, rfl⟩ : ∃ f, fuel = f + 1 := ⟨fuel - 1, by omega⟩
    have hlt := read_u32_lt (table.pager.node page_num) leaf_node_num_cells
    have hmod : (c + 1) % 2 ^ 32 = c + 1 := Nat.mod_eq_of_lt (by omega)
    have heta : ({ table with pager := table.pager } : Table) = table := rfl
    simp only [execute_select_loop, Bool.not_false, if_true, cursor_value, cursor_advance,
      hget, heta, hmod]
    by_cases hk : k = 0
    · subst hk
      rw [if_pos (by omega)]
      obtain ⟨fuel, rfl⟩ : ∃ f, fuel = f + 1 := ⟨fuel - 1, by omega⟩
      rw [execute_select_loop_end _ _ _ _ rfl]
      simp [leaf_row_at]
    · rw [if_neg (by omega)]
      rw [ih (c + 1) fuel _ (by omega) (by omega) (by omega)]
      simp [leaf_row_at, List.range'_succ]


/-- A scan prints the rows of the root leaf, cell 0 first. -/
theorem execute_select_rows (table : Table) (pager : Pager)
    (hget : get_page table.pager table.root_page_num = .ok pager) :
    execute_select table
      = .ok (.EXECUTE_SUCCESS, leaf_rows (pager.node table.root_page_num),
             { table with pager := pager }) := by
  have hidem := get_page_idem _ _ _ hget
  unfold execute_select table_start
  simp only [hget]
  by_cases hn : read_u32 (pager.node table.root_page_num) leaf_node_num_cells = 0
  · simp only [hn, decide_True]
    rw [execute_select_loop_end _ _ _ _ rfl]
    simp [leaf_rows, hn]
  · simp only [hn, decide_False]
    rw [execute_select_loop_rows { table with pager := pager } table.root_page_num hidem
      (read_u32 (pager.node table.root_page_num) leaf_node_num_cells) 0 _ []
      (by omega) (by simp) (by
        have := read_u32_lt (pager.node table.root_page_num) leaf_node_num_cells
        omega)]
    simp [leaf_rows, List.range_eq_range']

/-! ## The root leaf across inserts -/

theorem map_range_insert {α : Type} (f g : Nat → α) (n c : Nat) (x : α) (hc : c ≤ n)
    (h1 : ∀ j, j < c → g j = f j) (h2 : g c = x)
    (h3 : ∀ j, c < j → j ≤ n → g j = f (j - 1)) :
    (List.range (n + 1)).map g
      = ((List.range n).map f).take c ++ x :: ((List.range n).map f).drop c := by
  apply List.ext_getElem
  · simp
    omega
  · intro j hj1 hj2
    simp only [List.length_map, List.length_range] at hj1
    simp only [List.getElem_map, List.getElem_range]
    by_cases hjc : j < c
    · rw [List.getElem_append_left (by simp; omega)]
      simp [h1 j hjc]
    · rw [List.getElem_append_right (by simp; omega)]
      simp only [List.length_take, List.length_map, List.length_range]
      have hmin : min c n = c := by omega
      simp only [hmin]
      by_cases hje : j = c
      · subst hje
        simp [h2]
      · obtain ⟨m, hm⟩ : ∃ m, j - c = m + 1 := ⟨j - c - 1, by omega⟩
        simp only [hm, List.getElem_cons_succ, List.getElem_drop, List.getElem_map,
          List.getElem_range]
        rw [h3 j (by omega) (by omega)]
        exact congrArg f (by omega)

theorem leaf_rows_length (node : Page) :
    (leaf_rows node).length = read_u32 node leaf_node_num_cells := by
  simp [leaf_rows]

theorem leaf_rows_ids (node : Page) (hok : leaf_ok node) :
    (leaf_rows node).map Row.id
      = (List.range (read_u32 node leaf_node_num_cells)).map (leaf_key_at node) := by
  unfold leaf_rows
  rw [List.map_map]
  apply List.map_congr_left
  intro i hi
  exact (hok.2.2.2 i (List.mem_range.mp hi)).symm

theorem leaf_rows_ids_sorted (node : Page) (hok : leaf_ok node) :
    ((leaf_rows node).map Row.id).Pairwise (fun a b => a < b) := by
  rw [leaf_rows_ids node hok, List.pairwise_iff_getElem]
  intro i j hi hj hij
  simp only [List.length_map, List.length_range] at hi hj
  simp only [List.getElem_map, List.getElem_range]
  exact hok.2.2.1 i j hij hj

theorem mem_leaf_rows_ids (node : Page) (hok : leaf_ok node) (x : Nat) :
    x ∈ (leaf_rows node).map Row.id
      ↔ ∃ i, i < read_u32 node leaf_node_num_cells ∧ leaf_key_at node i = x := by
  rw [leaf_rows_ids node hok]
  simp [List.mem_map]

/-- An insert at the position the search gives keeps the leaf in order. -/
theorem leaf_node_insert_cell_ok (node : Page) (c : Nat) (value : Row) (hok : leaf_ok node)
    (hroom : read_u32 node leaf_node_num_cells < 13)
    (hc : c ≤ read_u32 node leaf_node_num_cells)
    (hbelow : ∀ i, i < c → leaf_key_at node i < value.id)
    (habove : ∀ i, c ≤ i → i < read_u32 node leaf_node_num_cells →
      value.id < leaf_key_at node i) :
    leaf_ok (leaf_node_insert_cell node c value.id value)
    ∧ leaf_rows (leaf_node_insert_cell node c value.id value)
        = (leaf_rows node).take c ++ value :: (leaf_rows node).drop c := by
  obtain ⟨htype, _, hsorted, hids⟩ := hok
  obtain ⟨hbefore, hkey, hrow, hafter⟩ :=
    leaf_node_insert_cell_cells node c value.id value hroom hc value.id_lt
  have hcount := leaf_node_insert_cell_count node c value.id value hroom hc
  refine ⟨⟨?_, ?_, ?_, ?_⟩, ?_⟩
  · rw [leaf_node_insert_cell_type node c value.id value hroom hc]
    exact htype
  · rw [hcount, LEAF_NODE_MAX_CELLS_eq]
    omega
  · intro i j hij hj
    rw [hcount] at hj
    rcases Nat.lt_trichotomy i c with hi | hi | hi
    · rw [(hbefore i hi).1]
      rcases Nat.lt_trichotomy j c with hj1 | hj1 | hj1
      · rw [(hbefore j hj1).1]
        exact hsorted i j hij (by omega)
      · rw [hj1, hkey]
        exact hbelow i hi
      · rw [(hafter j hj1 (by omega)).1]
        exact hsorted i (j - 1) (by omega) (by omega)
    · rw [hi, hkey, (hafter j (by omega) (by omega)).1]
      exact habove (j - 1) (by omega) (by omega)
    · rw [(hafter i hi (by omega)).1, (hafter j (by omega) (by omega)).1]
      exact hsorted (i - 1) (j - 1) (by omega) (by omega)
  · intro i hi
    rw [hcount] at hi
    rcases Nat.lt_trichotomy i c with hi1 | hi1 | hi1
    · rw [(hbefore i hi1).1, (hbefore i hi1).2]
      exact hids i (by omega)
    · rw [hi1, hkey, hrow]
    · rw [(hafter i hi1 (by omega)).1, (hafter i hi1 (by omega)).2]
      exact hids (i - 1) (by omega)
  · unfold leaf_rows
    rw [hcount]
    exact map_range_insert _ _ _ c value hc (fun j hj => (hbefore j hj).2) hrow
      (fun j hj hjn => (hafter j hj hjn).2)


theorem ids_card_room (l : List Row) (r : Row) (rows : List Row)
    (hnd : (l.map Row.id).Nodup) (hnot : r.id ∉ l.map Row.id)
    (hcard : ((l ++ r :: rows).map Row.id).toFinset.card ≤ 13) : l.length < 13 := by
  have hsub : (r.id :: l.map Row.id).toFinset ⊆ ((l ++ r :: rows).map Row.id).toFinset := by
    intro x hx
    simp only [List.toFinset_cons, Finset.mem_insert, List.mem_toFinset, List.mem_map,
      List.map_append, List.map_cons, List.mem_append, List.mem_cons] at hx ⊢
    rcases hx with h | h
    · exact Or.inr (Or.inl h)
    · exact Or.inl h
  have hle := Finset.card_le_card hsub
  have hnd2 : (r.id :: l.map Row.id).Nodup := List.nodup_cons.mpr ⟨hnot, hnd⟩
  rw [List.toFinset_card_of_nodup hnd2] at hle
  simp only [List.length_cons, List.length_map] at hle
  omega

theorem ids_card_skip (l : List Row) (r : Row) (rows : List Row)
    (hcard : ((l ++ r :: rows).map Row.id).toFinset.card ≤ 13) :
    ((l ++ rows).map Row.id).toFinset.card ≤ 13 := by
  refine le_trans (Finset.card_le_card ?_) hcard
  intro x hx
  simp only [List.mem_toFinset, List.mem_map, List.mem_append, List.mem_cons] at hx ⊢
  obtain ⟨a, ha, hax⟩ := hx
  exact ⟨a, by tauto, hax⟩

theorem ids_card_insert (l : List Row) (c : Nat) (r : Row) (rows : List Row)
    (hcard : ((l ++ r :: rows).map Row.id).toFinset.card ≤ 13) :
    (((l.take c ++ r :: l.drop c) ++ rows).map Row.id).toFinset.card ≤ 13 := by
  refine le_trans (Finset.card_le_card ?_) hcard
  intro x hx
  simp only [List.mem_toFinset, List.mem_map, List.mem_append, List.mem_cons] at hx ⊢
  obtain ⟨a, ha, hax⟩ := hx
  refine ⟨a, ?_, hax⟩
  rcases ha with (h | h | h) | h
  · exact Or.inl (List.mem_of_mem_take h)
  · exact Or.inr (Or.inl h)
  · exact Or.inl (List.mem_of_mem_drop h)
  · exact Or.inr (Or.inr h)

theorem inserted_rows_success (r : Row) (rows : List Row) (results : List ExecuteResult) :
    inserted_rows (r :: rows) (.EXECUTE_SUCCESS :: results)
      = r :: inserted_rows rows results := by
  simp [inserted_rows]

theorem inserted_rows_duplicate (r : Row) (rows : List Row) (results : List ExecuteResult) :
    inserted_rows (r :: rows) (.EXECUTE_DUPLICATE_KEY :: results)
      = inserted_rows rows results := by
  simp [inserted_rows]

theorem expected_results_congr (rows : List Row) :
    ∀ (s1 s2 : List Nat), (∀ x, x ∈ s1 ↔ x ∈ s2) →
      expected_results s1 rows = expected_results s2 rows := by
  induction rows with
  | nil => intro s1 s2 _; rfl
  | cons r rows ih =>
    intro s1 s2 h
    unfold expected_results
    by_cases hr : r.id ∈ s1
    · rw [if_pos hr, if_pos ((h _).mp hr), ih s1 s2 h]
    · rw [if_neg hr, if_neg (fun h2 => hr ((h _).mpr h2))]
      rw [ih (r.id :: s1) (r.id :: s2) (by
        intro x
        simp only [List.mem_cons]
        rw [h x])]

/-- Inserts that fit the root leaf: every call returns, the root stays an
ordered leaf, and its rows are the old ones and the rows that went in. -/
theorem run_inserts_root_leaf (hooks : Hooks) :
    ∀ (rows : List Row) (table : Table) (pager : Pager),
      get_page table.pager table.root_page_num = .ok pager →
      leaf_ok (pager.node table.root_page_num) →
      ((leaf_rows (pager.node table.root_page_num) ++ rows).map Row.id).toFinset.card ≤ 13 →
      ∃ table1 results pager1, run_inserts hooks table rows = .ok (table1, results)
        ∧ table1.root_page_num = table.root_page_num
        ∧ get_page table1.pager table.root_page_num = .ok pager1
        ∧ pager1.num_pages = pager.num_pages
        ∧ pager1.file_descriptor = pager.file_descriptor
        ∧ leaf_ok (pager1.node table.root_page_num)
        ∧ results.length = rows.length
        ∧ (∀ r, r ∈ results →
            r = ExecuteResult.EXECUTE_SUCCESS ∨ r = ExecuteResult.EXECUTE_DUPLICATE_KEY)
        ∧ (leaf_rows (pager1.node table.root_page_num)).Perm
            (leaf_rows (pager.node table.root_page_num) ++ inserted_rows rows results)
        ∧ results = expected_results
            ((leaf_rows (pager.node table.root_page_num)).map Row.id) rows := by
  intro rows
  induction rows with
  | nil =>
    intro table pager hget hok _
    refine ⟨table, [], pager, rfl, rfl, hget, rfl, rfl, hok, rfl, ?_, ?_, rfl⟩
    · intro r hr
      cases hr
    · simp [inserted_rows]
  | cons r rows ih =>
    intro table pager hget hok hcard
    have hroot := (get_page_ok_resident _ _ _ hget).1
    by_cases hdup : ∃ i, i < read_u32 (pager.node table.root_page_num) leaf_node_num_cells
        ∧ leaf_key_at (pager.node table.root_page_num) i = r.id
    · have hexec :=
        execute_insert_duplicate hooks { type := .STATEMENT_INSERT, row_to_insert := r }
          table pager hget hok.1 hok.2.1 hok.2.2.1 hdup
      obtain ⟨table1, results, pager1, hrun, h1, h2, h3, h4, h5, h6, h7, h8, h9⟩ :=
        ih { table with pager := pager } pager (get_page_idem _ _ _ hget) hok
          (ids_card_skip _ r rows hcard)
      refine ⟨table1, .EXECUTE_DUPLICATE_KEY :: results, pager1, ?_, h1, h2, h3, h4, h5, ?_,
        ?_, ?_, ?_⟩
      rotate_left 4
      · have hmem : r.id ∈ (leaf_rows (pager.node table.root_page_num)).map Row.id :=
          (mem_leaf_rows_ids _ hok _).mpr hdup
        simp only [expected_results]
        rw [if_pos hmem, h9]
      · simp only [run_inserts, hexec, hrun]
      · simp [h6]
      · intro x hx
        rcases List.mem_cons.mp hx with h | h
        · exact Or.inr h
        · exact h7 x h
      · rw [inserted_rows_duplicate]
        exact h8
    · have habsent : ∀ i, i < read_u32 (pager.node table.root_page_num) leaf_node_num_cells →
          leaf_key_at (pager.node table.root_page_num) i ≠ r.id :=
        fun i hi hk => hdup ⟨i, hi, hk⟩
      have hnotmem : r.id ∉ (leaf_rows (pager.node table.root_page_num)).map Row.id := by
        rw [mem_leaf_rows_ids _ hok]
        exact hdup
      have hroom : read_u32 (pager.node table.root_page_num) leaf_node_num_cells < 13 := by
        have := ids_card_room (leaf_rows (pager.node table.root_page_num)) r rows
          (List.Pairwise.imp (fun h => Nat.ne_of_lt h) (leaf_rows_ids_sorted _ hok))
          hnotmem hcard
        rw [leaf_rows_length] at this
        exact this
      obtain ⟨c, hexec, hc, hbelow, habove⟩ :=
        execute_insert_fresh_key hooks { type := .STATEMENT_INSERT, row_to_insert := r }
          table pager hget hok.1 hok.2.2.1 hroom habsent
      obtain ⟨hok2, hrows2⟩ :=
        leaf_node_insert_cell_ok (pager.node table.root_page_num) c r hok hroom hc hbelow
          habove
      have hget2 : get_page (pager.set_node table.root_page_num
            (leaf_node_insert_cell (pager.node table.root_page_num) c r.id r))
            table.root_page_num
          = .ok (pager.set_node table.root_page_num
            (leaf_node_insert_cell (pager.node table.root_page_num) c r.id r)) :=
        get_page_resident _ _
          (leaf_node_insert_cell (pager.node table.root_page_num) c r.id r)
          (by simp [Pager.set_node]) hroot
      obtain ⟨table1, results, pager1, hrun, h1, h2, h3, h4, h5, h6, h7, h8, h9⟩ :=
        ih { table with
             pager := (pager.set_node table.root_page_num
               (leaf_node_insert_cell (pager.node table.root_page_num) c r.id r)) }
          _ hget2 (by rw [Pager.node_set_node_same]; exact hok2)
          (by rw [Pager.node_set_node_same, hrows2]; exact ids_card_insert _ c r rows hcard)
      rw [Pager.node_set_node_same] at h8 h9
      refine ⟨table1, .EXECUTE_SUCCESS :: results, pager1, ?_, h1, h2, ?_, ?_, h5, ?_, ?_, ?_,
        ?_⟩
      rotate_left 6
      · simp only [expected_results]
        rw [if_neg hnotmem, h9, hrows2]
        congr 1
        apply expected_results_congr
        intro x
        simp only [List.map_append, List.map_cons, List.mem_append, List.mem_cons,
          List.mem_map]
        constructor
        · rintro (⟨a, ha, hax⟩ | h | ⟨a, ha, hax⟩)
          · exact Or.inr ⟨a, List.mem_of_mem_take ha, hax⟩
          · exact Or.inl h
          · exact Or.inr ⟨a, List.mem_of_mem_drop ha, hax⟩
        · rintro (h | ⟨a, ha, hax⟩)
          · exact Or.inr (Or.inl h)
          · rw [← List.take_append_drop c (leaf_rows (pager.node table.root_page_num))] at ha
            rcases List.mem_append.mp ha with h | h
            · exact Or.inl ⟨a, h, hax⟩
            · exact Or.inr (Or.inr ⟨a, h, hax⟩)
      · simp only [run_inserts, hexec, hrun]
      · rw [h3]; rfl
      · rw [h4]; rfl
      · simp [h6]
      · intro x hx
        rcases List.mem_cons.mp hx with h | h
        · exact Or.inl h
        · exact h7 x h
      · rw [inserted_rows_success]
        refine h8.trans ?_
        rw [hrows2]
        have hmid : ((leaf_rows (pager.node table.root_page_num)).take c
              ++ r :: (leaf_rows (pager.node table.root_page_num)).drop c).Perm
            (r :: leaf_rows (pager.node table.root_page_num)) := by
          have := @List.perm_middle _ r ((leaf_rows (pager.node table.root_page_num)).take c)
            ((leaf_rows (pager.node table.root_page_num)).drop c)
          rw [List.take_append_drop] at this
          exact this
        exact (hmid.append_right _).trans (List.perm_middle.symm)


/-! ## Pages that agree on their `PAGE_SIZE` bytes -/

theorem read_u32_agree (p q : Page) (off : Nat) (h : ∀ a, a < 4096 → q a = p a)
    (hoff : off + 4 ≤ 4096) : read_u32 q off = read_u32 p off :=
  read_u32_congr _ _ _ _ (fun k hk => h (off + k) (by omega))

theorem leaf_key_at_agree (p q : Page) (i : Nat) (h : ∀ a, a < 4096 → q a = p a)
    (hi : i < 13) : leaf_key_at q i = leaf_key_at p i := by
  apply leaf_key_at_congr
  intro k hk
  rw [leaf_node_cell_eq i (by omega)]
  exact h _ (by omega)

theorem leaf_row_at_agree (p q : Page) (i : Nat) (h : ∀ a, a < 4096 → q a = p a)
    (hi : i < 13) : leaf_row_at q i = leaf_row_at p i := by
  apply leaf_row_at_congr
  intro k hk
  rw [leaf_node_cell_eq i (by omega)]
  exact h _ (by omega)

theorem leaf_ok_agree (p q : Page) (h : ∀ a, a < 4096 → q a = p a) (hok : leaf_ok p) :
    leaf_ok q := by
  obtain ⟨htype, hn, hsorted, hids⟩ := hok
  have hcount : read_u32 q leaf_node_num_cells = read_u32 p leaf_node_num_cells :=
    read_u32_agree p q _ h (by simp [leaf_node_num_cells, LEAF_NODE_NUM_CELLS_OFFSET_eq])
  rw [LEAF_NODE_MAX_CELLS_eq] at hn
  refine ⟨?_, ?_, ?_, ?_⟩
  · unfold get_node_type at htype ⊢
    rw [h _ (by simp [NODE_TYPE_OFFSET_eq])]
    exact htype
  · rw [hcount, LEAF_NODE_MAX_CELLS_eq]
    exact hn
  · intro i j hij hj
    rw [hcount] at hj
    rw [leaf_key_at_agree p q i h (by omega), leaf_key_at_agree p q j h (by omega)]
    exact hsorted i j hij hj
  · intro i hi
    rw [hcount] at hi
    rw [leaf_key_at_agree p q i h (by omega), leaf_row_at_agree p q i h (by omega)]
    exact hids i hi

theorem leaf_rows_agree (p q : Page) (h : ∀ a, a < 4096 → q a = p a)
    (hn : read_u32 p leaf_node_num_cells ≤ 13) : leaf_rows q = leaf_rows p := by
  have hcount : read_u32 q leaf_node_num_cells = read_u32 p leaf_node_num_cells :=
    read_u32_agree p q _ h (by simp [leaf_node_num_cells, LEAF_NODE_NUM_CELLS_OFFSET_eq])
  unfold leaf_rows
  rw [hcount]
  apply List.map_congr_left
  intro i hi
  exact leaf_row_at_agree p q i h (by have := List.mem_range.mp hi; omega)

/-! ## Open and close -/

theorem initialize_leaf_node_ok (node : Page) :
    leaf_ok (initialize_leaf_node node) ∧ leaf_rows (initialize_leaf_node node) = [] := by
  have hcount : read_u32 (initialize_leaf_node node) leaf_node_num_cells = 0 :=
    read_write_u32 _ _ 0 (by omega)
  refine ⟨⟨?_, ?_, ?_, ?_⟩, ?_⟩
  · simp [get_node_type, initialize_leaf_node, write_u32, set_node_type, NODE_TYPE_OFFSET_eq,
      leaf_node_num_cells, LEAF_NODE_NUM_CELLS_OFFSET_eq, NODE_LEAF]
    rfl
  · rw [hcount]; omega
  · intro i j _ hj
    rw [hcount] at hj
    omega
  · intro i hi
    rw [hcount] at hi
    omega
  · simp [leaf_rows, hcount]

/-- Opening an empty file, or a file of one page that holds an ordered leaf,
gives a table whose root is that leaf once it is fetched. -/
theorem db_open_root_leaf (file : File) (uninit : Nat → Page)
    (hfile : file.length = 0 ∨ (file.length = PAGE_SIZE ∧ leaf_ok file.bytes)) :
    ∃ table0 pager0, db_open (some file) uninit = .ok table0
      ∧ table0.root_page_num = 0
      ∧ get_page table0.pager 0 = .ok pager0
      ∧ pager0.num_pages = 1
      ∧ pager0.file_descriptor = file
      ∧ leaf_ok (pager0.node 0)
      ∧ leaf_rows (pager0.node 0) = stored_rows file := by
  rcases hfile with h0 | ⟨h1, hok⟩
  · have hget0 : get_page
        { file_descriptor := file, file_length := 0, num_pages := 0, pages := fun _ => none,
          uninit := uninit } 0
        = .ok { file_descriptor := file, file_length := 0, num_pages := 1,
                pages := Function.update (fun _ => none) 0
                  (some (file_read file 0 (uninit 0) PAGE_SIZE)),
                uninit := fun k => uninit (k + 1) } := by
      simp [get_page, TABLE_MAX_PAGES_eq, PAGE_SIZE_eq]
    refine ⟨{ pager := (Pager.set_node
                { file_descriptor := file, file_length := 0, num_pages := 1,
                  pages := Function.update (fun _ => none) 0
                    (some (file_read file 0 (uninit 0) PAGE_SIZE)),
                  uninit := fun k => uninit (k + 1) } 0
                (initialize_leaf_node (file_read file 0 (uninit 0) PAGE_SIZE))),
              root_page_num := 0 },
      Pager.set_node
        { file_descriptor := file, file_length := 0, num_pages := 1,
          pages := Function.update (fun _ => none) 0
            (some (file_read file 0 (uninit 0) PAGE_SIZE)),
          uninit := fun k => uninit (k + 1) } 0
        (initialize_leaf_node (file_read file 0 (uninit 0) PAGE_SIZE)),
      ?_, rfl, ?_, rfl, rfl, ?_, ?_⟩
    · simp only [db_open, pager_open, h0, PAGE_SIZE_eq, Nat.zero_mod, Nat.zero_div, ne_eq,
        not_true_eq_false, if_false, if_true, hget0]
      rw [Pager.node_of_pages _ 0 (file_read file 0 (uninit 0) 4096) (by simp)]
    · exact get_page_resident _ _
        (initialize_leaf_node (file_read file 0 (uninit 0) PAGE_SIZE))
        (by simp [Pager.set_node]) (by simp [TABLE_MAX_PAGES_eq])
    · rw [Pager.node_set_node_same]
      exact (initialize_leaf_node_ok _).1
    · rw [Pager.node_set_node_same, (initialize_leaf_node_ok _).2]
      simp [stored_rows, h0]
  · rw [PAGE_SIZE_eq] at h1
    have hagree : ∀ a, a < 4096 → file_read file 0 (uninit 0) PAGE_SIZE a = file.bytes a := by
      intro a ha
      simp [file_read, PAGE_SIZE_eq, h1, ha]
    refine ⟨{ pager := { file_descriptor := file, file_length := 4096, num_pages := 1,
                         pages := fun _ => none, uninit := uninit },
              root_page_num := 0 },
      { file_descriptor := file, file_length := 4096, num_pages := 1,
        pages := Function.update (fun _ => none) 0
          (some (file_read file 0 (uninit 0) PAGE_SIZE)),
        uninit := fun k => uninit (k + 1) }, ?_, rfl, ?_, rfl, rfl, ?_, ?_⟩
    · simp [db_open, pager_open, h1, PAGE_SIZE_eq]
    · simp [get_page, TABLE_MAX_PAGES_eq, PAGE_SIZE_eq]
    · rw [Pager.node_of_pages _ 0 (file_read file 0 (uninit 0) PAGE_SIZE) (by simp)]
      exact leaf_ok_agree _ _ hagree hok
    · rw [Pager.node_of_pages _ 0 (file_read file 0 (uninit 0) PAGE_SIZE) (by simp)]
      rw [leaf_rows_agree _ _ hagree (by have := hok.2.1; rw [LEAF_NODE_MAX_CELLS_eq] at this; exact this)]
      simp [stored_rows, h1]


theorem db_close_single (table : Table) (node : Page) (h1 : table.pager.num_pages = 1)
    (h2 : table.pager.pages 0 = some node) :
    db_close table = .ok (file_write table.pager.file_descriptor 0 node PAGE_SIZE) := by
  simp [db_close, db_close_loop, h1, h2, pager_flush]

theorem get_page_frame (pager pager1 : Pager) (n : Nat) (h : get_page pager n = .ok pager1) :
    pager1.file_descriptor = pager.file_descriptor
    ∧ (∀ m node, pager.pages m = some node → pager1.pages m = some node)
    ∧ (n < pager.num_pages → pager1.num_pages = pager.num_pages)
    ∧ (pager.pages n ≠ none → pager1 = pager) := by
  unfold get_page at h
  by_cases hn : n ≥ TABLE_MAX_PAGES
  · rw [if_pos hn] at h
    cases h
  · rw [if_neg hn] at h
    cases hp : pager.pages n with
    | some node =>
      rw [hp] at h
      simp only [Except.ok.injEq] at h
      subst h
      exact ⟨rfl, fun _ _ hm => hm, fun _ => rfl, fun _ => rfl⟩
    | none =>
      rw [hp] at h
      simp only [Except.ok.injEq] at h
      subst h
      refine ⟨rfl, ?_, ?_, ?_⟩
      · intro m node hm
        have hmn : m ≠ n := by
          intro e
          rw [e, hp] at hm
          cases hm
        simp [Function.update, hmn, hm]
      · intro hlt
        simp only
        rw [if_neg (by omega)]
      · intro hne
        exact absurd rfl hne

/-! ## The claims about whole sessions -/

/-- C1: on a table opened on an empty file, after any calls of
`execute_insert` with at most `LEAF_NODE_MAX_CELLS` different ids (so the
root leaf never splits), every call returns, with `EXECUTE_SUCCESS` for an
id that is new and `EXECUTE_DUPLICATE_KEY` for one seen before, and
`execute_select` prints exactly the rows whose insert succeeded, each once,
in strictly ascending order of id. -/
theorem select_prints_inserted_rows_ascending (hooks : Hooks) (file : File)
    (uninit : Nat → Page) (rows : List Row) (hfile : file.length = 0)
    (hfew : (rows.map Row.id).dedup.length ≤ LEAF_NODE_MAX_CELLS) :
    ∃ table0 table results printed table1,
      db_open (some file) uninit = .ok table0
      ∧ run_inserts hooks table0 rows = .ok (table, results)
      ∧ results = expected_results [] rows
      ∧ execute_select table = .ok (.EXECUTE_SUCCESS, printed, table1)
      ∧ printed.Perm (inserted_rows rows results)
      ∧ (printed.map Row.id).Pairwise (fun a b => a < b) := by
  obtain ⟨table0, pager0, hopen, hroot0, hget0, _, _, hok0, hrows0⟩ :=
    db_open_root_leaf file uninit (Or.inl hfile)
  have hstored : stored_rows file = [] := by simp [stored_rows, hfile]
  rw [hstored] at hrows0
  have hget0' : get_page table0.pager table0.root_page_num = .ok pager0 := by
    rw [hroot0]; exact hget0
  obtain ⟨table, results, pager1, hrun, hroot1, hget1, _, _, hok1, hlen, _, hperm, hres⟩ :=
    run_inserts_root_leaf hooks rows table0 pager0 hget0' (by rw [hroot0]; exact hok0)
      (by
        rw [hroot0, hrows0, List.nil_append, List.card_toFinset]
        rw [LEAF_NODE_MAX_CELLS_eq] at hfew
        exact hfew)
  rw [hroot0] at hget1 hok1 hperm hres
  rw [hrows0, List.nil_append] at hperm
  rw [hrows0] at hres
  have hget1' : get_page table.pager table.root_page_num = .ok pager1 := by
    rw [hroot1, hroot0]; exact hget1
  have hsel := execute_select_rows table pager1 hget1'
  rw [hroot1, hroot0] at hsel
  exact ⟨table0, table, results, _, _, hopen, hrun, hres, hsel, hperm,
    leaf_rows_ids_sorted _ hok1⟩

/-- C2: on a table whose root is a leaf with strictly ascending keys, an
insert of a row whose id is one of the keys returns `EXECUTE_DUPLICATE_KEY`;
the call does nothing but fetch the root page: when the root page is in the
cache the table is returned as it was, pages already in the cache and the
file keep their bytes, `num_pages` stays, and a scan prints what it printed
before. -/
theorem execute_insert_duplicate_key_unchanged (hooks : Hooks) (statement : Statement)
    (table : Table) (pager : Pager)
    (hget : get_page table.pager table.root_page_num = .ok pager)
    (htype : get_node_type (pager.node table.root_page_num) = NODE_LEAF)
    (hn : read_u32 (pager.node table.root_page_num) leaf_node_num_cells ≤ LEAF_NODE_MAX_CELLS)
    (hsorted : ∀ i j, i < j →
      j < read_u32 (pager.node table.root_page_num) leaf_node_num_cells →
      leaf_key_at (pager.node table.root_page_num) i
        < leaf_key_at (pager.node table.root_page_num) j)
    (hdup : ∃ i, i < read_u32 (pager.node table.root_page_num) leaf_node_num_cells
      ∧ leaf_key_at (pager.node table.root_page_num) i = statement.row_to_insert.id) :
    ∃ table1, execute_insert hooks statement table = .ok (.EXECUTE_DUPLICATE_KEY, table1)
      ∧ (table.pager.pages table.root_page_num ≠ none → table1 = table)
      ∧ table1.root_page_num = table.root_page_num
      ∧ (∀ m node, table.pager.pages m = some node → table1.pager.pages m = some node)
      ∧ table1.pager.file_descriptor = table.pager.file_descriptor
      ∧ (table.root_page_num < table.pager.num_pages →
          table1.pager.num_pages = table.pager.num_pages)
      ∧ read_u32 (table1.pager.node table.root_page_num) leaf_node_num_cells
          = read_u32 (pager.node table.root_page_num) leaf_node_num_cells
      ∧ execute_select table1 = execute_select table := by
  obtain ⟨hfile, hpages, hnum, hsame⟩ := get_page_frame _ _ _ hget
  refine ⟨{ table with pager := pager }, ?_, ?_, rfl, hpages, hfile, hnum, rfl, ?_⟩
  · exact execute_insert_duplicate hooks statement table pager hget htype hn hsorted hdup
  · intro hres
    rw [hsame hres]
  · rw [execute_select_rows table pager hget,
      execute_select_rows { table with pager := pager } pager (get_page_idem _ _ _ hget)]

/-- C8: take a database file that is empty or holds one page with an ordered
leaf, open it, and call `execute_insert` any number of times so that the
root leaf never splits.  Then `execute_select`, `db_close`, `db_open` on the
file left behind and `execute_select` again all return, and the second scan
prints the same rows as the first. -/
theorem scan_same_after_close_and_reopen (hooks : Hooks) (file : File)
    (uninit uninit2 : Nat → Page) (rows : List Row)
    (hfile : file.length = 0 ∨ (file.length = PAGE_SIZE ∧ leaf_ok file.bytes))
    (hfew : ((stored_rows file ++ rows).map Row.id).dedup.length ≤ LEAF_NODE_MAX_CELLS) :
    ∃ table0 table results printed table1 file1 table2 table3,
      db_open (some file) uninit = .ok table0
      ∧ run_inserts hooks table0 rows = .ok (table, results)
      ∧ execute_select table = .ok (.EXECUTE_SUCCESS, printed, table1)
      ∧ db_close table1 = .ok file1
      ∧ db_open (some file1) uninit2 = .ok table2
      ∧ execute_select table2 = .ok (.EXECUTE_SUCCESS, printed, table3) := by
  obtain ⟨table0, pager0, hopen, hroot0, hget0, hnum0, hfd0, hok0, hrows0⟩ :=
    db_open_root_leaf file uninit hfile
  have hget0' : get_page table0.pager table0.root_page_num = .ok pager0 := by
    rw [hroot0]; exact hget0
  obtain ⟨table, results, pager1, hrun, hroot1, hget1, hnum1, hfd1, hok1, _, _, _, _⟩ :=
    run_inserts_root_leaf hooks rows table0 pager0 hget0' (by rw [hroot0]; exact hok0)
      (by
        rw [hroot0, hrows0, List.card_toFinset]
        rw [LEAF_NODE_MAX_CELLS_eq] at hfew
        exact hfew)
  rw [hroot0] at hget1 hok1
  have hget1' : get_page table.pager table.root_page_num = .ok pager1 := by
    rw [hroot1, hroot0]; exact hget1
  have hsel := execute_select_rows table pager1 hget1'
  rw [hroot1, hroot0] at hsel
  obtain ⟨_, node, hnode⟩ := get_page_ok_resident _ _ _ hget1
  have hnode' := Pager.node_of_pages _ _ _ hnode
  have hclose : db_close { table with pager := pager1 }
      = .ok (file_write pager1.file_descriptor 0 node PAGE_SIZE) :=
    db_close_single { table with pager := pager1 } node (by rw [hnum1, hnum0]) hnode
  have hlen : (file_write pager1.file_descriptor 0 node PAGE_SIZE).length = PAGE_SIZE := by
    rw [hfd1, hfd0]
    simp only [file_write, PAGE_SIZE_eq]
    rcases hfile with h | ⟨h, _⟩
    · rw [h]; rfl
    · rw [h, PAGE_SIZE_eq]; rfl
  have hagree : ∀ a, a < 4096 →
      (file_write pager1.file_descriptor 0 node PAGE_SIZE).bytes a = pager1.node 0 a := by
    intro a ha
    simp [file_write, PAGE_SIZE_eq, ha, hnode']
  obtain ⟨table2, pager2, hopen2, hroot2, hget2, _, _, _, hrows2⟩ :=
    db_open_root_leaf (file_write pager1.file_descriptor 0 node PAGE_SIZE) uninit2
      (Or.inr ⟨hlen, leaf_ok_agree _ _ hagree hok1⟩)
  have hget2' : get_page table2.pager table2.root_page_num = .ok pager2 := by
    rw [hroot2]; exact hget2
  have hsel2 := execute_select_rows table2 pager2 hget2'
  rw [hroot2, hrows2] at hsel2
  have hstored : stored_rows (file_write pager1.file_descriptor 0 node PAGE_SIZE)
      = leaf_rows (pager1.node 0) := by
    unfold stored_rows
    rw [hlen, PAGE_SIZE_eq, if_neg (by omega)]
    exact leaf_rows_agree _ _ hagree
      (by have := hok1.2.1; rw [LEAF_NODE_MAX_CELLS_eq] at this; exact this)
  rw [hstored] at hsel2
  exact ⟨table0, table, results, _, _, _, table2, _, hopen, hrun, hsel, hclose, hopen2, hsel2⟩


/-! ## The concrete leaf -/

theorem example_leaf_count (n : Nat) (hn : n ≤ 13) :
    read_u32 (example_leaf n) leaf_node_num_cells = n := by
  simp [read_u32, leaf_node_num_cells, LEAF_NODE_NUM_CELLS_OFFSET_eq, example_leaf, Fin.ofNat]
  omega

theorem example_leaf_word (n i off : Nat) (hn : n ≤ 13) (hi : i < n)
    (hoff : off = 0 ∨ off = 4) :
    read_u32 (example_leaf n) (10 + i * 297 + off) = 2 * i + 1 := by
  have h0 : example_leaf n (10 + i * 297 + off) = Fin.ofNat (2 * i + 1) := by
    unfold example_leaf
    rw [if_neg (by omega), if_neg (by omega), if_pos (by omega)]
    exact congrArg _ (by omega)
  have hk : ∀ k, 1 ≤ k → k ≤ 3 → example_leaf n (10 + i * 297 + off + k) = 0 := by
    intro k hk1 hk3
    unfold example_leaf
    rw [if_neg (by omega), if_neg (by omega), if_neg (by omega)]
  unfold read_u32
  rw [h0, hk 1 (by omega) (by omega), hk 2 (by omega) (by omega), hk 3 (by omega) (by omega)]
  simp [Fin.ofNat]
  omega

theorem example_leaf_key (n i : Nat) (hn : n ≤ 13) (hi : i < n) :
    leaf_key_at (example_leaf n) i = 2 * i + 1 := by
  unfold leaf_key_at
  rw [leaf_node_key_eq i (by omega)]
  exact example_leaf_word n i 0 hn hi (Or.inl rfl)

theorem example_leaf_row_id (n i : Nat) (hn : n ≤ 13) (hi : i < n) :
    (leaf_row_at (example_leaf n) i).id = 2 * i + 1 := by
  unfold leaf_row_at deserialize_row
  simp only [ID_OFFSET_eq, Nat.add_zero]
  rw [leaf_node_value_eq i (by omega)]
  exact example_leaf_word n i 4 hn hi (Or.inr rfl)

theorem example_leaf_ok (n : Nat) (hn : n ≤ 13) : leaf_ok (example_leaf n) := by
  refine ⟨rfl, ?_, ?_, ?_⟩
  · rw [example_leaf_count n hn, LEAF_NODE_MAX_CELLS_eq]
    exact hn
  · intro i j hij hj
    rw [example_leaf_count n hn] at hj
    rw [example_leaf_key n i hn (by omega), example_leaf_key n j hn hj]
    omega
  · intro i hi
    rw [example_leaf_count n hn] at hi
    rw [example_leaf_key n i hn hi, example_leaf_row_id n i hn hi]


/-! ## The split -/

theorem get_page_ok_of_lt (pager : Pager) (n : Nat) (hn : n < TABLE_MAX_PAGES) :
    ∃ pager1, get_page pager n = .ok pager1 := by
  unfold get_page
  rw [if_neg (by omega)]
  cases pager.pages n with
  | some node => exact ⟨_, rfl⟩
  | none => exact ⟨_, rfl⟩

theorem get_page_out_of_bounds (pager : Pager) (n : Nat) (hn : TABLE_MAX_PAGES ≤ n) :
    get_page pager n = .error .page_out_of_bounds := by
  unfold get_page
  rw [if_pos hn]

/-- C7: when the page of the cursor can be fetched and the pager has a free
page number, the split returns; it leaves `LEAF_NODE_LEFT_SPLIT_COUNT` as the
cell count of the old node and `LEAF_NODE_RIGHT_SPLIT_COUNT` as that of the
new node, which is page `num_pages`; these constants are the upper half and
the rest of `LEAF_NODE_MAX_CELLS + 1`, they sum to it, and neither exceeds
`LEAF_NODE_MAX_CELLS`.  This is the state `leaf_node_split_and_insert` hands
to `create_new_root`. -/
theorem leaf_node_split_cell_counts (table : Table) (cursor : Cursor) (key : Nat)
    (value : Row) (pager0 : Pager)
    (hget : get_page table.pager cursor.page_num = .ok pager0)
    (hfree : pager0.num_pages < TABLE_MAX_PAGES) :
    ∃ table1, leaf_node_split_cells table cursor key value = .ok (table1, pager0.num_pages)
      ∧ (∀ hooks : Hooks, leaf_node_split_and_insert hooks table cursor key value
          = if hooks.is_node_root (table1.pager.node cursor.page_num) then
              hooks.create_new_root table1 pager0.num_pages
            else .error .update_parent)
      ∧ read_u32 (table1.pager.node cursor.page_num) leaf_node_num_cells
          = LEAF_NODE_LEFT_SPLIT_COUNT
      ∧ read_u32 (table1.pager.node pager0.num_pages) leaf_node_num_cells
          = LEAF_NODE_RIGHT_SPLIT_COUNT
      ∧ LEAF_NODE_LEFT_SPLIT_COUNT = (LEAF_NODE_MAX_CELLS + 1 + 1) / 2
      ∧ LEAF_NODE_RIGHT_SPLIT_COUNT = (LEAF_NODE_MAX_CELLS + 1) - LEAF_NODE_LEFT_SPLIT_COUNT
      ∧ LEAF_NODE_LEFT_SPLIT_COUNT + LEAF_NODE_RIGHT_SPLIT_COUNT = LEAF_NODE_MAX_CELLS + 1
      ∧ LEAF_NODE_LEFT_SPLIT_COUNT ≤ LEAF_NODE_MAX_CELLS
      ∧ LEAF_NODE_RIGHT_SPLIT_COUNT ≤ LEAF_NODE_MAX_CELLS := by
  obtain ⟨pager1, hget1⟩ := get_page_ok_of_lt pager0 pager0.num_pages hfree
  have hsplit : ∃ table1, leaf_node_split_cells table cursor key value
      = .ok (table1, pager0.num_pages)
      ∧ read_u32 (table1.pager.node cursor.page_num) leaf_node_num_cells
          = LEAF_NODE_LEFT_SPLIT_COUNT
      ∧ read_u32 (table1.pager.node pager0.num_pages) leaf_node_num_cells
          = LEAF_NODE_RIGHT_SPLIT_COUNT := by
    refine ⟨{ table with
        pager := leaf_node_split_pager pager1 cursor.page_num pager0.num_pages
          cursor.cell_num value }, ?_, ?_, ?_⟩
    · simp only [leaf_node_split_cells, hget, get_unused_page_num, hget1]
    · simp only [leaf_node_split_pager]
      by_cases hsame : cursor.page_num = pager0.num_pages
      · rw [hsame, Pager.node_set_node_same]
        exact read_write_u32 _ _ _ (by rw [LEAF_NODE_RIGHT_SPLIT_COUNT_eq]; omega)
      · rw [Pager.node_set_node_other _ _ _ _ hsame, Pager.node_set_node_same]
        exact read_write_u32 _ _ _ (by rw [LEAF_NODE_LEFT_SPLIT_COUNT_eq]; omega)
    · simp only [leaf_node_split_pager]
      rw [Pager.node_set_node_same]
      exact read_write_u32 _ _ _ (by rw [LEAF_NODE_RIGHT_SPLIT_COUNT_eq]; omega)
  obtain ⟨table1, h1, h2, h3⟩ := hsplit
  refine ⟨table1, h1, ?_, h2, h3, rfl, rfl, rfl, ?_, ?_⟩
  · intro hooks
    simp only [leaf_node_split_and_insert, h1]
  · rw [LEAF_NODE_LEFT_SPLIT_COUNT_eq, LEAF_NODE_MAX_CELLS_eq]
    omega
  · rw [LEAF_NODE_RIGHT_SPLIT_COUNT_eq, LEAF_NODE_MAX_CELLS_eq]
    omega

/-! ## A table that cannot grow -/

theorem execute_insert_full_pager (hooks : Hooks) (statement : Statement) (table : Table)
    (pager : Pager)
    (hget : get_page table.pager table.root_page_num = .ok pager)
    (htype : get_node_type (pager.node table.root_page_num) = NODE_LEAF)
    (hfull : read_u32 (pager.node table.root_page_num) leaf_node_num_cells
      = LEAF_NODE_MAX_CELLS)
    (hsorted : ∀ i j, i < j →
      j < read_u32 (pager.node table.root_page_num) leaf_node_num_cells →
      leaf_key_at (pager.node table.root_page_num) i
        < leaf_key_at (pager.node table.root_page_num) j)
    (habsent : ∀ i, i < read_u32 (pager.node table.root_page_num) leaf_node_num_cells →
      leaf_key_at (pager.node table.root_page_num) i ≠ statement.row_to_insert.id)
    (hpages : TABLE_MAX_PAGES ≤ pager.num_pages) :
    execute_insert hooks statement table = .error .page_out_of_bounds := by
  obtain ⟨c, hfind, hcn, _, habs⟩ :=
    table_find_leaf { table with pager := pager } statement.row_to_insert.id pager
      (get_page_idem _ _ _ hget) htype (le_of_eq hfull) hsorted
  have hnodup : ¬ (c < read_u32 (pager.node table.root_page_num) leaf_node_num_cells ∧
      read_u32 (pager.node table.root_page_num) (leaf_node_key c)
        = statement.row_to_insert.id) := by
    intro h
    exact habsent c h.1 h.2
  unfold execute_insert
  simp only [hget, hfind]
  rw [if_neg hnodup]
  simp only [leaf_node_insert, get_page_idem _ _ _ hget, hfull, ge_iff_le, le_refl, if_true,
    leaf_node_split_and_insert, leaf_node_split_cells, get_unused_page_num,
    get_page_out_of_bounds pager pager.num_pages hpages]

theorem execute_insert_ne_table_full (hooks : Hooks) (statement : Statement)
    (table table1 : Table) :
    execute_insert hooks statement table ≠ .ok (.EXECUTE_TABLE_FULL, table1) := by
  intro h
  unfold execute_insert at h
  cases hg : get_page table.pager table.root_page_num with
  | error e => simp [hg] at h
  | ok pager =>
    simp only [hg] at h
    cases hf : table_find { table with pager := pager } statement.row_to_insert.id with
    | error e => simp [hf] at h
    | ok p =>
      obtain ⟨cursor, t1⟩ := p
      simp only [hf] at h
      split at h
      · simp at h
      · cases hl : leaf_node_insert hooks t1 cursor statement.row_to_insert.id
            statement.row_to_insert with
        | error e => simp [hl] at h
        | ok t2 => simp [hl] at h

/-- C10, as the code has it: `execute_insert` never returns
`EXECUTE_TABLE_FULL`; and when the root leaf is full, the id is new and the
pager already counts `TABLE_MAX_PAGES` pages, the call does not return at
all: `get_page` ends the process on the page number out of bounds. -/
theorem execute_insert_never_table_full (hooks : Hooks) (statement : Statement)
    (table : Table) :
    (∀ table1, execute_insert hooks statement table ≠ .ok (.EXECUTE_TABLE_FULL, table1))
    ∧ (∀ pager, get_page table.pager table.root_page_num = .ok pager →
        get_node_type (pager.node table.root_page_num) = NODE_LEAF →
        read_u32 (pager.node table.root_page_num) leaf_node_num_cells = LEAF_NODE_MAX_CELLS →
        (∀ i j, i < j → j < read_u32 (pager.node table.root_page_num) leaf_node_num_cells →
          leaf_key_at (pager.node table.root_page_num) i
            < leaf_key_at (pager.node table.root_page_num) j) →
        (∀ i, i < read_u32 (pager.node table.root_page_num) leaf_node_num_cells →
          leaf_key_at (pager.node table.root_page_num) i ≠ statement.row_to_insert.id) →
        TABLE_MAX_PAGES ≤ pager.num_pages →
        execute_insert hooks statement table = .error .page_out_of_bounds) :=
  ⟨fun table1 => execute_insert_ne_table_full hooks statement table table1,
   fun pager hget htype hfull hsorted habsent hpages =>
     execute_insert_full_pager hooks statement table pager hget htype hfull hsorted habsent
       hpages⟩


/-! ## Preparing an insert -/

theorem strcpy_take (dst src : List Byte) (h : src.length < dst.length) :
    (strcpy dst src).take (src.length + 1) = src ++ [0] := by
  unfold strcpy
  rw [List.take_take, min_eq_left (by omega)]
  have e : src ++ 0 :: List.drop (src.length + 1) dst
      = (src ++ [0]) ++ List.drop (src.length + 1) dst := by simp
  rw [e, List.take_append_of_le_length (by simp)]
  exact List.take_of_length_le (by simp)

theorem insert_line_not_meta (input_buffer : InputBuffer)
    (hkw : (c_string input_buffer.buffer).take 6 = keyword_insert) :
    input_buffer.buffer.head? ≠ some 46 := by
  intro h
  cases hb : input_buffer.buffer with
  | nil =>
    rw [hb] at h
    simp at h
  | cons c cs =>
    rw [hb] at h hkw
    simp only [List.head?_cons, Option.some.injEq] at h
    subst h
    simp [c_string, List.takeWhile_cons, keyword_insert] at hkw

/-- C9: for a line with an id, a username and an email token,
`prepare_insert` returns `PREPARE_STRING_TOO_LONG` exactly when the username
has more than 32 bytes or the email more than 255; within these limits (so
also at exactly 32 and 255 bytes) it returns `PREPARE_SUCCESS` and the row of
the statement holds both strings with their terminators; and when such an
insert line is rejected, the turn of `main` leaves the table as it was. -/
theorem prepare_insert_string_too_long_iff (input_buffer : InputBuffer)
    (statement : Statement) (id_str username email : List Byte)
    (hid : strtok_nth 1 (c_string input_buffer.buffer) = some id_str)
    (huser : strtok_nth 2 (c_string input_buffer.buffer) = some username)
    (hemail : strtok_nth 3 (c_string input_buffer.buffer) = some email) :
    ((prepare_insert input_buffer statement).1 = .PREPARE_STRING_TOO_LONG
        ↔ (username.length > COLUMN_USERNAME_SIZE ∨ email.length > COLUMN_EMAIL_SIZE))
    ∧ (username.length ≤ COLUMN_USERNAME_SIZE → email.length ≤ COLUMN_EMAIL_SIZE →
        (prepare_insert input_buffer statement).1 = .PREPARE_SUCCESS
        ∧ (prepare_insert input_buffer statement).2.row_to_insert.username.take
            (username.length + 1) = username ++ [0]
        ∧ (prepare_insert input_buffer statement).2.row_to_insert.email.take
            (email.length + 1) = email ++ [0])
    ∧ (∀ (hooks : Hooks) (table : Table),
        (c_string input_buffer.buffer).take 6 = keyword_insert →
        (username.length > COLUMN_USERNAME_SIZE ∨ email.length > COLUMN_EMAIL_SIZE) →
        main_turn hooks table input_buffer statement
          = .ok (.next table [.string_too_long])) := by
  have e1 : (strtok (strtok (c_string input_buffer.buffer)).2).1 = some id_str := hid
  have e2 : (strtok (strtok (strtok (c_string input_buffer.buffer)).2).2).1
      = some username := huser
  have e3 : (strtok (strtok (strtok (strtok (c_string input_buffer.buffer)).2).2).2).1
      = some email := hemail
  have hiff : (prepare_insert input_buffer statement).1 = .PREPARE_STRING_TOO_LONG
      ↔ (username.length > COLUMN_USERNAME_SIZE ∨ email.length > COLUMN_EMAIL_SIZE) := by
    unfold prepare_insert
    simp only [e1, e2, e3]
    by_cases hu : username.length > COLUMN_USERNAME_SIZE
    · simp [hu]
    · by_cases he : email.length > COLUMN_EMAIL_SIZE
      · simp [hu, he]
      · simp [hu, he]
  refine ⟨hiff, ?_, ?_⟩
  · intro hu he
    have hu' : ¬ username.length > COLUMN_USERNAME_SIZE := by omega
    have he' : ¬ email.length > COLUMN_EMAIL_SIZE := by omega
    unfold prepare_insert
    simp only [e1, e2, e3, hu', he', if_false]
    refine ⟨trivial, ?_, ?_⟩
    · apply strcpy_take
      rw [statement.row_to_insert.username_len, USERNAME_SIZE]
      omega
    · apply strcpy_take
      rw [statement.row_to_insert.email_len, EMAIL_SIZE]
      omega
  · intro hooks table hkw hlong
    have hhead := insert_line_not_meta input_buffer hkw
    have hres := hiff.mpr hlong
    rcases hp : prepare_insert input_buffer statement with ⟨r, st1⟩
    rw [hp] at hres
    simp only at hres
    subst hres
    simp only [main_turn, hhead, if_false, prepare_statement, hkw, if_true, hp]


/-! ## The claims at concrete inputs -/

theorem example_table_sorted (n num_pages : Nat) (hn : n ≤ 13) :
    ∀ i j, i < j →
      j < read_u32 ((example_table n num_pages).pager.node 0) leaf_node_num_cells →
      leaf_key_at ((example_table n num_pages).pager.node 0) i
        < leaf_key_at ((example_table n num_pages).pager.node 0) j :=
  (example_leaf_ok n hn).2.2.1

theorem example_table_count (n num_pages : Nat) (hn : n ≤ 13) :
    read_u32 ((example_table n num_pages).pager.node 0) leaf_node_num_cells = n :=
  example_leaf_count n hn

theorem example_table_key (n num_pages i : Nat) (hn : n ≤ 13) (hi : i < n) :
    leaf_key_at ((example_table n num_pages).pager.node 0) i = 2 * i + 1 :=
  example_leaf_key n i hn hi

/-- Inserting the ids 3, 1, 2 into an empty database and scanning prints the
ids 1, 2, 3. -/
theorem select_prints_inserted_rows_ascending_witness :
    ∃ table0 table results printed table1,
      db_open (some { length := 0, bytes := fun _ => 0 }) (fun _ _ => 0) = .ok table0
      ∧ run_inserts example_hooks table0 example_rows = .ok (table, results)
      ∧ results = [.EXECUTE_SUCCESS, .EXECUTE_SUCCESS, .EXECUTE_SUCCESS]
      ∧ execute_select table = .ok (.EXECUTE_SUCCESS, printed, table1)
      ∧ printed.map Row.id = [1, 2, 3] := by
  obtain ⟨table0, table, results, printed, table1, h1, h2, h3, h4, h5, h6⟩ :=
    select_prints_inserted_rows_ascending example_hooks { length := 0, bytes := fun _ => 0 }
      (fun _ _ => 0) example_rows rfl (by decide)
  have hres : expected_results [] example_rows
      = [.EXECUTE_SUCCESS, .EXECUTE_SUCCESS, .EXECUTE_SUCCESS] := by decide
  rw [hres] at h3
  subst h3
  refine ⟨table0, table, _, printed, table1, h1, h2, rfl, h4, ?_⟩
  have hids : (inserted_rows example_rows
      [.EXECUTE_SUCCESS, .EXECUTE_SUCCESS, .EXECUTE_SUCCESS]).map Row.id = [3, 1, 2] := by
    decide
  have hp : (printed.map Row.id).Perm [1, 2, 3] := by
    have h := h5.map Row.id
    rw [hids] at h
    exact h.trans (by decide)
  exact List.eq_of_perm_of_sorted hp h6 (by decide)

/-- Inserting the key 3 again into a leaf with keys 1, 3, 5 is refused and
gives the table back. -/
theorem execute_insert_duplicate_key_unchanged_witness :
    ∃ table1, execute_insert example_hooks (example_statement 3 (by decide))
        (example_table 3 1) = .ok (.EXECUTE_DUPLICATE_KEY, table1)
      ∧ table1 = example_table 3 1
      ∧ execute_select table1 = execute_select (example_table 3 1) := by
  obtain ⟨table1, h1, h2, _, _, _, _, _, h8⟩ :=
    execute_insert_duplicate_key_unchanged example_hooks (example_statement 3 (by decide))
      (example_table 3 1) (example_table 3 1).pager rfl rfl
      (le_of_eq_of_le (example_table_count 3 1 (by decide)) (by decide))
      (example_table_sorted 3 1 (by decide))
      ⟨1, lt_of_lt_of_eq (by decide : 1 < 3) (example_table_count 3 1 (by decide)).symm,
        example_table_key 3 1 1 (by decide) (by decide)⟩
  exact ⟨table1, h1, h2 (by simp [example_table]), h8⟩

/-- In a leaf with keys 1, 3, 5 the search for 3 stops at cell 1 and the
search for 4 at cell 2. -/
theorem leaf_node_find_sorted_witness :
    (∃ cursor, leaf_node_find (example_table 3 1) 0 3 = .ok (cursor, example_table 3 1)
      ∧ cursor.cell_num = 1)
    ∧ (∃ cursor, leaf_node_find (example_table 3 1) 0 4 = .ok (cursor, example_table 3 1)
      ∧ cursor.cell_num ≤ 3 ∧ 4 < leaf_key_at (example_leaf 3) cursor.cell_num) := by
  constructor
  · obtain ⟨cursor, h1, _, _, hpres, _⟩ :=
      leaf_node_find_sorted (example_table 3 1) 0 3 (example_table 3 1).pager rfl
        (by rw [example_table_count 3 1 (by decide)]; omega)
        (example_table_sorted 3 1 (by decide))
    exact ⟨cursor, h1, hpres 1 (by rw [example_table_count 3 1 (by decide)]; decide)
      (example_table_key 3 1 1 (by decide) (by decide))⟩
  · obtain ⟨cursor, h1, _, hle, _, habs⟩ :=
      leaf_node_find_sorted (example_table 3 1) 0 4 (example_table 3 1).pager rfl
        (by rw [example_table_count 3 1 (by decide)]; omega)
        (example_table_sorted 3 1 (by decide))
    rw [example_table_count 3 1 (by decide)] at hle habs
    have habsent : ∀ i, i < 3 →
        read_u32 ((example_table 3 1).pager.node 0) (leaf_node_key i) ≠ 4 := by
      intro i hi
      have := example_table_key 3 1 i (by decide) hi
      unfold leaf_key_at at this
      rw [this]
      omega
    obtain ⟨hbelow, habove⟩ := habs habsent
    have hc : cursor.cell_num = 2 := by
      by_contra hne
      rcases Nat.lt_or_gt_of_ne hne with h | h
      · have h2 := habove 1 (by omega) (by omega)
        have := example_table_key 3 1 1 (by decide) (by decide)
        unfold leaf_key_at at this
        rw [this] at h2
        omega
      · have h2 := hbelow 2 h
        have := example_table_key 3 1 2 (by decide) (by decide)
        unfold leaf_key_at at this
        rw [this] at h2
        omega
    refine ⟨cursor, h1, hle, ?_⟩
    rw [hc, example_leaf_key 3 2 (by decide) (by decide)]
    omega

/-- Inserting at cell 0 of a leaf with three cells: the count becomes 4, the
new key is in cell 0 and the three old cells are one place to the right. -/
theorem leaf_node_insert_places_cell_witness :
    ∃ table1, leaf_node_insert example_hooks (example_table 3 1)
        { page_num := 0, cell_num := 0, end_of_table := false } 0 (example_row 0 (by decide))
        = .ok table1
      ∧ read_u32 (table1.pager.node 0) leaf_node_num_cells = 4
      ∧ (∀ k, k < LEAF_NODE_KEY_SIZE →
          table1.pager.node 0 (leaf_node_key 0 + k) = u32_byte 0 k)
      ∧ (∀ j k, 0 < j → j ≤ 3 → k < LEAF_NODE_CELL_SIZE →
          table1.pager.node 0 (leaf_node_cell j + k)
            = example_leaf 3 (leaf_node_cell (j - 1) + k)) := by
  obtain ⟨table1, h1, _, h3, _, h5, h6, _⟩ :=
    leaf_node_insert_places_cell example_hooks (example_table 3 1)
      { page_num := 0, cell_num := 0, end_of_table := false } 0 (example_row 0 (by decide))
      (example_table 3 1).pager rfl
      (by rw [example_table_count 3 1 (by decide)]; decide)
      (Nat.zero_le _)
  rw [example_table_count 3 1 (by decide)] at h5 h6
  exact ⟨table1, h1, h6, h3, h5⟩

/-- Splitting the full leaf of a one-page table: the new node is page 1 and
each node ends with 7 cells. -/
theorem leaf_node_split_cell_counts_witness :
    ∃ table1, leaf_node_split_cells (example_table 13 1)
        { page_num := 0, cell_num := 13, end_of_table := false } 100
        (example_row 100 (by decide)) = .ok (table1, 1)
      ∧ read_u32 (table1.pager.node 0) leaf_node_num_cells = 7
      ∧ read_u32 (table1.pager.node 1) leaf_node_num_cells = 7 := by
  obtain ⟨table1, h1, _, h3, h4, _⟩ :=
    leaf_node_split_cell_counts (example_table 13 1)
      { page_num := 0, cell_num := 13, end_of_table := false } 100
      (example_row 100 (by decide)) (example_table 13 1).pager rfl (by decide)
  exact ⟨table1, h1, h3, h4⟩


set_option maxRecDepth 100000 in
/-- C6, at a failing input: the full leaf with keys 1, 3, ..., 25 is split
for the row `(100, "u", "e")` at cell 13.  The split writes the row at the
start of cell 6 of the new node, not after the key: the key field of that
cell holds the id, 100, and the value decodes to a row with id 117, the byte
of the username.  The pairs of key and row in the two nodes are not the old
pairs together with the pair of 100 and the row. -/
theorem leaf_node_split_loses_inserted_row :
    ∃ table1 new_page_num,
      leaf_node_split_cells (example_table 13 1)
          { page_num := 0, cell_num := 13, end_of_table := false } 100
          (example_row 100 (by decide)) = .ok (table1, new_page_num)
      ∧ leaf_key_at (table1.pager.node new_page_num) 6 = 100
      ∧ (leaf_row_at (table1.pager.node new_page_num) 6).id = 117
      ∧ ¬ (leaf_cells (table1.pager.node 0) ++ leaf_cells (table1.pager.node new_page_num)).Perm
            (leaf_cells (example_leaf 13) ++ [(100, example_row 100 (by decide))]) :=
  ⟨_, _, rfl, by decide, by decide, fun h =>
    absurd ((h.map (fun p => p.2.id)).sum_eq) (by decide)⟩

set_option maxRecDepth 100000 in
/-- A one-page file with keys 1, 3, 5: after the inserts of ids 2 and 3 the
scan before the close and the scan after the reopen print the same rows. -/
theorem scan_same_after_close_and_reopen_witness :
    ∃ table0 table results printed table1 file1 table2 table3,
      db_open (some { length := 4096, bytes := example_leaf 3 }) (fun _ _ => 0) = .ok table0
      ∧ run_inserts example_hooks table0
          [example_row 2 (by decide), example_row 3 (by decide)] = .ok (table, results)
      ∧ execute_select table = .ok (.EXECUTE_SUCCESS, printed, table1)
      ∧ db_close table1 = .ok file1
      ∧ db_open (some file1) (fun _ _ => 1) = .ok table2
      ∧ execute_select table2 = .ok (.EXECUTE_SUCCESS, printed, table3) :=
  scan_same_after_close_and_reopen example_hooks { length := 4096, bytes := example_leaf 3 }
    (fun _ _ => 0) (fun _ _ => 1) [example_row 2 (by decide), example_row 3 (by decide)]
    (Or.inr ⟨rfl, example_leaf_ok 3 (by decide)⟩) (by decide)

set_option maxRecDepth 100000 in
/-- A username of 32 bytes with an email of 255 bytes is accepted and stored;
a username of 33 bytes is rejected and the table stays as it was. -/
theorem prepare_insert_string_too_long_iff_witness :
    ((prepare_insert (example_line 32) (example_statement 0 (by decide))).1
        = .PREPARE_SUCCESS
      ∧ (prepare_insert (example_line 32)
          (example_statement 0 (by decide))).2.row_to_insert.username.take 33
          = List.replicate 32 97 ++ [0])
    ∧ ((prepare_insert (example_line 33) (example_statement 0 (by decide))).1
        = .PREPARE_STRING_TOO_LONG
      ∧ main_turn example_hooks (example_table 3 1) (example_line 33)
          (example_statement 0 (by decide))
          = .ok (.next (example_table 3 1) [.string_too_long])) := by
  constructor
  · obtain ⟨_, h2, _⟩ :=
      prepare_insert_string_too_long_iff (example_line 32) (example_statement 0 (by decide))
        [49] (List.replicate 32 97) (List.replicate 255 98) (by decide) (by decide)
        (by decide)
    obtain ⟨h3, h4, _⟩ := h2 (by decide) (by decide)
    exact ⟨h3, h4⟩
  · obtain ⟨h1, _, h3⟩ :=
      prepare_insert_string_too_long_iff (example_line 33) (example_statement 0 (by decide))
        [49] (List.replicate 33 97) (List.replicate 255 98) (by decide) (by decide)
        (by decide)
    exact ⟨h1.mpr (Or.inl (by decide)),
      h3 example_hooks (example_table 3 1) (by decide) (Or.inl (by decide))⟩

/-- A full root leaf in a pager that counts 100 pages: the insert of a new id
ends in the fatal exit of `get_page`. -/
theorem execute_insert_never_table_full_witness :
    execute_insert example_hooks (example_statement 100 (by decide)) (example_table 13 100)
      = .error .page_out_of_bounds :=
  (execute_insert_never_table_full example_hooks (example_statement 100 (by decide))
    (example_table 13 100)).2 (example_table 13 100).pager rfl rfl
    (example_table_count 13 100 (by decide))
    (example_table_sorted 13 100 (by decide))
    (fun i hi => by
      have hi' : i < 13 := lt_of_lt_of_eq hi (example_table_count 13 100 (by decide))
      have h := example_table_key 13 100 i (by decide) hi'
      show leaf_key_at ((example_table 13 100).pager.node 0) i ≠ 100
      rw [h]
      omega)
    (by decide)

set_option maxRecDepth 100000 in
/-- C10 as stated fails: the root leaf is full, the id 100 is new, the pager
counts `TABLE_MAX_PAGES` pages, so the insert needs a page that cannot be
had; the call does not return `EXECUTE_TABLE_FULL`, the process exits. -/
theorem execute_insert_table_full_counterexample :
    (example_table 13 100).pager.num_pages = TABLE_MAX_PAGES
    ∧ read_u32 ((example_table 13 100).pager.node 0) leaf_node_num_cells
        = LEAF_NODE_MAX_CELLS
    ∧ execute_insert example_hooks (example_statement 100 (by decide)) (example_table 13 100)
        = .error .page_out_of_bounds
    ∧ ¬ ∃ table1, execute_insert example_hooks (example_statement 100 (by decide))
        (example_table 13 100) = .ok (.EXECUTE_TABLE_FULL, table1) := by
  have h : execute_insert example_hooks (example_statement 100 (by decide))
      (example_table 13 100) = .error .page_out_of_bounds := by rfl
  refine ⟨rfl, by decide, h, ?_⟩
  rintro ⟨table1, h1⟩
  rw [h] at h1
  cases h1


/-! ## The layout of a row and of a fresh leaf -/

/-- C14, as the code has it: `ROW_SIZE` is the sum of the widths of the three
fields of `Row`; the two arrays are one byte wider than the longest string
they take, so the sum is 4 + 33 + 256 = 293 bytes. -/
theorem ROW_SIZE_sum_of_field_widths :
    ROW_SIZE = ID_SIZE + USERNAME_SIZE + EMAIL_SIZE
    ∧ ID_SIZE = 4
    ∧ USERNAME_SIZE = COLUMN_USERNAME_SIZE + 1
    ∧ EMAIL_SIZE = COLUMN_EMAIL_SIZE + 1
    ∧ ROW_SIZE = 293 :=
  ⟨rfl, rfl, rfl, rfl, rfl⟩

/-- C14 as stated fails: `ROW_SIZE` is not 291. -/
theorem ROW_SIZE_counterexample : ROW_SIZE ≠ 291 := by decide

theorem initialize_leaf_node_apply (node : Page) (a : Nat) :
    initialize_leaf_node node a =
      if 6 ≤ a ∧ a < 10 then 0 else if a = 0 then 1 else node a := by
  simp only [initialize_leaf_node, write_u32, set_node_type, leaf_node_num_cells,
    LEAF_NODE_NUM_CELLS_OFFSET_eq, NODE_TYPE_OFFSET_eq, NODE_LEAF, u32_byte]
  by_cases h1 : 6 ≤ a ∧ a < 10
  · rw [if_pos h1, if_pos h1]
    simp
    rfl
  · rw [if_neg h1, if_neg h1]
    by_cases h2 : a = 0
    · rw [if_pos h2, if_pos h2]
      rfl
    · rw [if_neg h2, if_neg h2]

/-- C15, as the code has it: after `initialize_leaf_node` the node type is
leaf and the cell count is 0; every byte outside the type byte and the four
bytes of the cell count, so also the is-root flag in byte 1, keeps the value
the buffer had. -/
theorem initialize_leaf_node_sets_type_and_count (node : Page) :
    get_node_type (initialize_leaf_node node) = NODE_LEAF
    ∧ read_u32 (initialize_leaf_node node) leaf_node_num_cells = 0
    ∧ initialize_leaf_node node IS_ROOT_OFFSET = node IS_ROOT_OFFSET
    ∧ (∀ a, a ≠ NODE_TYPE_OFFSET →
        ¬ (LEAF_NODE_NUM_CELLS_OFFSET ≤ a
            ∧ a < LEAF_NODE_NUM_CELLS_OFFSET + LEAF_NODE_NUM_CELLS_SIZE) →
        initialize_leaf_node node a = node a) := by
  refine ⟨(initialize_leaf_node_ok node).1.1, read_write_u32 _ _ 0 (by omega), ?_, ?_⟩
  · rw [initialize_leaf_node_apply]
    rfl
  · intro a h0 h1
    rw [NODE_TYPE_OFFSET_eq] at h0
    rw [LEAF_NODE_NUM_CELLS_OFFSET_eq] at h1
    have h1' : ¬ (6 ≤ a ∧ a < 10) := h1
    rw [initialize_leaf_node_apply, if_neg h1', if_neg h0]

/-- The buffer with nothing but ones is a case of C15 as the code has it. -/
theorem initialize_leaf_node_sets_type_and_count_witness :
    initialize_leaf_node (fun _ => 1) 1 = 1
    ∧ initialize_leaf_node (fun _ => 1) 4095 = 1 :=
  ⟨(initialize_leaf_node_sets_type_and_count (fun _ => 1)).2.2.2 1 (by decide) (by decide),
   (initialize_leaf_node_sets_type_and_count (fun _ => 1)).2.2.2 4095 (by decide)
     (by decide)⟩

/-- C15 as stated fails: on a buffer whose byte 1 is 1, the is-root flag is
still 1 after `initialize_leaf_node`, not 0. -/
theorem initialize_leaf_node_is_root_counterexample :
    ¬ (get_node_type (initialize_leaf_node (fun _ => 1)) = NODE_LEAF
      ∧ initialize_leaf_node (fun _ => 1) IS_ROOT_OFFSET = 0
      ∧ read_u32 (initialize_leaf_node (fun _ => 1)) leaf_node_num_cells = 0) := by
  decide


/-! ## Opening the pager and fetching pages -/

theorem get_page_empty_slot (pager : Pager) (n : Nat) (hn : n < TABLE_MAX_PAGES)
    (hempty : pager.pages n = none) :
    ∃ page, get_page pager n
        = .ok { pager with
                num_pages := if n ≥ pager.num_pages then n + 1 else pager.num_pages
                pages := Function.update pager.pages n (some page)
                uninit := fun k => pager.uninit (k + 1) }
      ∧ (∀ a, ¬ (a < PAGE_SIZE ∧ n * PAGE_SIZE + a < pager.file_descriptor.length) →
          page a = pager.uninit 0 a) := by
  refine ⟨if n ≤ (if pager.file_length % PAGE_SIZE ≠ 0
                    then pager.file_length / PAGE_SIZE + 1
                    else pager.file_length / PAGE_SIZE)
      then file_read pager.file_descriptor (n * PAGE_SIZE) (pager.uninit 0) PAGE_SIZE
      else pager.uninit 0, ?_, ?_⟩
  · unfold get_page
    rw [if_neg (by omega), hempty]
  · intro a ha
    have hread : file_read pager.file_descriptor (n * PAGE_SIZE) (pager.uninit 0) PAGE_SIZE a
        = pager.uninit 0 a := by
      simp only [file_read]
      rw [if_neg ha]
    by_cases hle : n ≤ (if pager.file_length % PAGE_SIZE ≠ 0
                    then pager.file_length / PAGE_SIZE + 1
                    else pager.file_length / PAGE_SIZE)
    · rw [if_pos hle]
      exact hread
    · rw [if_neg hle]

/-- C16, as the code has it: a page fetched into an empty slot is the buffer
`malloc` returned; where the file has no bytes for the page the buffer keeps
every byte it came with, which need not be zero. -/
theorem get_page_beyond_file_keeps_malloc_bytes (pager : Pager) (n : Nat)
    (hn : n < TABLE_MAX_PAGES) (hempty : pager.pages n = none)
    (hbeyond : pager.file_descriptor.length ≤ n * PAGE_SIZE) :
    ∃ pager1, get_page pager n = .ok pager1
      ∧ ∀ a, pager1.node n a = pager.uninit 0 a := by
  obtain ⟨page, hget, hpage⟩ := get_page_empty_slot pager n hn hempty
  refine ⟨_, hget, ?_⟩
  intro a
  rw [Pager.node_of_pages _ n page (by simp)]
  exact hpage a (by omega)

/-- An empty file and an allocator that returns buffers full of ones: page 0
comes back full of ones. -/
theorem get_page_beyond_file_keeps_malloc_bytes_witness :
    ∃ pager1,
      get_page { file_descriptor := { length := 0, bytes := fun _ => 0 }, file_length := 0,
                 num_pages := 0, pages := fun _ => none, uninit := fun _ _ => 1 } 0
        = .ok pager1
      ∧ ∀ a, pager1.node 0 a = 1 :=
  get_page_beyond_file_keeps_malloc_bytes
    { file_descriptor := { length := 0, bytes := fun _ => 0 }, file_length := 0,
      num_pages := 0, pages := fun _ => none, uninit := fun _ _ => 1 } 0
    (by decide) rfl (by decide)

/-- C16 as stated fails: the pager opened on an empty file, with an
allocator that returns buffers full of ones, has slot 0 empty and no file
bytes for page 0, and `get_page` gives a page whose bytes are not zero. -/
theorem get_page_zero_filled_counterexample :
    ∃ pager pager1,
      pager_open (some { length := 0, bytes := fun _ => 0 }) (fun _ _ => 1) = .ok pager
      ∧ pager.pages 0 = none
      ∧ get_page pager 0 = .ok pager1
      ∧ ¬ (∀ a, a < PAGE_SIZE → pager1.node 0 a = 0) :=
  ⟨_, _, rfl, rfl, rfl, fun h => absurd (h 0 (by decide)) (by decide)⟩

/-- C12, as the code has it: on an existing file of length `L`, `pager_open`
fails exactly when `L` is not a multiple of `PAGE_SIZE`, and then as a
corrupt file; when it succeeds every slot is empty and the two 32-bit
fields hold `L` and `L / PAGE_SIZE` reduced modulo `2 ^ 32`, which are `L`
and `L / PAGE_SIZE` themselves when `L` is below `2 ^ 32`. -/
theorem pager_open_existing_file (file : File) (uninit : Nat → Page) :
    ((∃ e, pager_open (some file) uninit = .error e) ↔ file.length % PAGE_SIZE ≠ 0)
    ∧ (file.length % PAGE_SIZE ≠ 0 → pager_open (some file) uninit = .error .corrupt_file)
    ∧ (file.length % PAGE_SIZE = 0 →
        ∃ pager, pager_open (some file) uninit = .ok pager
          ∧ pager.file_length = file.length % 2 ^ 32
          ∧ pager.num_pages = (file.length / PAGE_SIZE) % 2 ^ 32
          ∧ (file.length < 2 ^ 32 →
              pager.file_length = file.length
              ∧ pager.num_pages = file.length / PAGE_SIZE)
          ∧ (∀ i, pager.pages i = none)
          ∧ pager.file_descriptor = file) := by
  by_cases h : file.length % PAGE_SIZE ≠ 0
  · have e : pager_open (some file) uninit = .error .corrupt_file := by
      simp only [pager_open]
      rw [if_pos h]
    refine ⟨⟨fun _ => h, fun _ => ⟨_, e⟩⟩, fun _ => e, fun h0 => absurd h0 h⟩
  · have e : pager_open (some file) uninit
        = .ok { file_descriptor := file, file_length := file.length % 2 ^ 32,
                num_pages := (file.length / PAGE_SIZE) % 2 ^ 32, pages := fun _ => none,
                uninit := uninit } := by
      simp only [pager_open]
      rw [if_neg h]
    refine ⟨⟨?_, fun h0 => absurd h0 h⟩, fun h0 => absurd h0 h, fun _ => ⟨_, e, rfl, rfl, ?_,
      fun _ => rfl, rfl⟩⟩
    · rintro ⟨err, herr⟩
      rw [e] at herr
      cases herr
    · intro hlt
      refine ⟨Nat.mod_eq_of_lt hlt, Nat.mod_eq_of_lt ?_⟩
      exact lt_of_le_of_lt (Nat.div_le_self _ _) hlt

/-- A file of two pages opens with `num_pages` 2 and `file_length` 8192. -/
theorem pager_open_existing_file_witness :
    ∃ pager, pager_open (some { length := 8192, bytes := fun _ => 0 }) (fun _ _ => 0)
        = .ok pager
      ∧ pager.file_length = 8192 ∧ pager.num_pages = 2 ∧ ∀ i, pager.pages i = none := by
  obtain ⟨pager, h1, _, _, h4, h5, _⟩ :=
    (pager_open_existing_file { length := 8192, bytes := fun _ => 0 }
      (fun _ _ => 0)).2.2 (by decide)
  obtain ⟨h6, h7⟩ := h4 (by decide)
  exact ⟨pager, h1, h6, h7, h5⟩

/-- C12 as stated fails: a file of `2 ^ 32` bytes is a whole number of
pages, `pager_open` succeeds, and `file_length` is 0, not the length. -/
theorem pager_open_file_length_counterexample :
    ∃ pager, pager_open (some { length := 4294967296, bytes := fun _ => 0 }) (fun _ _ => 0)
        = .ok pager
      ∧ pager.file_length ≠ 4294967296 :=
  ⟨_, rfl, by decide⟩

theorem pager_open_slots_counted (file : Option File) (uninit : Nat → Page) (pager : Pager)
    (h : pager_open file uninit = .ok pager) : pager_slots_counted pager := by
  intro n node hn
  cases file with
  | none => simp [pager_open] at h
  | some f =>
    simp only [pager_open] at h
    split at h
    · cases h
    · simp only [Except.ok.injEq] at h
      rw [← h] at hn
      cases hn

/-- C13: for a pager whose occupied slots all lie below `num_pages` (as they
do from `pager_open` on), `get_page(n)` ends the process exactly when `n` is
`TABLE_MAX_PAGES` or more; otherwise it returns, slot `n` is occupied,
`num_pages` is the larger of its old value and `n + 1`, no other slot
changes, the occupied slots still lie below `num_pages`, and a second
`get_page(n)` gives the same pager, so the same buffer. -/
theorem get_page_contract (pager : Pager) (n : Nat) (hcounted : pager_slots_counted pager) :
    ((∃ e, get_page pager n = .error e) ↔ n ≥ TABLE_MAX_PAGES)
    ∧ (n < TABLE_MAX_PAGES →
        ∃ pager1, get_page pager n = .ok pager1
          ∧ (∃ node, pager1.pages n = some node)
          ∧ pager1.num_pages = max pager.num_pages (n + 1)
          ∧ (∀ m, m ≠ n → pager1.pages m = pager.pages m)
          ∧ pager_slots_counted pager1
          ∧ get_page pager1 n = .ok pager1) := by
  constructor
  · constructor
    · rintro ⟨e, he⟩
      by_contra hlt
      obtain ⟨pager1, h1⟩ := get_page_ok_of_lt pager n (by omega)
      rw [h1] at he
      cases he
    · intro hge
      exact ⟨_, get_page_out_of_bounds pager n hge⟩
  · intro hn
    cases hp : pager.pages n with
    | some node =>
      have hget := get_page_resident pager n node hp hn
      have hlt := hcounted n node hp
      exact ⟨pager, hget, ⟨node, hp⟩, by omega, fun _ _ => rfl, hcounted, hget⟩
    | none =>
      obtain ⟨page, hget, _⟩ := get_page_empty_slot pager n hn hp
      refine ⟨_, hget, ⟨page, by simp⟩, ?_, ?_, ?_, get_page_idem _ _ _ hget⟩
      · simp only
        split <;> omega
      · intro m hm
        simp [Function.update, hm]
      · intro m node hm
        simp only at hm ⊢
        by_cases hmn : m = n
        · subst hmn
          split <;> omega
        · rw [Function.update_noteq hmn] at hm
          have := hcounted m node hm
          split <;> omega

/-- The pager just opened on an empty file: `get_page(0)` fills slot 0 and
sets `num_pages` to 1. -/
theorem get_page_contract_witness :
    ∃ pager pager1,
      pager_open (some { length := 0, bytes := fun _ => 0 }) (fun _ _ => 0) = .ok pager
      ∧ get_page pager 0 = .ok pager1
      ∧ (∃ node, pager1.pages 0 = some node)
      ∧ pager1.num_pages = 1 := by
  have hopen : pager_open (some { length := 0, bytes := fun _ => 0 }) (fun _ _ => 0)
      = .ok { file_descriptor := { length := 0, bytes := fun _ => 0 }, file_length := 0,
              num_pages := 0, pages := fun _ => none, uninit := fun _ _ => 0 } := rfl
  obtain ⟨pager1, h1, h2, h3, _⟩ :=
    (get_page_contract _ 0 (pager_open_slots_counted _ _ _ hopen)).2 (by decide)
  exact ⟨_, pager1, hopen, h1, h2, h3⟩


/-! ## Negative ids -/

theorem prepare_insert_ne_negative_id (input_buffer : InputBuffer) (statement : Statement) :
    (prepare_insert input_buffer statement).1 ≠ .PREPARE_NEGATIVE_ID := by
  unfold prepare_insert
  simp only
  split
  · split
    · simp
    · split <;> simp
  · simp

set_option maxRecDepth 100000 in
/-- C11, at a failing input: the line `insert -1 u e`.  `prepare_statement`
returns `PREPARE_SUCCESS` with the id `2 ^ 32 - 1` in the row, the turn of
`main` hands the row to `execute_insert`, and the leaf with keys 1, 3, 5 ends
with a fourth cell whose key is `2 ^ 32 - 1`.  No line at all makes
`prepare_insert` return `PREPARE_NEGATIVE_ID`, the result for which `main`
prints that the id must be non-negative. -/
theorem prepare_statement_accepts_negative_id :
    (prepare_statement example_line_negative (example_statement 0 (by decide))).1
      = .PREPARE_SUCCESS
    ∧ (prepare_statement example_line_negative
        (example_statement 0 (by decide))).2.row_to_insert.id = 4294967295
    ∧ (∃ table1, main_turn example_hooks (example_table 3 1) example_line_negative
          (example_statement 0 (by decide)) = .ok (.next table1 [.executed])
        ∧ read_u32 (table1.pager.node 0) leaf_node_num_cells = 4
        ∧ leaf_key_at (table1.pager.node 0) 3 = 4294967295)
    ∧ (∀ (input_buffer : InputBuffer) (statement : Statement),
        (prepare_insert input_buffer statement).1 ≠ .PREPARE_NEGATIVE_ID) :=
  ⟨by decide, by decide, ⟨_, rfl, by decide, by decide⟩, prepare_insert_ne_negative_id⟩


/-! ## The leaf invariant across one insert -/

/-- The keys of a leaf after an insert at the place the search gave: still
strictly ascending, and the old keys together with the new one. -/
theorem leaf_node_insert_cell_keys (node : Page) (c : Nat) (value : Row)
    (hsorted : ∀ i j, i < j → j < read_u32 node leaf_node_num_cells →
      leaf_key_at node i < leaf_key_at node j)
    (hroom : read_u32 node leaf_node_num_cells < 13)
    (hc : c ≤ read_u32 node leaf_node_num_cells)
    (hbelow : ∀ i, i < c → leaf_key_at node i < value.id)
    (habove : ∀ i, c ≤ i → i < read_u32 node leaf_node_num_cells →
      value.id < leaf_key_at node i) :
    (∀ i j, i < j → j < read_u32 node leaf_node_num_cells + 1 →
      leaf_key_at (leaf_node_insert_cell node c value.id value) i
        < leaf_key_at (leaf_node_insert_cell node c value.id value) j)
    ∧ (∀ x, (∃ j, j < read_u32 node leaf_node_num_cells + 1
              ∧ leaf_key_at (leaf_node_insert_cell node c value.id value) j = x)
          ↔ ((∃ i, i < read_u32 node leaf_node_num_cells ∧ leaf_key_at node i = x)
              ∨ x = value.id)) := by
  obtain ⟨hbefore, hkey, _, hafter⟩ :=
    leaf_node_insert_cell_cells node c value.id value hroom hc value.id_lt
  constructor
  · intro i j hij hj
    rcases Nat.lt_trichotomy i c with hi | hi | hi
    · rw [(hbefore i hi).1]
      rcases Nat.lt_trichotomy j c with hj1 | hj1 | hj1
      · rw [(hbefore j hj1).1]
        exact hsorted i j hij (by omega)
      · rw [hj1, hkey]
        exact hbelow i hi
      · rw [(hafter j hj1 (by omega)).1]
        exact hsorted i (j - 1) (by omega) (by omega)
    · rw [hi, hkey, (hafter j (by omega) (by omega)).1]
      exact habove (j - 1) (by omega) (by omega)
    · rw [(hafter i hi (by omega)).1, (hafter j (by omega) (by omega)).1]
      exact hsorted (i - 1) (j - 1) (by omega) (by omega)
  · intro x
    constructor
    · rintro ⟨j, hj, hjx⟩
      rcases Nat.lt_trichotomy j c with h | h | h
      · rw [(hbefore j h).1] at hjx
        exact Or.inl ⟨j, by omega, hjx⟩
      · rw [h, hkey] at hjx
        exact Or.inr hjx.symm
      · rw [(hafter j h (by omega)).1] at hjx
        exact Or.inl ⟨j - 1, by omega, hjx⟩
    · rintro (⟨i, hi, hix⟩ | hx)
      · by_cases h : i < c
        · exact ⟨i, by omega, by rw [(hbefore i h).1]; exact hix⟩
        · refine ⟨i + 1, by omega, ?_⟩
          rw [(hafter (i + 1) (by omega) (by omega)).1]
          exact hix
      · exact ⟨c, by omega, by rw [hkey]; exact hx.symm⟩

/-- C17: on a root leaf that is not full and whose keys ascend strictly,
`execute_insert` returns `EXECUTE_SUCCESS` or `EXECUTE_DUPLICATE_KEY`, the
second exactly when the id is already a key; afterwards the root leaf still
has at most `LEAF_NODE_MAX_CELLS` cells and strictly ascending keys; on
success it has one cell more and its keys are the old keys and the id; on a
duplicate nothing but the fetch of the root page has happened. -/
theorem execute_insert_keeps_leaf_invariant (hooks : Hooks) (statement : Statement)
    (table : Table) (pager : Pager)
    (hget : get_page table.pager table.root_page_num = .ok pager)
    (htype : get_node_type (pager.node table.root_page_num) = NODE_LEAF)
    (hroom : read_u32 (pager.node table.root_page_num) leaf_node_num_cells
      < LEAF_NODE_MAX_CELLS)
    (hsorted : ∀ i j, i < j →
      j < read_u32 (pager.node table.root_page_num) leaf_node_num_cells →
      leaf_key_at (pager.node table.root_page_num) i
        < leaf_key_at (pager.node table.root_page_num) j) :
    ∃ result table1, execute_insert hooks statement table = .ok (result, table1)
      ∧ (result = .EXECUTE_SUCCESS ∨ result = .EXECUTE_DUPLICATE_KEY)
      ∧ (result = .EXECUTE_DUPLICATE_KEY ↔
          ∃ i, i < read_u32 (pager.node table.root_page_num) leaf_node_num_cells
            ∧ leaf_key_at (pager.node table.root_page_num) i = statement.row_to_insert.id)
      ∧ read_u32 (table1.pager.node table.root_page_num) leaf_node_num_cells
          ≤ LEAF_NODE_MAX_CELLS
      ∧ (∀ i j, i < j →
          j < read_u32 (table1.pager.node table.root_page_num) leaf_node_num_cells →
          leaf_key_at (table1.pager.node table.root_page_num) i
            < leaf_key_at (table1.pager.node table.root_page_num) j)
      ∧ (result = .EXECUTE_SUCCESS →
          read_u32 (table1.pager.node table.root_page_num) leaf_node_num_cells
            = read_u32 (pager.node table.root_page_num) leaf_node_num_cells + 1
          ∧ ∀ x, (∃ j, j < read_u32 (table1.pager.node table.root_page_num)
                      leaf_node_num_cells
                    ∧ leaf_key_at (table1.pager.node table.root_page_num) j = x)
              ↔ ((∃ i, i < read_u32 (pager.node table.root_page_num) leaf_node_num_cells
                    ∧ leaf_key_at (pager.node table.root_page_num) i = x)
                  ∨ x = statement.row_to_insert.id))
      ∧ (result = .EXECUTE_DUPLICATE_KEY → table1 = { table with pager := pager }) := by
  rw [LEAF_NODE_MAX_CELLS_eq] at hroom
  by_cases hdup : ∃ i, i < read_u32 (pager.node table.root_page_num) leaf_node_num_cells
      ∧ leaf_key_at (pager.node table.root_page_num) i = statement.row_to_insert.id
  · have hexec := execute_insert_duplicate hooks statement table pager hget htype
      (by rw [LEAF_NODE_MAX_CELLS_eq]; omega) hsorted hdup
    refine ⟨.EXECUTE_DUPLICATE_KEY, { table with pager := pager }, hexec, Or.inr rfl,
      ⟨fun _ => hdup, fun _ => rfl⟩, ?_, hsorted, ?_, fun _ => rfl⟩
    · rw [LEAF_NODE_MAX_CELLS_eq]
      exact Nat.le_of_lt hroom
    · intro h
      cases h
  · have habsent : ∀ i, i < read_u32 (pager.node table.root_page_num) leaf_node_num_cells →
        leaf_key_at (pager.node table.root_page_num) i ≠ statement.row_to_insert.id :=
      fun i hi hk => hdup ⟨i, hi, hk⟩
    obtain ⟨c, hexec, hc, hbelow, habove⟩ :=
      execute_insert_fresh_key hooks statement table pager hget htype hsorted hroom habsent
    obtain ⟨hsorted2, hkeys2⟩ :=
      leaf_node_insert_cell_keys (pager.node table.root_page_num) c statement.row_to_insert
        hsorted hroom hc hbelow habove
    have hcount := leaf_node_insert_cell_count (pager.node table.root_page_num) c
      statement.row_to_insert.id statement.row_to_insert hroom hc
    refine ⟨.EXECUTE_SUCCESS, _, hexec, Or.inl rfl, ⟨fun h => (by cases h), fun h => absurd h hdup⟩,
      ?_, ?_, fun _ => ⟨?_, ?_⟩, fun h => by cases h⟩
    · simp only [Pager.node_set_node_same]
      rw [hcount, LEAF_NODE_MAX_CELLS_eq]
      omega
    · simp only [Pager.node_set_node_same]
      rw [hcount]
      exact hsorted2
    · simp only [Pager.node_set_node_same]
      exact hcount
    · simp only [Pager.node_set_node_same]
      rw [hcount]
      exact hkeys2

/-- The leaf with keys 1, 3, 5 takes the id 4: success, four cells, and 4 is
among the keys. -/
theorem execute_insert_keeps_leaf_invariant_witness :
    ∃ table1, execute_insert example_hooks (example_statement 4 (by decide))
        (example_table 3 1) = .ok (.EXECUTE_SUCCESS, table1)
      ∧ read_u32 (table1.pager.node 0) leaf_node_num_cells = 4
      ∧ (∀ i j, i < j → j < 4 →
          leaf_key_at (table1.pager.node 0) i < leaf_key_at (table1.pager.node 0) j)
      ∧ ∃ j, j < 4 ∧ leaf_key_at (table1.pager.node 0) j = 4 := by
  obtain ⟨result, table1, h1, _, h3, _, h5, h6, _⟩ :=
    execute_insert_keeps_leaf_invariant example_hooks (example_statement 4 (by decide))
      (example_table 3 1) (example_table 3 1).pager rfl rfl
      (lt_of_eq_of_lt (example_table_count 3 1 (by decide)) (by decide))
      (example_table_sorted 3 1 (by decide))
  have hnot : ¬ result = .EXECUTE_DUPLICATE_KEY := by
    intro h
    obtain ⟨i, hi, hk⟩ := h3.mp h
    have hi' : i < 3 := lt_of_lt_of_eq hi (example_table_count 3 1 (by decide))
    have hkey := example_table_key 3 1 i (by decide) hi'
    have hk' : leaf_key_at ((example_table 3 1).pager.node 0) i = 4 := hk
    rw [hkey] at hk'
    omega
  have hres : result = .EXECUTE_SUCCESS := by
    cases result <;> simp_all
  subst hres
  obtain ⟨h7, h8⟩ := h6 rfl
  have hcount : read_u32 (table1.pager.node 0) leaf_node_num_cells = 4 := by
    have := example_table_count 3 1 (by decide : 3 ≤ 13)
    have h7' : read_u32 (table1.pager.node 0) leaf_node_num_cells
      = read_u32 ((example_table 3 1).pager.node 0) leaf_node_num_cells + 1 := h7
    omega
  refine ⟨table1, h1, hcount, ?_, ?_⟩
  · intro i j hij hj
    exact h5 i j hij (by
      show j < read_u32 (table1.pager.node 0) leaf_node_num_cells
      omega)
  · obtain ⟨j, hj, hjk⟩ := (h8 4).mpr (Or.inr rfl)
    exact ⟨j, by
      have : j < read_u32 (table1.pager.node 0) leaf_node_num_cells := hj
      omega, hjk⟩


/-! ## The passes of the scan loop -/

theorem execute_select_loop_of_trace :
    ∀ (fuel : Nat) (table : Table) (cursor : Cursor) (visited : List (Nat × Row)),
      execute_select_loop fuel table cursor (visited.map Prod.snd)
        = match execute_select_trace fuel table cursor visited with
          | .ok (trace, table1) => .ok (trace.map Prod.snd, table1)
          | .error e => .error e := by
  intro fuel
  induction fuel with
  | zero => intro table cursor visited; rfl
  | succ fuel ih =>
    intro table cursor visited
    unfold execute_select_loop execute_select_trace
    by_cases hend : cursor.end_of_table = true
    · simp [hend]
    · simp only [hend, Bool.not_false, if_true, Bool.false_eq_true, Bool.not_eq_true]
      cases hv : cursor_value table cursor with
      | error e => simp
      | ok p =>
        obtain ⟨value, table1⟩ := p
        simp only
        cases ha : cursor_advance table1 cursor with
        | error e => simp
        | ok q =>
          obtain ⟨cursor1, table2⟩ := q
          simp only
          have := ih table2 cursor1
            (visited ++ [(cursor.cell_num,
              deserialize_row (table1.pager.node cursor.page_num) value)])
          rw [List.map_append] at this
          exact this

theorem execute_select_trace_end (fuel : Nat) (table : Table) (cursor : Cursor)
    (visited : List (Nat × Row)) (h : cursor.end_of_table = true) :
    execute_select_trace (fuel + 1) table cursor visited = .ok (visited, table) := by
  simp [execute_select_trace, h]

theorem execute_select_trace_cells (table : Table) (page_num : Nat)
    (hget : get_page table.pager page_num = .ok table.pager) :
    ∀ (k c fuel : Nat) (visited : List (Nat × Row)), 1 ≤ k →
      c + k = read_u32 (table.pager.node page_num) leaf_node_num_cells →
      (k < fuel →
        execute_select_trace fuel table
            { page_num := page_num, cell_num := c, end_of_table := false } visited
          = .ok (visited ++ (List.range' c k).map
                  (fun i => (i, leaf_row_at (table.pager.node page_num) i)),
                 table))
      ∧ (fuel ≤ k →
        execute_select_trace fuel table
            { page_num := page_num, cell_num := c, end_of_table := false } visited
          = .error .no_result) := by
  intro k
  induction k with
  | zero => intro c fuel visited h; omega
  | succ k ih =>
    intro c fuel visited _ hck
    have hlt := read_u32_lt (table.pager.node page_num) leaf_node_num_cells
    have hmod : (c + 1) % 2 ^ 32 = c + 1 := Nat.mod_eq_of_lt (by omega)
    have heta : ({ table with pager := table.pager } : Table) = table := rfl
    cases fuel with
    | zero => exact ⟨fun h => by omega, fun _ => rfl⟩
    | succ fuel =>
      simp only [execute_select_trace, Bool.not_false, if_true, cursor_value, cursor_advance,
        hget, heta, hmod]
      by_cases hk : k = 0
      · subst hk
        rw [if_pos (by omega)]
        constructor
        · intro hfuel
          obtain ⟨fuel, rfl⟩ : ∃ f, fuel = f + 1 := ⟨fuel - 1, by omega⟩
          rw [execute_select_trace_end _ _ _ _ rfl]
          simp [leaf_row_at]
        · intro hfuel
          have h0 : fuel = 0 := by omega
          subst h0
          rfl
      · rw [if_neg (by omega)]
        obtain ⟨ih1, ih2⟩ := ih (c + 1) fuel
          (visited ++ [(c, deserialize_row (table.pager.node page_num) (leaf_node_value c))])
          (by omega) (by omega)
        constructor
        · intro hfuel
          rw [ih1 (by omega)]
          simp [leaf_row_at, List.range'_succ]
        · intro hfuel
          exact ih2 (by omega)

/-- C20: for a table whose root leaf has `n` cells, `table_start` gives the
cursor at cell 0 with `end_of_table` set exactly when `n` is 0; from there
the loop of `execute_select` goes through its body `n` times, for the cells
0, 1, ..., `n - 1` in that order, and ends at its next test: with `n + 1`
or more tests allowed it returns that trace, with `n` or fewer it is not
done.  The rows `execute_select` prints are those of the trace. -/
theorem execute_select_visits_each_cell_once (table : Table) (pager : Pager)
    (hget : get_page table.pager table.root_page_num = .ok pager) :
    table_start table
      = .ok ({ page_num := table.root_page_num, cell_num := 0,
               end_of_table :=
                 decide (read_u32 (pager.node table.root_page_num) leaf_node_num_cells = 0) },
             { table with pager := pager })
    ∧ (∀ fuel, read_u32 (pager.node table.root_page_num) leaf_node_num_cells < fuel →
        execute_select_trace fuel { table with pager := pager }
            { page_num := table.root_page_num, cell_num := 0,
              end_of_table :=
                decide (read_u32 (pager.node table.root_page_num) leaf_node_num_cells = 0) }
            []
          = .ok ((List.range (read_u32 (pager.node table.root_page_num)
                    leaf_node_num_cells)).map
                  (fun i => (i, leaf_row_at (pager.node table.root_page_num) i)),
                 { table with pager := pager }))
    ∧ (∀ fuel, fuel ≤ read_u32 (pager.node table.root_page_num) leaf_node_num_cells →
        execute_select_trace fuel { table with pager := pager }
            { page_num := table.root_page_num, cell_num := 0,
              end_of_table :=
                decide (read_u32 (pager.node table.root_page_num) leaf_node_num_cells = 0) }
            []
          = .error .no_result)
    ∧ (∀ fuel (cursor : Cursor),
        execute_select_loop fuel { table with pager := pager } cursor []
          = match execute_select_trace fuel { table with pager := pager } cursor [] with
            | .ok (trace, table1) => .ok (trace.map Prod.snd, table1)
            | .error e => .error e)
    ∧ execute_select table
        = .ok (.EXECUTE_SUCCESS,
               (List.range (read_u32 (pager.node table.root_page_num)
                 leaf_node_num_cells)).map (leaf_row_at (pager.node table.root_page_num)),
               { table with pager := pager }) := by
  have hidem := get_page_idem _ _ _ hget
  refine ⟨?_, ?_, ?_, ?_, execute_select_rows table pager hget⟩
  · simp only [table_start, hget]
  · intro fuel hfuel
    by_cases hn : read_u32 (pager.node table.root_page_num) leaf_node_num_cells = 0
    · obtain ⟨fuel, rfl⟩ : ∃ f, fuel = f + 1 := ⟨fuel - 1, by omega⟩
      simp only [hn, decide_True]
      rw [execute_select_trace_end _ _ _ _ rfl]
      simp
    · simp only [hn, decide_False]
      rw [(execute_select_trace_cells { table with pager := pager } table.root_page_num hidem
        (read_u32 (pager.node table.root_page_num) leaf_node_num_cells) 0 fuel []
        (by omega) (by simp)).1 hfuel]
      simp [List.range_eq_range']
  · intro fuel hfuel
    by_cases hn : read_u32 (pager.node table.root_page_num) leaf_node_num_cells = 0
    · have h0 : fuel = 0 := by omega
      subst h0
      rfl
    · simp only [hn, decide_False]
      exact (execute_select_trace_cells { table with pager := pager } table.root_page_num
        hidem (read_u32 (pager.node table.root_page_num) leaf_node_num_cells) 0 fuel []
        (by omega) (by simp)).2 hfuel
  · intro fuel cursor
    exact execute_select_loop_of_trace fuel _ cursor []


/-- Three cells read from the leaf with keys 1, 3, 5: the loop passes through
cells 0, 1, 2 and needs its fourth test to end. -/
theorem execute_select_visits_each_cell_once_witness :
    (∃ trace, execute_select_trace 4 (example_table 3 1)
          { page_num := 0, cell_num := 0, end_of_table := false } []
        = .ok (trace, example_table 3 1)
      ∧ trace.map Prod.fst = [0, 1, 2])
    ∧ execute_select_trace 3 (example_table 3 1)
          { page_num := 0, cell_num := 0, end_of_table := false } []
        = .error .no_result := by
  have hn : read_u32 ((example_table 3 1).pager.node (example_table 3 1).root_page_num)
      leaf_node_num_cells = 3 := example_table_count 3 1 (by decide)
  obtain ⟨_, h2, h3, _⟩ :=
    execute_select_visits_each_cell_once (example_table 3 1) (example_table 3 1).pager rfl
  have h2' := h2 4 (by rw [hn]; decide)
  have h3' := h3 3 (by rw [hn])
  rw [hn] at h2' h3'
  exact ⟨⟨_, h2', by simp [List.range_succ]⟩, h3'⟩

/-! ## The loop of the split -/

theorem leaf_node_split_loop_succ (old new c : Nat) (value : Row) (k : Nat) (pager : Pager) :
    leaf_node_split_loop old new c value (k + 1) pager
      = leaf_node_split_loop old new c value k
          (pager.set_node (if k ≥ LEAF_NODE_LEFT_SPLIT_COUNT then new else old)
            (if k = c then
              serialize_row value
                (pager.node (if k ≥ LEAF_NODE_LEFT_SPLIT_COUNT then new else old))
                (leaf_node_cell (k % LEAF_NODE_LEFT_SPLIT_COUNT))
            else if k > c then
              memcpy (pager.node (if k ≥ LEAF_NODE_LEFT_SPLIT_COUNT then new else old))
                (leaf_node_cell (k % LEAF_NODE_LEFT_SPLIT_COUNT)) (pager.node old)
                (leaf_node_cell (k - 1)) LEAF_NODE_CELL_SIZE
            else
              memcpy (pager.node (if k ≥ LEAF_NODE_LEFT_SPLIT_COUNT then new else old))
                (leaf_node_cell (k % LEAF_NODE_LEFT_SPLIT_COUNT)) (pager.node old)
                (leaf_node_cell k) LEAF_NODE_CELL_SIZE)) :=
  rfl

/-- One pass of the loop of the split, on the buffer it writes to: bytes
outside the destination cell stay; the destination cell takes the bytes of
the source cell, or, at the place of the new row, the bytes of the row. -/
theorem leaf_node_split_step (buffer old_node : Page) (value : Row) (c k idx : Nat)
    (hk : k ≤ 13) (hidx : idx ≤ 13) :
    ∃ buf : Page,
      (if k = c then serialize_row value buffer (leaf_node_cell idx)
        else if k > c then
          memcpy buffer (leaf_node_cell idx) old_node (leaf_node_cell (k - 1))
            LEAF_NODE_CELL_SIZE
        else memcpy buffer (leaf_node_cell idx) old_node (leaf_node_cell k)
          LEAF_NODE_CELL_SIZE) = buf
      ∧ (∀ a, (a < 10 + idx * 297 ∨ 10 + idx * 297 + 297 ≤ a) → buf a = buffer a)
      ∧ (k ≠ c → ∀ t, t < 297 →
          buf (10 + idx * 297 + t) = old_node (10 + (if k > c then k - 1 else k) * 297 + t))
      ∧ (k = c → ∀ t,
          buf (10 + idx * 297 + t)
            = serialize_row value buffer (10 + idx * 297) (10 + idx * 297 + t)) := by
  refine ⟨_, rfl, ?_⟩
  rw [leaf_node_cell_eq idx (by omega), leaf_node_cell_eq k (by omega),
    leaf_node_cell_eq (k - 1) (by omega), LEAF_NODE_CELL_SIZE_eq]
  refine ⟨?_, ?_, ?_⟩
  · intro a ha
    by_cases h1 : k = c
    · rw [if_pos h1]
      exact serialize_row_outside _ _ _ _ (by omega)
    · rw [if_neg h1]
      by_cases h2 : k > c
      · rw [if_pos h2]
        simp only [memcpy]
        rw [if_neg (by omega)]
      · rw [if_neg h2]
        simp only [memcpy]
        rw [if_neg (by omega)]
  · intro h1 t ht
    rw [if_neg h1]
    by_cases h2 : k > c
    · rw [if_pos h2, if_pos h2]
      simp only [memcpy]
      rw [if_pos (by omega)]
      exact congrArg old_node (by omega)
    · rw [if_neg h2, if_neg h2]
      simp only [memcpy]
      rw [if_pos (by omega)]
      exact congrArg old_node (by omega)
  · intro h1 t
    rw [if_pos h1]

/-- The two nodes after the last `k` passes of the loop of the split (places
`k - 1` down to `0`), when they are different pages: bytes outside the cells
written stay; the cell of a place other than that of the new row holds the
bytes of its source cell of the old node as it was before these passes; the
cell of the place of the new row holds the bytes of the row at its start. -/
theorem leaf_node_split_loop_cells (old new c : Nat) (value : Row) (hne : old ≠ new) :
    ∀ k pager, k ≤ 14 →
      (∀ a, (a < 10 ∨ 10 + (min k 7) * 297 ≤ a) →
        (leaf_node_split_loop old new c value k pager).node old a = pager.node old a)
      ∧ (∀ a, (a < 10 ∨ 10 + (k - 7) * 297 ≤ a) →
        (leaf_node_split_loop old new c value k pager).node new a = pager.node new a)
      ∧ (∀ i t, i < k → i ≠ c → t < 297 →
        (leaf_node_split_loop old new c value k pager).node (if i < 7 then old else new)
            (10 + (i % 7) * 297 + t)
          = pager.node old (10 + (if i > c then i - 1 else i) * 297 + t))
      ∧ (c < k → ∀ t, t < 293 →
        (leaf_node_split_loop old new c value k pager).node (if c < 7 then old else new)
            (10 + (c % 7) * 297 + t)
          = serialize_row value (pager.node (if c < 7 then old else new))
              (10 + (c % 7) * 297) (10 + (c % 7) * 297 + t)) := by
  intro k
  induction k with
  | zero =>
    intro pager _
    exact ⟨fun _ _ => rfl, fun _ _ => rfl, fun i t hi => absurd hi (Nat.not_lt_zero i),
      fun hc => absurd hc (Nat.not_lt_zero c)⟩
  | succ k ih =>
    intro pager hk
    obtain ⟨buf, hbuf, hs1, hs2, hs3⟩ :=
      leaf_node_split_step (pager.node (if k ≥ LEAF_NODE_LEFT_SPLIT_COUNT then new else old))
        (pager.node old) value c k (k % LEAF_NODE_LEFT_SPLIT_COUNT) (by omega)
        (by rw [LEAF_NODE_LEFT_SPLIT_COUNT_eq]; omega)
    rw [leaf_node_split_loop_succ, hbuf]
    obtain ⟨iA1, iA2, iB, iC⟩ :=
      ih (pager.set_node (if k ≥ LEAF_NODE_LEFT_SPLIT_COUNT then new else old) buf) (by omega)
    simp only [LEAF_NODE_LEFT_SPLIT_COUNT_eq] at hs1 hs2 hs3 iA1 iA2 iB iC ⊢
    by_cases hk7 : k ≥ 7
    · simp only [if_pos hk7] at hs1 hs2 hs3 iA1 iA2 iB iC ⊢
      simp only [Pager.node_set_node_other _ _ _ _ hne, Pager.node_set_node_same]
        at iA1 iA2 iB
      refine ⟨?_, ?_, ?_, ?_⟩
      · intro a ha
        exact iA1 a (by omega)
      · intro a ha
        rw [iA2 a (by omega)]
        exact hs1 a (by omega)
      · intro i t hi hic ht
        by_cases hik : i < k
        · exact iB i t hik hic ht
        · have hieq : i = k := by omega
          subst hieq
          rw [if_neg (by omega), iA2 _ (by omega)]
          exact hs2 hic t ht
      · intro hck t ht
        by_cases hc : c < k
        · have h := iC hc t ht
          by_cases hc7 : c < 7
          · simp only [if_pos hc7] at h ⊢
            rw [Pager.node_set_node_other _ _ _ _ hne] at h
            exact h
          · simp only [if_neg hc7] at h ⊢
            rw [Pager.node_set_node_same] at h
            rw [h]
            exact serialize_row_inside _ _ _ _ _ (by omega) (by omega)
        · have hceq : c = k := by omega
          subst hceq
          rw [if_neg (by omega), iA2 _ (by omega)]
          exact hs3 rfl t
    · simp only [if_neg hk7] at hs1 hs2 hs3 iA1 iA2 iB iC ⊢
      simp only [Pager.node_set_node_other _ _ _ _ (Ne.symm hne), Pager.node_set_node_same]
        at iA1 iA2 iB
      refine ⟨?_, ?_, ?_, ?_⟩
      · intro a ha
        rw [iA1 a (by omega)]
        exact hs1 a (by omega)
      · intro a ha
        exact iA2 a (by omega)
      · intro i t hi hic ht
        by_cases hik : i < k
        · rw [iB i t hik hic ht]
          by_cases hgt : i > c
          · simp only [if_pos hgt]
            exact hs1 _ (by omega)
          · simp only [if_neg hgt]
            exact hs1 _ (by omega)
        · have hieq : i = k := by omega
          subst hieq
          rw [if_pos (by omega), iA1 _ (by omega)]
          exact hs2 hic t ht
      · intro hck t ht
        by_cases hc : c < k
        · have h := iC hc t ht
          have hc7 : c < 7 := by omega
          simp only [if_pos hc7] at h ⊢
          rw [Pager.node_set_node_same] at h
          rw [h]
          exact serialize_row_inside _ _ _ _ _ (by omega) (by omega)
        · have hceq : c = k := by omega
          subst hceq
          rw [if_pos (by omega), iA1 _ (by omega)]
          exact hs3 rfl t

theorem write_u32_other (m : Page) (off v a : Nat) (h : a < off ∨ off + 4 ≤ a) :
    write_u32 m off v a = m a := by
  simp only [write_u32]
  rw [if_neg (by omega)]

/-- The two nodes after `leaf_node_split_cells`, when the page of the cursor
is below `num_pages`: place `i` of the `LEAF_NODE_MAX_CELLS + 1` places is
cell `i` of the old node for `i < 7` and cell `i - 7` of the new node
otherwise.  A place other than `cursor.cell_num` holds the bytes of its
source cell of the old node before the call; the place `cursor.cell_num`
starts with the bytes of the row. -/
theorem leaf_node_split_cells_layout (table : Table) (cursor : Cursor) (key : Nat)
    (value : Row) (pager0 : Pager)
    (hget : get_page table.pager cursor.page_num = .ok pager0)
    (hold : cursor.page_num < pager0.num_pages)
    (hfree : pager0.num_pages < TABLE_MAX_PAGES) :
    ∃ table1, leaf_node_split_cells table cursor key value = .ok (table1, pager0.num_pages)
      ∧ (∀ i t, i < 14 → i ≠ cursor.cell_num → t < 297 →
          table1.pager.node (if i < 7 then cursor.page_num else pager0.num_pages)
              (10 + (i % 7) * 297 + t)
            = pager0.node cursor.page_num
                (10 + (if i > cursor.cell_num then i - 1 else i) * 297 + t))
      ∧ (cursor.cell_num < 14 → ∀ (m : Page) t, t < 293 →
          table1.pager.node (if cursor.cell_num < 7 then cursor.page_num else pager0.num_pages)
              (10 + (cursor.cell_num % 7) * 297 + t)
            = serialize_row value m (10 + (cursor.cell_num % 7) * 297)
                (10 + (cursor.cell_num % 7) * 297 + t))
      ∧ read_u32 (table1.pager.node cursor.page_num) leaf_node_num_cells = 7
      ∧ read_u32 (table1.pager.node pager0.num_pages) leaf_node_num_cells = 7 := by
  obtain ⟨pager1, hget1⟩ := get_page_ok_of_lt pager0 pager0.num_pages hfree
  have hne : cursor.page_num ≠ pager0.num_pages := by omega
  obtain ⟨_, node0, hnode0⟩ := get_page_ok_resident _ _ _ hget
  have hframe := (get_page_frame pager0 pager1 _ hget1).2.1 _ _ hnode0
  have hold1 : pager1.node cursor.page_num = pager0.node cursor.page_num := by
    simp only [Pager.node, hframe, hnode0]
  obtain ⟨lA1, lA2, lB, lC⟩ :=
    leaf_node_split_loop_cells cursor.page_num pager0.num_pages cursor.cell_num value hne
      (LEAF_NODE_MAX_CELLS + 1)
      (pager1.set_node pager0.num_pages (initialize_leaf_node (pager1.node pager0.num_pages)))
      (by rw [LEAF_NODE_MAX_CELLS_eq])
  simp only [LEAF_NODE_MAX_CELLS_eq, Pager.node_set_node_other _ _ _ _ hne, hold1] at lA1 lB
  have hPold : (leaf_node_split_pager pager1 cursor.page_num pager0.num_pages
        cursor.cell_num value).node cursor.page_num
      = write_u32 ((leaf_node_split_loop cursor.page_num pager0.num_pages cursor.cell_num
            value (LEAF_NODE_MAX_CELLS + 1)
            (pager1.set_node pager0.num_pages
              (initialize_leaf_node (pager1.node pager0.num_pages)))).node cursor.page_num)
          leaf_node_num_cells LEAF_NODE_LEFT_SPLIT_COUNT := by
    simp only [leaf_node_split_pager, Pager.node_set_node_other _ _ _ _ hne,
      Pager.node_set_node_same]
  have hPnew : (leaf_node_split_pager pager1 cursor.page_num pager0.num_pages
        cursor.cell_num value).node pager0.num_pages
      = write_u32 ((leaf_node_split_loop cursor.page_num pager0.num_pages cursor.cell_num
            value (LEAF_NODE_MAX_CELLS + 1)
            (pager1.set_node pager0.num_pages
              (initialize_leaf_node (pager1.node pager0.num_pages)))).node pager0.num_pages)
          leaf_node_num_cells LEAF_NODE_RIGHT_SPLIT_COUNT := by
    simp only [leaf_node_split_pager, Pager.node_set_node_other _ _ _ _ (Ne.symm hne),
      Pager.node_set_node_same]
  have hoff : leaf_node_num_cells = 6 := rfl
  refine ⟨{ table with
      pager := leaf_node_split_pager pager1 cursor.page_num pager0.num_pages
        cursor.cell_num value }, ?_, ?_, ?_, ?_, ?_⟩
  · simp only [leaf_node_split_cells, hget, get_unused_page_num, hget1]
  · intro i t hi hic ht
    have h := lB i t (by omega) hic ht
    by_cases hi7 : i < 7
    · simp only [if_pos hi7] at h ⊢
      rw [hPold, write_u32_other _ _ _ _ (by rw [hoff]; omega)]
      exact h
    · simp only [if_neg hi7] at h ⊢
      rw [hPnew, write_u32_other _ _ _ _ (by rw [hoff]; omega)]
      exact h
  · intro hc m t ht
    have h := lC (by rw [LEAF_NODE_MAX_CELLS_eq]; omega) t ht
    by_cases hc7 : cursor.cell_num < 7
    · simp only [if_pos hc7] at h ⊢
      rw [hPold, write_u32_other _ _ _ _ (by rw [hoff]; omega), h]
      exact serialize_row_inside _ _ _ _ _ (by omega) (by omega)
    · simp only [if_neg hc7] at h ⊢
      rw [hPnew, write_u32_other _ _ _ _ (by rw [hoff]; omega), h]
      exact serialize_row_inside _ _ _ _ _ (by omega) (by omega)
  · show read_u32 ((leaf_node_split_pager pager1 cursor.page_num pager0.num_pages
        cursor.cell_num value).node cursor.page_num) leaf_node_num_cells = 7
    rw [hPold]
    exact read_write_u32 _ _ _ (by rw [LEAF_NODE_LEFT_SPLIT_COUNT_eq]; omega)
  · show read_u32 ((leaf_node_split_pager pager1 cursor.page_num pager0.num_pages
        cursor.cell_num value).node pager0.num_pages) leaf_node_num_cells = 7
    rw [hPnew]
    exact read_write_u32 _ _ _ (by rw [LEAF_NODE_RIGHT_SPLIT_COUNT_eq]; omega)

/-- C18: in `leaf_node_split_and_insert` with cursor position `c`, on a page
of the cursor below `num_pages`, every cell of the old node is copied before
its bytes are written over.  For every old cell index `j < LEAF_NODE_MAX_CELLS`
and `p = j` if `j < c`, `p = j + 1` otherwise, the cell at place `p` after the
split (cell `p` of the old node if `p < LEAF_NODE_LEFT_SPLIT_COUNT`, else
cell `p - LEAF_NODE_LEFT_SPLIT_COUNT` of the new node) has, byte for byte,
the content cell `j` of the old node had before the split.  The call itself
goes on to the test `is_node_root` on this state. -/
theorem leaf_node_split_keeps_old_cells (table : Table) (cursor : Cursor) (key : Nat)
    (value : Row) (pager0 : Pager)
    (hget : get_page table.pager cursor.page_num = .ok pager0)
    (hold : cursor.page_num < pager0.num_pages)
    (hfree : pager0.num_pages < TABLE_MAX_PAGES) :
    ∃ table1, leaf_node_split_cells table cursor key value = .ok (table1, pager0.num_pages)
      ∧ (∀ hooks : Hooks, leaf_node_split_and_insert hooks table cursor key value
          = if hooks.is_node_root (table1.pager.node cursor.page_num) then
              hooks.create_new_root table1 pager0.num_pages
            else .error .update_parent)
      ∧ ∀ j t, j < LEAF_NODE_MAX_CELLS → t < LEAF_NODE_CELL_SIZE →
          (if (if j < cursor.cell_num then j else j + 1) < LEAF_NODE_LEFT_SPLIT_COUNT then
            table1.pager.node cursor.page_num
              (leaf_node_cell (if j < cursor.cell_num then j else j + 1) + t)
          else
            table1.pager.node pager0.num_pages
              (leaf_node_cell
                ((if j < cursor.cell_num then j else j + 1) - LEAF_NODE_LEFT_SPLIT_COUNT) + t))
          = pager0.node cursor.page_num (leaf_node_cell j + t) := by
  obtain ⟨table1, hsplit, hcells, _, _, _⟩ :=
    leaf_node_split_cells_layout table cursor key value pager0 hget hold hfree
  refine ⟨table1, hsplit, ?_, ?_⟩
  · intro hooks
    simp only [leaf_node_split_and_insert, hsplit]
  · intro j t hj ht
    rw [LEAF_NODE_MAX_CELLS_eq] at hj
    rw [LEAF_NODE_CELL_SIZE_eq] at ht
    rw [LEAF_NODE_LEFT_SPLIT_COUNT_eq, leaf_node_cell_eq j (by omega)]
    by_cases hjc : j < cursor.cell_num
    · simp only [if_pos hjc]
      have h := hcells j t (by omega) (by omega) ht
      rw [if_neg (show ¬ j > cursor.cell_num by omega)] at h
      by_cases hj7 : j < 7
      · rw [if_pos hj7] at h
        rw [if_pos hj7, leaf_node_cell_eq j (by omega)]
        rw [← h]
        exact congrArg _ (by omega)
      · rw [if_neg hj7] at h
        rw [if_neg hj7, leaf_node_cell_eq (j - 7) (by omega)]
        rw [← h]
        exact congrArg _ (by omega)
    · simp only [if_neg hjc]
      have h := hcells (j + 1) t (by omega) (by omega) ht
      rw [if_pos (show j + 1 > cursor.cell_num by omega)] at h
      by_cases hj7 : j + 1 < 7
      · rw [if_pos hj7] at h
        rw [if_pos hj7, leaf_node_cell_eq (j + 1) (by omega)]
        have e : j + 1 - 1 = j := by omega
        rw [e] at h
        rw [← h]
        exact congrArg _ (by omega)
      · rw [if_neg hj7] at h
        rw [if_neg hj7, leaf_node_cell_eq (j + 1 - 7) (by omega)]
        have e : j + 1 - 1 = j := by omega
        rw [e] at h
        rw [← h]
        exact congrArg _ (by omega)

/-- The full leaf with keys 1, 3, ..., 25 split at cursor position 5: old
cell 4 stays cell 4 of the old node, and old cell 9, at place 10, is cell 3
of the new node, page 1. -/
theorem leaf_node_split_keeps_old_cells_witness :
    ∃ table1, leaf_node_split_cells (example_table 13 1)
        { page_num := 0, cell_num := 5, end_of_table := false } 10
        (example_row 10 (by decide)) = .ok (table1, 1)
      ∧ (∀ t, t < 297 → table1.pager.node 0 (leaf_node_cell 4 + t)
          = (example_table 13 1).pager.node 0 (leaf_node_cell 4 + t))
      ∧ (∀ t, t < 297 → table1.pager.node 1 (leaf_node_cell 3 + t)
          = (example_table 13 1).pager.node 0 (leaf_node_cell 9 + t)) := by
  obtain ⟨table1, h1, _, h3⟩ :=
    leaf_node_split_keeps_old_cells (example_table 13 1)
      { page_num := 0, cell_num := 5, end_of_table := false } 10
      (example_row 10 (by decide)) (example_table 13 1).pager rfl (by decide) (by decide)
  refine ⟨table1, h1, fun t ht => ?_, fun t ht => ?_⟩
  · exact h3 4 t (by decide) ht
  · exact h3 9 t (by decide) ht

/-! ## Keys after the split of a full sorted leaf -/

/-- The keys at the `LEAF_NODE_MAX_CELLS + 1` places after the split: a place
other than `cursor.cell_num` has the key of its source cell, the place
`cursor.cell_num` has the id of the row, whose first field lies where the
key of the cell is read. -/
theorem leaf_node_split_cells_keys (table : Table) (cursor : Cursor) (key : Nat)
    (value : Row) (pager0 : Pager)
    (hget : get_page table.pager cursor.page_num = .ok pager0)
    (hold : cursor.page_num < pager0.num_pages)
    (hfree : pager0.num_pages < TABLE_MAX_PAGES) :
    ∃ table1, leaf_node_split_cells table cursor key value = .ok (table1, pager0.num_pages)
      ∧ (∀ p, p < 14 → p ≠ cursor.cell_num →
          (if p < 7 then leaf_key_at (table1.pager.node cursor.page_num) p
            else leaf_key_at (table1.pager.node pager0.num_pages) (p - 7))
          = leaf_key_at (pager0.node cursor.page_num)
              (if p > cursor.cell_num then p - 1 else p))
      ∧ (cursor.cell_num < 14 →
          (if cursor.cell_num < 7 then
              leaf_key_at (table1.pager.node cursor.page_num) cursor.cell_num
            else leaf_key_at (table1.pager.node pager0.num_pages) (cursor.cell_num - 7))
          = value.id)
      ∧ leaf_keys (table1.pager.node cursor.page_num)
          = (List.range 7).map (leaf_key_at (table1.pager.node cursor.page_num))
      ∧ leaf_keys (table1.pager.node pager0.num_pages)
          = (List.range 7).map (leaf_key_at (table1.pager.node pager0.num_pages)) := by
  obtain ⟨table1, hsplit, hcells, hrow, hcount_old, hcount_new⟩ :=
    leaf_node_split_cells_layout table cursor key value pager0 hget hold hfree
  refine ⟨table1, hsplit, ?_, ?_, ?_, ?_⟩
  · intro p hp hpc
    have hsrc : (if p > cursor.cell_num then p - 1 else p) ≤ 13 := by
      by_cases h : p > cursor.cell_num
      · rw [if_pos h]; omega
      · rw [if_neg h]; omega
    by_cases hp7 : p < 7
    · rw [if_pos hp7]
      unfold leaf_key_at
      rw [leaf_node_key_eq p (by omega), leaf_node_key_eq _ (by omega)]
      apply read_u32_congr
      intro k hk
      have h := hcells p k hp hpc (by omega)
      rw [if_pos hp7, Nat.mod_eq_of_lt hp7] at h
      exact h
    · rw [if_neg hp7]
      unfold leaf_key_at
      rw [leaf_node_key_eq (p - 7) (by omega), leaf_node_key_eq _ (by omega)]
      apply read_u32_congr
      intro k hk
      have h := hcells p k hp hpc (by omega)
      have e : p % 7 = p - 7 := by omega
      rw [if_neg hp7, e] at h
      exact h
  · intro hc
    by_cases hc7 : cursor.cell_num < 7
    · rw [if_pos hc7]
      unfold leaf_key_at
      rw [leaf_node_key_eq _ (by omega),
        ← serialize_row_id value (fun _ => 0) (10 + cursor.cell_num * 297)]
      apply read_u32_congr
      intro k hk
      have h := hrow hc (fun _ => 0) k (by omega)
      rw [if_pos hc7, Nat.mod_eq_of_lt hc7] at h
      exact h
    · rw [if_neg hc7]
      unfold leaf_key_at
      rw [leaf_node_key_eq _ (by omega),
        ← serialize_row_id value (fun _ => 0) (10 + (cursor.cell_num - 7) * 297)]
      apply read_u32_congr
      intro k hk
      have h := hrow hc (fun _ => 0) k (by omega)
      have e : cursor.cell_num % 7 = cursor.cell_num - 7 := by omega
      rw [if_neg hc7, e] at h
      exact h
  · unfold leaf_keys
    rw [hcount_old]
  · unfold leaf_keys
    rw [hcount_new]

/-- A strictly ascending function on `[0, n)` with a value put in at the
place that keeps the order is strictly ascending on `[0, n + 1)`. -/
theorem ascending_insert (f g : Nat → Nat) (n c x : Nat) (hc : c ≤ n)
    (hsorted : ∀ i j, i < j → j < n → f i < f j)
    (hbelow : ∀ i, i < c → f i < x) (habove : ∀ i, c ≤ i → i < n → x < f i)
    (h1 : ∀ j, j < c → g j = f j) (h2 : g c = x)
    (h3 : ∀ j, c < j → j ≤ n → g j = f (j - 1)) :
    ∀ i j, i < j → j < n + 1 → g i < g j := by
  intro i j hij hj
  rcases Nat.lt_trichotomy i c with hi | hi | hi
  · rw [h1 i hi]
    rcases Nat.lt_trichotomy j c with hj1 | hj1 | hj1
    · rw [h1 j hj1]
      exact hsorted i j hij (by omega)
    · rw [hj1, h2]
      exact hbelow i hi
    · rw [h3 j hj1 (by omega)]
      exact lt_trans (hbelow i hi) (habove (j - 1) (by omega) (by omega))
  · rw [hi, h2, h3 j (by omega) (by omega)]
    exact habove (j - 1) (by omega) (by omega)
  · rw [h3 i hi (by omega), h3 j (by omega) (by omega)]
    exact hsorted (i - 1) (j - 1) (by omega) (by omega)

/-- C19: a full leaf with strictly ascending keys, a row whose id is not
among them, and the cursor `leaf_node_find` returns for that id, on a page
below `num_pages`.  After the split of `leaf_node_split_and_insert` the keys
of the cells of the old node followed by the keys of the cells of the new
node are the old keys with `row.id` put in at `cursor.cell_num`; this
sequence has the old keys and the id as its members and ascends strictly, so
each of the two leaves is sorted and every key of the old node is less than
every key of the new node.  The call itself goes on to the test
`is_node_root` on this state. -/
theorem leaf_node_split_keys_ascending (table : Table) (page_num : Nat) (value : Row)
    (pager : Pager) (cursor : Cursor) (table_f : Table)
    (hget : get_page table.pager page_num = .ok pager)
    (hfull : read_u32 (pager.node page_num) leaf_node_num_cells = LEAF_NODE_MAX_CELLS)
    (hsorted : ∀ i j, i < j → j < LEAF_NODE_MAX_CELLS →
      leaf_key_at (pager.node page_num) i < leaf_key_at (pager.node page_num) j)
    (habsent : ∀ i, i < LEAF_NODE_MAX_CELLS → leaf_key_at (pager.node page_num) i ≠ value.id)
    (hfind : leaf_node_find table page_num value.id = .ok (cursor, table_f))
    (hold : page_num < pager.num_pages)
    (hfree : pager.num_pages < TABLE_MAX_PAGES) :
    ∃ table1, leaf_node_split_cells table_f cursor value.id value
        = .ok (table1, pager.num_pages)
      ∧ (∀ hooks : Hooks, leaf_node_split_and_insert hooks table_f cursor value.id value
          = if hooks.is_node_root (table1.pager.node page_num) then
              hooks.create_new_root table1 pager.num_pages
            else .error .update_parent)
      ∧ leaf_keys (table1.pager.node page_num) ++ leaf_keys (table1.pager.node pager.num_pages)
          = (leaf_keys (pager.node page_num)).take cursor.cell_num
              ++ value.id :: (leaf_keys (pager.node page_num)).drop cursor.cell_num
      ∧ (leaf_keys (table1.pager.node page_num)
            ++ leaf_keys (table1.pager.node pager.num_pages)).Perm
          (value.id :: leaf_keys (pager.node page_num))
      ∧ (leaf_keys (table1.pager.node page_num)
            ++ leaf_keys (table1.pager.node pager.num_pages)).Pairwise (fun x y => x < y)
      ∧ (leaf_keys (table1.pager.node page_num)).Pairwise (fun x y => x < y)
      ∧ (leaf_keys (table1.pager.node pager.num_pages)).Pairwise (fun x y => x < y)
      ∧ (∀ x, x ∈ leaf_keys (table1.pager.node page_num) →
          ∀ y, y ∈ leaf_keys (table1.pager.node pager.num_pages) → x < y) := by
  rw [LEAF_NODE_MAX_CELLS_eq] at hfull hsorted habsent
  obtain ⟨c, hloop, hcn, _, hsides⟩ :=
    leaf_node_find_loop_sorted (pager.node page_num) value.id (by rw [hfull]; decide)
      (fun i j hij hj => hsorted i j hij (by rw [hfull] at hj; exact hj))
  obtain ⟨hbelow, habove⟩ :=
    hsides (fun i hi => habsent i (by rw [hfull] at hi; exact hi))
  rw [hfull] at hcn habove
  unfold leaf_node_find at hfind
  rw [hget] at hfind
  simp only [hloop] at hfind
  cases hfind
  obtain ⟨table1, hsplit, hplace, hrow, hold_keys, hnew_keys⟩ :=
    leaf_node_split_cells_keys { table with pager := pager }
      { page_num := page_num, cell_num := c, end_of_table := false } value.id value pager
      (get_page_idem _ _ _ hget) hold hfree
  have hh1 : ∀ j, j < c →
      (if j < 7 then leaf_key_at (table1.pager.node page_num) j
        else leaf_key_at (table1.pager.node pager.num_pages) (j - 7))
      = leaf_key_at (pager.node page_num) j := by
    intro j hj
    have h := hplace j (by omega) (by
      show j ≠ c
      omega)
    rw [if_neg (show ¬ j > c by omega)] at h
    exact h
  have hh3 : ∀ j, c < j → j ≤ 13 →
      (if j < 7 then leaf_key_at (table1.pager.node page_num) j
        else leaf_key_at (table1.pager.node pager.num_pages) (j - 7))
      = leaf_key_at (pager.node page_num) (j - 1) := by
    intro j hj hj13
    have h := hplace j (by omega) (by
      show j ≠ c
      omega)
    rw [if_pos (show j > c from hj)] at h
    exact h
  have hh2 := hrow (by
    show c < 14
    omega)
  have hlist : leaf_keys (table1.pager.node page_num)
        ++ leaf_keys (table1.pager.node pager.num_pages)
      = (List.range (13 + 1)).map (fun j =>
          if j < 7 then leaf_key_at (table1.pager.node page_num) j
          else leaf_key_at (table1.pager.node pager.num_pages) (j - 7)) := by
    rw [hold_keys, hnew_keys]
    simp [List.range_succ]
  have hkeys : leaf_keys (pager.node page_num)
      = (List.range 13).map (leaf_key_at (pager.node page_num)) := by
    unfold leaf_keys
    rw [hfull]
  have hinsert := map_range_insert (leaf_key_at (pager.node page_num))
    (fun j => if j < 7 then leaf_key_at (table1.pager.node page_num) j
      else leaf_key_at (table1.pager.node pager.num_pages) (j - 7))
    13 c value.id hcn hh1 hh2 hh3
  have hmono := ascending_insert (leaf_key_at (pager.node page_num))
    (fun j => if j < 7 then leaf_key_at (table1.pager.node page_num) j
      else leaf_key_at (table1.pager.node pager.num_pages) (j - 7))
    13 c value.id hcn hsorted hbelow habove hh1 hh2 hh3
  have hpair : (leaf_keys (table1.pager.node page_num)
      ++ leaf_keys (table1.pager.node pager.num_pages)).Pairwise (fun x y => x < y) := by
    rw [hlist, List.pairwise_map]
    exact (List.pairwise_lt_range (13 + 1)).imp_of_mem
      (fun _ hb hab => hmono _ _ hab (List.mem_range.mp hb))
  have hparts := List.pairwise_append.mp hpair
  refine ⟨table1, hsplit, ?_, ?_, ?_, hpair, hparts.1, hparts.2.1, hparts.2.2⟩
  · intro hooks
    simp only [leaf_node_split_and_insert, hsplit]
  · rw [hlist, hinsert, hkeys]
  · rw [hlist, hinsert, hkeys]
    have h : (((List.range 13).map (leaf_key_at (pager.node page_num))).take c
        ++ value.id :: ((List.range 13).map (leaf_key_at (pager.node page_num))).drop c).Perm
        (value.id :: (((List.range 13).map (leaf_key_at (pager.node page_num))).take c
          ++ ((List.range 13).map (leaf_key_at (pager.node page_num))).drop c)) :=
      List.perm_middle
    rw [List.take_append_drop] at h
    exact h

set_option maxRecDepth 100000 in
/-- The full leaf with keys 1, 3, ..., 25 and the row with id 10: the search
gives cell 5, and after the split the keys of page 0 followed by those of
page 1 ascend strictly and have 10 among them. -/
theorem leaf_node_split_keys_ascending_witness :
    ∃ table1, leaf_node_find (example_table 13 1) 0 10
        = .ok ({ page_num := 0, cell_num := 5, end_of_table := false }, example_table 13 1)
      ∧ leaf_node_split_cells (example_table 13 1)
          { page_num := 0, cell_num := 5, end_of_table := false } 10
          (example_row 10 (by decide)) = .ok (table1, 1)
      ∧ (leaf_keys (table1.pager.node 0) ++ leaf_keys (table1.pager.node 1)).Pairwise
          (fun x y => x < y)
      ∧ 10 ∈ leaf_keys (table1.pager.node 0) ++ leaf_keys (table1.pager.node 1) := by
  have hfind : leaf_node_find (example_table 13 1) 0 (example_row 10 (by decide)).id
      = .ok ({ page_num := 0, cell_num := 5, end_of_table := false }, example_table 13 1) := by
    rfl
  obtain ⟨table1, h1, _, _, hperm, hpair, _⟩ :=
    leaf_node_split_keys_ascending (example_table 13 1) 0 (example_row 10 (by decide))
      (example_table 13 1).pager { page_num := 0, cell_num := 5, end_of_table := false }
      (example_table 13 1) rfl (example_table_count 13 1 (by decide))
      (fun i j hij hj => example_table_sorted 13 1 (by decide) i j hij
        (lt_of_lt_of_eq hj (example_table_count 13 1 (by decide)).symm))
      (fun i hi h => by
        have hkey := example_table_key 13 1 i (by decide) hi
        have h' : leaf_key_at ((example_table 13 1).pager.node 0) i = 10 := h
        rw [hkey] at h'
        omega)
      hfind (by decide) (by decide)
  exact ⟨table1, hfind, h1, hpair, hperm.mem_iff.mpr (List.mem_cons_self _ _)⟩


/-! ## The page number of the new leaf -/

theorem get_page_other_slots (pager pager1 : Pager) (n : Nat)
    (h : get_page pager n = .ok pager1) : ∀ m, m ≠ n → pager1.pages m = pager.pages m := by
  intro m hm
  cases hp : pager.pages n with
  | some node =>
    obtain ⟨hn, _⟩ := get_page_ok_resident pager pager1 n h
    rw [get_page_resident pager n node hp hn] at h
    cases h
    rfl
  | none =>
    obtain ⟨hn, _⟩ := get_page_ok_resident pager pager1 n h
    obtain ⟨page, hget, _⟩ := get_page_empty_slot pager n hn hp
    rw [hget] at h
    cases h
    simp [Function.update, hm]

theorem Pager.num_pages_set_node (pager : Pager) (n : Nat) (node : Page) :
    (pager.set_node n node).num_pages = pager.num_pages :=
  rfl

theorem Pager.pages_set_node_same (pager : Pager) (n : Nat) (node : Page) :
    (pager.set_node n node).pages n = some node := by
  simp [Pager.set_node]

theorem Pager.pages_set_node_other (pager : Pager) (n m : Nat) (node : Page) (h : m ≠ n) :
    (pager.set_node n node).pages m = pager.pages m := by
  simp [Pager.set_node, Function.update, h]

/-- The loop of the split writes to the buffers of the two nodes only: the
page count and every other slot stay. -/
theorem leaf_node_split_loop_frame (old new c : Nat) (value : Row) :
    ∀ k pager,
      (leaf_node_split_loop old new c value k pager).num_pages = pager.num_pages
      ∧ ∀ m, m ≠ old → m ≠ new →
          (leaf_node_split_loop old new c value k pager).pages m = pager.pages m := by
  intro k
  induction k with
  | zero =>
    intro pager
    exact ⟨rfl, fun _ _ _ => rfl⟩
  | succ k ih =>
    intro pager
    rw [leaf_node_split_loop_succ]
    obtain ⟨h1, h2⟩ := ih (pager.set_node (if k ≥ LEAF_NODE_LEFT_SPLIT_COUNT then new else old)
      (if k = c then
        serialize_row value
          (pager.node (if k ≥ LEAF_NODE_LEFT_SPLIT_COUNT then new else old))
          (leaf_node_cell (k % LEAF_NODE_LEFT_SPLIT_COUNT))
      else if k > c then
        memcpy (pager.node (if k ≥ LEAF_NODE_LEFT_SPLIT_COUNT then new else old))
          (leaf_node_cell (k % LEAF_NODE_LEFT_SPLIT_COUNT)) (pager.node old)
          (leaf_node_cell (k - 1)) LEAF_NODE_CELL_SIZE
      else
        memcpy (pager.node (if k ≥ LEAF_NODE_LEFT_SPLIT_COUNT then new else old))
          (leaf_node_cell (k % LEAF_NODE_LEFT_SPLIT_COUNT)) (pager.node old)
          (leaf_node_cell k) LEAF_NODE_CELL_SIZE))
    refine ⟨h1, ?_⟩
    intro m hm1 hm2
    rw [h2 m hm1 hm2]
    by_cases hk7 : k ≥ LEAF_NODE_LEFT_SPLIT_COUNT
    · simp only [if_pos hk7]
      exact Pager.pages_set_node_other _ _ _ _ hm2
    · simp only [if_neg hk7]
      exact Pager.pages_set_node_other _ _ _ _ hm1

/-- The pager after the split has the page count it had before the loop, its
slots of the two nodes are occupied and every other slot is as before. -/
theorem leaf_node_split_pager_frame (pager1 : Pager) (old new c : Nat) (value : Row) :
    (leaf_node_split_pager pager1 old new c value).num_pages = pager1.num_pages
    ∧ (∃ node, (leaf_node_split_pager pager1 old new c value).pages old = some node)
    ∧ (∃ node, (leaf_node_split_pager pager1 old new c value).pages new = some node)
    ∧ ∀ m, m ≠ old → m ≠ new →
        (leaf_node_split_pager pager1 old new c value).pages m = pager1.pages m := by
  obtain ⟨h1, h2⟩ := leaf_node_split_loop_frame old new c value (LEAF_NODE_MAX_CELLS + 1)
    (pager1.set_node new (initialize_leaf_node (pager1.node new)))
  simp only [leaf_node_split_pager]
  generalize leaf_node_split_loop old new c value (LEAF_NODE_MAX_CELLS + 1)
    (pager1.set_node new (initialize_leaf_node (pager1.node new))) = pager3 at h1 h2 ⊢
  refine ⟨?_, ?_, ?_, ?_⟩
  · rw [Pager.num_pages_set_node, Pager.num_pages_set_node, h1, Pager.num_pages_set_node]
  · by_cases hsame : old = new
    · rw [hsame]
      exact ⟨_, Pager.pages_set_node_same _ _ _⟩
    · rw [Pager.pages_set_node_other _ _ _ _ hsame]
      exact ⟨_, Pager.pages_set_node_same _ _ _⟩
  · exact ⟨_, Pager.pages_set_node_same _ _ _⟩
  · intro m hm1 hm2
    rw [Pager.pages_set_node_other _ _ _ _ hm2, Pager.pages_set_node_other _ _ _ _ hm1,
      h2 m hm1 hm2, Pager.pages_set_node_other _ _ _ _ hm2]

/-- Fetching the page numbered `num_pages` into its empty slot makes the
page count one more. -/
theorem get_page_at_num_pages (pager : Pager) (hk : pager.num_pages < TABLE_MAX_PAGES)
    (hempty : pager.pages pager.num_pages = none) :
    ∃ pager1, get_page pager pager.num_pages = .ok pager1
      ∧ pager1.num_pages = pager.num_pages + 1 := by
  obtain ⟨page, hget, _⟩ := get_page_empty_slot pager pager.num_pages hk hempty
  refine ⟨_, hget, ?_⟩
  simp

/-- C21: on a pager that counts `k` pages, `k < TABLE_MAX_PAGES`, with slot
`k` empty, and a cursor on one of the `k` pages, `leaf_node_split_and_insert`
takes `k`, the value of `get_unused_page_num`, as the page number of its new
leaf.  Afterwards the pager counts `k + 1` pages, slot `k` is occupied, and
every slot other than `k` and that of the cursor is as it was, so no page
number in use is taken again; if all occupied slots were below the page count
before, they are so after.  The call itself goes on to the test
`is_node_root` on this state. -/
theorem leaf_node_split_new_page_number (table : Table) (cursor : Cursor) (key : Nat)
    (value : Row)
    (hk : table.pager.num_pages < TABLE_MAX_PAGES)
    (hempty : table.pager.pages table.pager.num_pages = none)
    (hcursor : cursor.page_num < table.pager.num_pages) :
    ∃ pager0 table1, get_page table.pager cursor.page_num = .ok pager0
      ∧ get_unused_page_num pager0 = table.pager.num_pages
      ∧ leaf_node_split_cells table cursor key value = .ok (table1, table.pager.num_pages)
      ∧ (∀ hooks : Hooks, leaf_node_split_and_insert hooks table cursor key value
          = if hooks.is_node_root (table1.pager.node cursor.page_num) then
              hooks.create_new_root table1 table.pager.num_pages
            else .error .update_parent)
      ∧ table1.pager.num_pages = table.pager.num_pages + 1
      ∧ (∃ node, table1.pager.pages table.pager.num_pages = some node)
      ∧ (∃ node, table1.pager.pages cursor.page_num = some node)
      ∧ (∀ m, m ≠ cursor.page_num → m ≠ table.pager.num_pages →
          table1.pager.pages m = table.pager.pages m)
      ∧ (pager_slots_counted table.pager → pager_slots_counted table1.pager) := by
  obtain ⟨pager0, hget0⟩ := get_page_ok_of_lt table.pager cursor.page_num (by omega)
  have hnum0 : pager0.num_pages = table.pager.num_pages :=
    (get_page_frame _ _ _ hget0).2.2.1 hcursor
  have hslots0 := get_page_other_slots _ _ _ hget0
  have hempty0 : pager0.pages pager0.num_pages = none := by
    rw [hnum0, hslots0 _ (by omega)]
    exact hempty
  obtain ⟨pager1, hget1, hnum1⟩ := get_page_at_num_pages pager0 (by omega) hempty0
  rw [hnum0] at hget1 hnum1
  have hslots1 := get_page_other_slots _ _ _ hget1
  obtain ⟨f1, f2, f3, f4⟩ :=
    leaf_node_split_pager_frame pager1 cursor.page_num table.pager.num_pages
      cursor.cell_num value
  have hsplit : leaf_node_split_cells table cursor key value
      = .ok ({ table with
               pager := leaf_node_split_pager pager1 cursor.page_num table.pager.num_pages
                 cursor.cell_num value }, table.pager.num_pages) := by
    simp only [leaf_node_split_cells, hget0, get_unused_page_num, hnum0, hget1]
  refine ⟨pager0, _, hget0, hnum0, hsplit, ?_, ?_, f3, f2, ?_, ?_⟩
  · intro hooks
    simp only [leaf_node_split_and_insert, hsplit]
  · show (leaf_node_split_pager pager1 cursor.page_num table.pager.num_pages
        cursor.cell_num value).num_pages = table.pager.num_pages + 1
    rw [f1, hnum1]
  · intro m hm1 hm2
    show (leaf_node_split_pager pager1 cursor.page_num table.pager.num_pages
        cursor.cell_num value).pages m = table.pager.pages m
    rw [f4 m hm1 hm2, hslots1 m hm2, hslots0 m hm1]
  · intro hcounted n node hn
    show n < (leaf_node_split_pager pager1 cursor.page_num table.pager.num_pages
        cursor.cell_num value).num_pages
    rw [f1, hnum1]
    by_cases hn1 : n = cursor.page_num
    · omega
    · by_cases hn2 : n = table.pager.num_pages
      · omega
      · have hn' : (leaf_node_split_pager pager1 cursor.page_num table.pager.num_pages
            cursor.cell_num value).pages n = some node := hn
        rw [f4 n hn1 hn2, hslots1 n hn2, hslots0 n hn1] at hn'
        have := hcounted n node hn'
        omega

/-- The full leaf with keys 1, 3, ..., 25 as the only page: the split takes
page number 1 for the new leaf and the pager counts 2 pages afterwards. -/
theorem leaf_node_split_new_page_number_witness :
    ∃ table1, leaf_node_split_cells (example_table 13 1)
        { page_num := 0, cell_num := 5, end_of_table := false } 10
        (example_row 10 (by decide)) = .ok (table1, 1)
      ∧ table1.pager.num_pages = 2
      ∧ ∃ node, table1.pager.pages 1 = some node := by
  obtain ⟨_, table1, _, _, h3, _, h5, h6, _⟩ :=
    leaf_node_split_new_page_number (example_table 13 1)
      { page_num := 0, cell_num := 5, end_of_table := false } 10
      (example_row 10 (by decide)) (by decide) rfl (by decide)
  exact ⟨table1, h3, h5, h6⟩


/-! ## Binary search on any keys -/

theorem leaf_node_find_in_page_succ (node : Page) (key fuel lo hi : Nat) (reads : List Nat) :
    leaf_node_find_in_page node key (fuel + 1) lo hi reads
      = if hi ≠ lo then
          if leaf_node_key ((lo + hi) % 2 ^ 32 / 2) + LEAF_NODE_KEY_SIZE ≤ PAGE_SIZE then
            if read_u32 node (leaf_node_key ((lo + hi) % 2 ^ 32 / 2)) = key then
              some (.cursor ((lo + hi) % 2 ^ 32 / 2) true, reads ++ [(lo + hi) % 2 ^ 32 / 2])
            else if key < read_u32 node (leaf_node_key ((lo + hi) % 2 ^ 32 / 2)) then
              leaf_node_find_in_page node key fuel lo ((lo + hi) % 2 ^ 32 / 2)
                (reads ++ [(lo + hi) % 2 ^ 32 / 2])
            else
              leaf_node_find_in_page node key fuel (((lo + hi) % 2 ^ 32 / 2 + 1) % 2 ^ 32) hi
                (reads ++ [(lo + hi) % 2 ^ 32 / 2])
          else some (.read_outside_page ((lo + hi) % 2 ^ 32 / 2), reads)
        else some (.cursor lo false, reads) :=
  rfl

/-- The loop of `leaf_node_find` on a leaf of `n` cells, `n` at most 14,
with any keys: from bounds `lo ≤ hi ≤ n` it returns within `hi - lo + 1`
tests, every key it reads lies inside the page, at an index below `n`, at
most `hi - lo` of them, and it gives a cell number between `lo` and `hi`;
from the branch of equality the key of that cell is the key sought.  The
loop without the test on the page bound gives the same cell number. -/
theorem leaf_node_find_in_page_spec (node : Page) (key n : Nat) (hn : n ≤ 14) :
    ∀ fuel lo hi reads, lo ≤ hi → hi ≤ n → hi - lo < fuel → (∀ i, i ∈ reads → i < n) →
      ∃ c found reads1,
        leaf_node_find_in_page node key fuel lo hi reads = some (.cursor c found, reads1)
        ∧ leaf_node_find_loop node key fuel lo hi = some c
        ∧ lo ≤ c ∧ c ≤ hi
        ∧ (∀ i, i ∈ reads1 → i < n)
        ∧ reads1.length ≤ reads.length + (hi - lo)
        ∧ (found = true → c < n ∧ read_u32 node (leaf_node_key c) = key) := by
  intro fuel
  induction fuel with
  | zero => intro lo hi reads _ _ h; omega
  | succ fuel ih =>
    intro lo hi reads hlo hhi hfuel hreads
    rw [leaf_node_find_in_page_succ]
    unfold leaf_node_find_loop
    by_cases heq : hi = lo
    · subst heq
      simp only [ne_eq, not_true_eq_false, if_false]
      exact ⟨hi, false, reads, rfl, rfl, le_refl _, le_refl _, hreads, by omega,
        fun h => by cases h⟩
    · simp only [ne_eq, heq, not_false_eq_true, if_true]
      have hmod : (lo + hi) % 2 ^ 32 = lo + hi := Nat.mod_eq_of_lt (by omega)
      rw [hmod]
      have hidx1 : lo ≤ (lo + hi) / 2 := by omega
      have hidx2 : (lo + hi) / 2 < hi := by omega
      generalize (lo + hi) / 2 = index at hidx1 hidx2
      have hin : leaf_node_key index + LEAF_NODE_KEY_SIZE ≤ PAGE_SIZE := by
        rw [leaf_node_key_eq index (by omega), LEAF_NODE_KEY_SIZE_eq, PAGE_SIZE_eq]
        omega
      have hreads1 : ∀ i, i ∈ reads ++ [index] → i < n := by
        intro i hi1
        rcases List.mem_append.mp hi1 with h | h
        · exact hreads i h
        · rw [List.mem_singleton.mp h]
          omega
      have hlen : (reads ++ [index]).length = reads.length + 1 := by simp
      simp only [if_pos hin]
      by_cases hk : read_u32 node (leaf_node_key index) = key
      · simp only [if_pos hk]
        exact ⟨index, true, reads ++ [index], rfl, rfl, hidx1, by omega, hreads1, by omega,
          fun _ => ⟨by omega, hk⟩⟩
      · simp only [if_neg hk]
        by_cases hlt : key < read_u32 node (leaf_node_key index)
        · simp only [if_pos hlt]
          obtain ⟨c, found, reads1, h1, h0, h2, h3, h4, h5, h6⟩ :=
            ih lo index (reads ++ [index]) hidx1 (by omega) (by omega) hreads1
          exact ⟨c, found, reads1, h1, h0, h2, by omega, h4, by omega, h6⟩
        · simp only [if_neg hlt]
          have hmod2 : (index + 1) % 2 ^ 32 = index + 1 := Nat.mod_eq_of_lt (by omega)
          rw [hmod2]
          obtain ⟨c, found, reads1, h1, h0, h2, h3, h4, h5, h6⟩ :=
            ih (index + 1) hi (reads ++ [index]) (by omega) hhi (by omega) hreads1
          exact ⟨c, found, reads1, h1, h0, by omega, h3, h4, by omega, h6⟩

/-- C22, as the code has it: on a leaf whose cell count `n` is at most
`LEAF_NODE_MAX_CELLS + 1`, so on every leaf that fits a page, with any keys,
sorted or not, and any key sought, the binary search of `leaf_node_find`
returns; every key the loop reads lies inside the page buffer, at an index
below `n`, at most `n` of them, and the cell number of the cursor is at
most `n`; when the loop returns from the branch of equality the cell number
is below `n` and the key of that cell is the key sought. -/
theorem leaf_node_find_any_keys_in_page (table : Table) (page_num key : Nat) (pager : Pager)
    (hget : get_page table.pager page_num = .ok pager)
    (hn : read_u32 (pager.node page_num) leaf_node_num_cells ≤ LEAF_NODE_MAX_CELLS + 1) :
    ∃ c found reads,
      leaf_node_find_in_page (pager.node page_num) key
          (read_u32 (pager.node page_num) leaf_node_num_cells + 1) 0
          (read_u32 (pager.node page_num) leaf_node_num_cells) []
        = some (.cursor c found, reads)
      ∧ leaf_node_find table page_num key
          = .ok ({ page_num := page_num, cell_num := c, end_of_table := false },
                 { table with pager := pager })
      ∧ c ≤ read_u32 (pager.node page_num) leaf_node_num_cells
      ∧ (∀ i, i ∈ reads →
          i < read_u32 (pager.node page_num) leaf_node_num_cells
          ∧ leaf_node_key i + LEAF_NODE_KEY_SIZE ≤ PAGE_SIZE)
      ∧ reads.length ≤ read_u32 (pager.node page_num) leaf_node_num_cells
      ∧ (found = true →
          c < read_u32 (pager.node page_num) leaf_node_num_cells
          ∧ read_u32 (pager.node page_num) (leaf_node_key c) = key) := by
  rw [LEAF_NODE_MAX_CELLS_eq] at hn
  obtain ⟨c, found, reads, h1, hloop, _, h3, h4, h5, h6⟩ :=
    leaf_node_find_in_page_spec (pager.node page_num) key
      (read_u32 (pager.node page_num) leaf_node_num_cells) hn
      (read_u32 (pager.node page_num) leaf_node_num_cells + 1) 0
      (read_u32 (pager.node page_num) leaf_node_num_cells) [] (by omega) (le_refl _)
      (by omega) (fun i hi => by cases hi)
  refine ⟨c, found, reads, h1, ?_, h3, ?_, ?_, h6⟩
  · unfold leaf_node_find
    rw [hget]
    simp only [hloop]
  · intro i hi
    have hlt := h4 i hi
    refine ⟨hlt, ?_⟩
    rw [leaf_node_key_eq i (by omega), LEAF_NODE_KEY_SIZE_eq, PAGE_SIZE_eq]
    omega
  · simpa using h5

/-- The leaf with keys 1, 3, 5 and the key 4: the search returns a cell
number of at most 3 and reads below cell 3 only. -/
theorem leaf_node_find_any_keys_in_page_witness :
    ∃ c found reads,
      leaf_node_find_in_page (example_leaf 3) 4 4 0 3 [] = some (.cursor c found, reads)
      ∧ leaf_node_find (example_table 3 1) 0 4
          = .ok ({ page_num := 0, cell_num := c, end_of_table := false }, example_table 3 1)
      ∧ c ≤ 3
      ∧ ∀ i, i ∈ reads → i < 3 ∧ leaf_node_key i + LEAF_NODE_KEY_SIZE ≤ PAGE_SIZE := by
  have hn : read_u32 ((example_table 3 1).pager.node 0) leaf_node_num_cells = 3 :=
    example_table_count 3 1 (by decide)
  obtain ⟨c, found, reads, h1, h2, h3, h4, _⟩ :=
    leaf_node_find_any_keys_in_page (example_table 3 1) 0 4 (example_table 3 1).pager rfl
      (by rw [hn]; decide)
  rw [hn] at h1 h3 h4
  exact ⟨c, found, reads, h1, h2, h3, h4⟩

theorem example_leaf_zero_keys_count (n : Nat) (hn : n < 2 ^ 32) :
    read_u32 (example_leaf_zero_keys n) leaf_node_num_cells = n :=
  read_write_u32 _ _ _ hn

set_option maxRecDepth 100000 in
/-- C22 as stated fails for cell counts a page cannot hold.  On the page
whose count field holds `2 ^ 32 - 1` the first key the search reads is that
of index `2 ^ 31 - 1`, at byte offset 2147483361 of the buffer of
`PAGE_SIZE` bytes.  On the page whose count field holds 15 and whose keys
are 0, the search for the key 1 reads the keys of the indices 7, 11, 13 and
then that of index 14, at byte offset 4168.  In both the loop comes to a
read outside the buffer and gives no cell number. -/
theorem leaf_node_find_outside_page_counterexample :
    (read_u32 (example_leaf_zero_keys 4294967295) leaf_node_num_cells = 4294967295
      ∧ leaf_node_find_in_page (example_leaf_zero_keys 4294967295) 1
          (read_u32 (example_leaf_zero_keys 4294967295) leaf_node_num_cells + 1) 0
          (read_u32 (example_leaf_zero_keys 4294967295) leaf_node_num_cells) []
        = some (.read_outside_page 2147483647, [])
      ∧ leaf_node_key 2147483647 = 2147483361)
    ∧ (read_u32 (example_leaf_zero_keys 15) leaf_node_num_cells = 15
      ∧ leaf_node_find_in_page (example_leaf_zero_keys 15) 1
          (read_u32 (example_leaf_zero_keys 15) leaf_node_num_cells + 1) 0
          (read_u32 (example_leaf_zero_keys 15) leaf_node_num_cells) []
        = some (.read_outside_page 14, [7, 11, 13])
      ∧ leaf_node_key 14 = 4168) := by
  have hkey1 : leaf_node_key 2147483647 = 2147483361 := by decide
  have hkey2 : leaf_node_key 14 = 4168 := by decide
  refine ⟨⟨example_leaf_zero_keys_count _ (by decide), ?_, hkey1⟩,
    ⟨example_leaf_zero_keys_count _ (by decide), ?_, hkey2⟩⟩
  · rw [example_leaf_zero_keys_count _ (by decide), leaf_node_find_in_page_succ]
    have hidx : (0 + 4294967295) % 2 ^ 32 / 2 = 2147483647 := by decide
    rw [hidx, hkey1, if_pos (by decide), if_neg (by decide)]
  · rw [example_leaf_zero_keys_count _ (by decide)]
    decide

/-! ## The cells of a leaf inside the page -/

/-- C23: with the layout constants of the code, `LEAF_NODE_MAX_CELLS` is
`(PAGE_SIZE - LEAF_NODE_HEADER_SIZE) / LEAF_NODE_CELL_SIZE`, which is 13.  For
every cell index below it the cell is its key followed by its value, starts
at or after the end of the leaf header and ends at or before the end of the
page; the cells of two different indices have no byte in common; a cell
with index `LEAF_NODE_MAX_CELLS` would end past the page. -/
theorem leaf_node_cells_inside_page :
    LEAF_NODE_MAX_CELLS = (PAGE_SIZE - LEAF_NODE_HEADER_SIZE) / LEAF_NODE_CELL_SIZE
    ∧ LEAF_NODE_MAX_CELLS = 13
    ∧ (∀ i, i < LEAF_NODE_MAX_CELLS →
        leaf_node_key i = leaf_node_cell i
        ∧ leaf_node_value i = leaf_node_key i + LEAF_NODE_KEY_SIZE
        ∧ leaf_node_value i + LEAF_NODE_VALUE_SIZE = leaf_node_cell i + LEAF_NODE_CELL_SIZE
        ∧ LEAF_NODE_HEADER_SIZE ≤ leaf_node_cell i
        ∧ leaf_node_cell i + LEAF_NODE_CELL_SIZE ≤ PAGE_SIZE)
    ∧ (∀ i j, i < LEAF_NODE_MAX_CELLS → j < LEAF_NODE_MAX_CELLS → i ≠ j →
        leaf_node_cell i + LEAF_NODE_CELL_SIZE ≤ leaf_node_cell j
        ∨ leaf_node_cell j + LEAF_NODE_CELL_SIZE ≤ leaf_node_cell i)
    ∧ PAGE_SIZE < leaf_node_cell LEAF_NODE_MAX_CELLS + LEAF_NODE_CELL_SIZE := by
  have hvalue : LEAF_NODE_VALUE_SIZE = 293 := rfl
  refine ⟨rfl, rfl, ?_, ?_, ?_⟩
  · intro i hi
    rw [LEAF_NODE_MAX_CELLS_eq] at hi
    refine ⟨rfl, rfl, ?_, ?_, ?_⟩
    · rw [leaf_node_value_eq i (by omega), leaf_node_cell_eq i (by omega), hvalue,
        LEAF_NODE_CELL_SIZE_eq]
    · rw [leaf_node_cell_eq i (by omega), LEAF_NODE_HEADER_SIZE_eq]
      omega
    · rw [leaf_node_cell_eq i (by omega), LEAF_NODE_CELL_SIZE_eq, PAGE_SIZE_eq]
      omega
  · intro i j hi hj hij
    rw [LEAF_NODE_MAX_CELLS_eq] at hi hj
    rw [leaf_node_cell_eq i (by omega), leaf_node_cell_eq j (by omega), LEAF_NODE_CELL_SIZE_eq]
    omega
  · rw [LEAF_NODE_MAX_CELLS_eq, leaf_node_cell_eq 13 (by omega), LEAF_NODE_CELL_SIZE_eq,
      PAGE_SIZE_eq]
    omega

/-- The last cell, index 12, ends inside the page and has no byte in common
with cell 0. -/
theorem leaf_node_cells_inside_page_witness :
    leaf_node_cell 12 + LEAF_NODE_CELL_SIZE ≤ PAGE_SIZE
    ∧ (leaf_node_cell 0 + LEAF_NODE_CELL_SIZE ≤ leaf_node_cell 12
      ∨ leaf_node_cell 12 + LEAF_NODE_CELL_SIZE ≤ leaf_node_cell 0) :=
  ⟨(leaf_node_cells_inside_page.2.2.1 12 (by decide)).2.2.2.2,
   leaf_node_cells_inside_page.2.2.2.1 0 12 (by decide) (by decide) (by decide)⟩

end SqliteDemo
